import Mathlib

/-!
# OOK decoders (decoders.h) — shallow embedding and verified properties

The C++ class `DecodeOOK` and its four subclasses (`VisonicDecoder`,
`EMxDecoder`, `KSxDecoder`, `FSxDecoder`) are embedded as pure functions on one
record.  Machine integers are natural numbers with explicit reduction modulo
`2^8` (type `byte`) or `2^16` (type `word`).  The clock `millis()` is an
argument of `nextPulse`.  The `Serial.print` call in `gotBit` has no effect on
the decoder and is left out, and so are the methods no decoder calls
(`manchester`, `reverseBits`, `reverseNibbles`).  The return type `char` of
`decode` is signed (avr-gcc), so `case -1` of `nextPulse` is reachable.
-/

namespace OOK

/-! ## Decoder states: `enum { UNKNOWN, SYNC, T0, T1, T2, T3, OK, TRAILING, DONE }` -/

@[reducible] def UNKNOWN : Nat := 0
@[reducible] def SYNC : Nat := 1
@[reducible] def T0 : Nat := 2
@[reducible] def T1 : Nat := 3
@[reducible] def T2 : Nat := 4
@[reducible] def T3 : Nat := 5
@[reducible] def OK : Nat := 6
@[reducible] def TRAILING : Nat := 7
@[reducible] def DONE : Nat := 8

/-- The four concrete decoder classes; `decode` is dispatched on this tag. -/
inductive Kind where
  | visonic
  | emx
  | ksx
  | fsx
  deriving DecidableEq, Repr

/-- The object state.  The first group are the members of `DecodeOOK`, the
second the members of `KSxDecoder` (`pulse`, `msgType`, `bitCount`), the
third those of `FSxDecoder` (`fsBitCount` is its `bitCount`).  The field `oob`
is a ghost: it becomes `true` as soon as `data[]` is read or written at an
index outside `0..24`. -/
structure DecodeOOK where
  bits : Nat
  flip : Nat
  state : Nat
  pos : Nat
  data : List Nat
  lastCrc : Nat
  lastTime : Nat
  repeats : Nat
  minGap : Nat
  minCount : Nat
  pulse : Nat
  msgType : Nat
  bitCount : Nat
  fsBitCount : Nat
  extendedMsg : Bool
  parity : Bool
  oob : Bool
  deriving DecidableEq, Repr

/-- The constant `sizeof data`. -/
@[reducible] def sizeofData : Nat := 25

/-- Value of `data[i]`. -/
def rd (s : DecodeOOK) (i : Nat) : Nat := s.data.getD i 0

/-- Ghost bookkeeping for a read of `data[i]`. -/
def touch (s : DecodeOOK) (i : Nat) : DecodeOOK :=
  { s with oob := s.oob || decide (sizeofData ≤ i) }

/-- The assignment `data[i] = v` (stored as a byte). -/
def wr (s : DecodeOOK) (i v : Nat) : DecodeOOK :=
  { s with data := s.data.set i (v % 256), oob := s.oob || decide (sizeofData ≤ i) }

/-- C truth value of a comparison. -/
def b2n (b : Bool) : Nat := if b then 1 else 0

/-- Method `DecodeOOK::resetDecoder`. -/
def resetDecoder (s : DecodeOOK) : DecodeOOK :=
  { s with bits := 0, pos := 0, flip := 0, state := UNKNOWN }

/-- Method `DecodeOOK::gotBit`: `*ptr |= (value << bits)`, then the 7-bit roll.
The byte cleared after a roll is `ptr[1]`, that is `data[pos + 1]` for the old
`pos`. -/
def gotBit (s : DecodeOOK) (value : Nat) : DecodeOOK :=
  let s1 := wr s s.pos (rd s s.pos ||| (value <<< s.bits))
  let bits1 := (s1.bits + 1) % 256
  if 7 ≤ bits1 then
    let pos1 := (s1.pos + 1) % 256
    if pos1 < sizeofData then
      { wr { s1 with bits := 0, pos := pos1 } (s1.pos + 1) 0 with state := OK }
    else
      resetDecoder { s1 with bits := 0, pos := pos1 }
  else
    { s1 with bits := bits1, state := OK }

/-- First loop of `alignTail`:
`for (byte i = 0; i < pos; ++i) data[i] = (data[i] >> bits) | (data[i+1] << (8 - bits));` -/
def alignLoop (s : DecodeOOK) : DecodeOOK :=
  (List.range s.pos).foldl
    (fun t i => wr (touch t (i + 1)) i ((rd t i >>> t.bits) ||| (rd t (i + 1) <<< (8 - t.bits)))) s

/-- Second loop of `alignTail`: `for (byte i = 0; i < pos; ++i) data[i] = data[i+n];` -/
def dropLoop (s : DecodeOOK) (n : Nat) : DecodeOOK :=
  (List.range s.pos).foldl (fun t i => wr (touch t (i + n)) i (rd t (i + n))) s

/-- Method `DecodeOOK::alignTail`. -/
def alignTail (s : DecodeOOK) (max : Nat) : DecodeOOK :=
  let s1 :=
    if s.bits ≠ 0 then
      { alignLoop (wr s s.pos (rd s s.pos >>> (8 - s.bits))) with bits := 0 }
    else s
  if 0 < max ∧ max < s1.pos then dropLoop { s1 with pos := max } (s1.pos - max)
  else s1

/-- Modelled from the spec: the function `_crc16_update` of the AVR C library
header `util/crc16.h` is not part of the sources; the spec calls it a CRC-16
update function.  This is the library's documented C equivalent (polynomial
`0xA001`), one bit per round. -/
def crc16_round (crc : Nat) : Nat :=
  if crc % 2 = 1 then (crc >>> 1) ^^^ 0xA001 else crc >>> 1

/-- Modelled from the spec: `_crc16_update(crc, a)` of `util/crc16.h`, absent
from the sources: exclusive-or the byte in, then eight rounds. -/
def crc16_update (crc a : Nat) : Nat :=
  (crc16_round (crc16_round (crc16_round (crc16_round (crc16_round (crc16_round
    (crc16_round (crc16_round ((crc ^^^ a) % 65536))))))))) % 65536

/-- The checksum loop of `checkRepeats`: `crc = ~0`, then one update per
byte `data[0..pos)`. -/
def packetCrc (s : DecodeOOK) : Nat :=
  (List.range s.pos).foldl (fun c i => crc16_update c (rd s i)) 0xFFFF

/-- The value `millis() / 100` stored in a `word`. -/
def tenths (millis : Nat) : Nat := (millis / 100) % 65536

/-- Method `DecodeOOK::checkRepeats`; `millis` is the clock reading.  The
result is the returned flag and the new object state. -/
def checkRepeats (s : DecodeOOK) (millis : Nat) : Bool × DecodeOOK :=
  let crc := packetCrc s
  let s0 := (List.range s.pos).foldl touch s
  let now := tenths millis
  let since := (now + 65536 - s0.lastTime) % 65536
  let s1 := if crc ≠ s0.lastCrc ∨ s0.minGap < since then { s0 with repeats := 0 } else s0
  let s2 := { s1 with lastCrc := crc, lastTime := now }
  (decide (s2.repeats ≠ s2.minCount), { s2 with repeats := (s2.repeats + 1) % 256 })

/-- The padding loop of `nextPulse`: `while (bits) gotBit(0);`.  The first
argument bounds the number of iterations; `padLoop_bits` shows that seven are
always enough. -/
def padLoop : Nat → DecodeOOK → DecodeOOK
  | 0, s => s
  | n + 1, s => if s.bits ≠ 0 then padLoop n (gotBit s 0) else s

/-! ## VisonicDecoder -/

/-- The loop `for (byte i = 0; i <= pos; ++i) data[i] ^= 0xFF;`. -/
def invertLoop (s : DecodeOOK) : DecodeOOK :=
  (List.range (s.pos + 1)).foldl (fun t i => wr t i (rd t i ^^^ 0xFF)) s

/-- The byte `data[0] ^ data[1] ^ data[2] ^ data[3] ^ data[4]`. -/
def xorFold (s : DecodeOOK) : Nat :=
  (rd s 0 ^^^ rd s 1 ^^^ rd s 2 ^^^ rd s 3 ^^^ rd s 4) % 256

/-- Method `VisonicDecoder::decode`; the result is the returned `char` and
the new object state. -/
def visonicDecode (s : DecodeOOK) (width : Nat) : Int × DecodeOOK :=
  if 200 ≤ width ∧ width < 1000 then
    let w : Bool := decide (600 ≤ width)
    if s.state = UNKNOWN ∨ s.state = OK then
      (0, invertLoop { s with state := if w = false then T0 else T1 })
    else if s.state = T0 then
      let s1 := gotBit s (b2n (!w))
      if w then (0, s1) else (0, invertLoop s1)
    else if s.state = T1 then
      let s1 := gotBit s (b2n (!w))
      if !w then (0, s1) else (0, invertLoop s1)
    else (0, invertLoop s)
  else if 2500 ≤ width ∧ 36 ≤ 8 * s.pos + s.bits ∧ s.state = OK then
    let s1 := alignTail (gotBit (gotBit (gotBit (gotBit s 0) 0) 0) 0) 5
    let b := xorFold s1
    if b &&& 0xF = b >>> 4 then (1, s1) else (0, s1)
  else (-1, s)

/-! ## EMxDecoder -/

/-- Method `EMxDecoder::decode`. -/
def emxDecode (s : DecodeOOK) (width : Nat) : Int × DecodeOOK :=
  if 200 ≤ width ∧ width < 1000 then
    let w : Bool := decide (600 ≤ width)
    if s.state = UNKNOWN then
      if w = false then (0, { s with flip := (s.flip + 1) % 256 })
      else if 20 < s.flip then (0, { s with state := OK })
      else (-1, s)
    else if s.state = OK then
      if w = false then (0, { s with state := T0 }) else (-1, s)
    else if s.state = T0 then (0, gotBit s (b2n w))
    else (0, s)
  else if 1500 ≤ width ∧ 9 ≤ s.pos then (1, s)
  else (-1, s)

/-! ## KSxDecoder -/

/-- The end of `KSxDecoder::gotBit`, from `bitCount++` on. -/
def ksxCount (s : DecodeOOK) : Bool × DecodeOOK :=
  let s1 := { s with bitCount := (s.bitCount + 1) % 256 }
  if s1.bitCount = 49 ∧ s1.msgType = 1 then (true, s1)
  else if s1.bitCount = 79 ∧ s1.msgType = 7 then (true, s1)
  else (false, { s1 with state := OK })

/-- Method `KSxDecoder::gotBit`. -/
def ksxGotBit (s : DecodeOOK) (value : Nat) : Bool × DecodeOOK :=
  if s.bitCount % 5 ≠ 4 then
    let s1 := wr s s.pos ((rd s s.pos >>> 1) ||| (value <<< 7))
    let bits1 := (s1.bits + 1) % 256
    if 8 ≤ bits1 then
      let s3 := { s1 with bits := 0,
                          msgType := if s1.pos = 0 then rd s1 s1.pos &&& 0x0F else s1.msgType }
      let pos1 := (s3.pos + 1) % 256
      if pos1 < sizeofData then ksxCount (wr { s3 with pos := pos1 } (s3.pos + 1) 0)
      else (false, resetDecoder { s3 with pos := pos1 })
    else ksxCount { s1 with bits := bits1 }
  else
    if value = 0 then (false, resetDecoder s) else ksxCount s

/-- The `case UNKNOWN` block of `KSxDecoder::decode` (preamble detection). -/
def ksxPreamble (s : DecodeOOK) (w : Bool) : DecodeOOK :=
  if s.flip = 0 then
    if w then { s with pulse := 0, flip := (s.flip + 1) % 256 } else s
  else if s.pulse = 0 then
    if !w then { s with flip := (s.flip + 1) % 256, pulse := 1 }
    else { s with flip := 0 }
  else
    if w then { s with flip := (s.flip + 1) % 256, pulse := 0 }
    else if 14 ≤ s.flip ∧ s.flip ≤ 20 then { s with state := SYNC }
    else { s with flip := 0 }

/-- Method `KSxDecoder::decode`. -/
def ksxDecode (s : DecodeOOK) (width : Nat) : Int × DecodeOOK :=
  if 200 ≤ width ∧ width < 1000 then
    let w : Bool := decide (600 ≤ width)
    if s.state = UNKNOWN then (0, ksxPreamble s w)
    else if s.state = SYNC then
      if w then (0, { s with state := OK, bits := 0, pos := 0, bitCount := 0, msgType := 0 })
      else (-1, s)
    else if s.state = OK then (0, { s with state := if w = false then T0 else T1 })
    else if s.state = T0 then
      let r := ksxGotBit s 1
      if r.1 then (1, r.2) else if !w then (-1, r.2) else (0, r.2)
    else if s.state = T1 then
      let r := ksxGotBit s 0
      if r.1 then (1, r.2) else if w then (-1, r.2) else (0, r.2)
    else (0, s)
  else if 1500 ≤ width ∧ 6 ≤ s.pos then (1, s)
  else (-1, s)

/-! ## FSxDecoder -/

/-- The end of `FSxDecoder::gotBit`, from `bitCount++` on. -/
def fsxCount (s : DecodeOOK) : Bool × DecodeOOK :=
  let s1 := { s with fsBitCount := (s.fsBitCount + 1) % 256 }
  if s1.fsBitCount = 45 ∧ s1.extendedMsg = false then (true, s1)
  else if s1.fsBitCount = 54 ∧ s1.extendedMsg = true then (true, s1)
  else (false, { s1 with state := OK })

/-- Method `FSxDecoder::gotBit`. -/
def fsxGotBit (s : DecodeOOK) (value : Nat) : Bool × DecodeOOK :=
  let s0 := wr s s.pos (rd s s.pos ||| (value <<< (7 - s.bits)))
  let s1 := { s0 with parity := if value ≠ 0 then !s0.parity else s0.parity }
  if s1.fsBitCount % 9 ≠ 8 then
    let bits1 := (s1.bits + 1) % 256
    if 8 ≤ bits1 then
      let s3 := { s1 with bits := 0, parity := false,
                          extendedMsg := if s1.pos = 3 then false else s1.extendedMsg }
      let pos1 := (s3.pos + 1) % 256
      if pos1 < sizeofData then fsxCount (wr { s3 with pos := pos1 } (s3.pos + 1) 0)
      else (false, resetDecoder { s3 with pos := pos1 })
    else fsxCount { s1 with bits := bits1 }
  else
    if b2n s1.parity = value then fsxCount s1
    else (false, resetDecoder s1)

/-- Method `FSxDecoder::decode`. -/
def fsxDecode (s : DecodeOOK) (width : Nat) : Int × DecodeOOK :=
  if 300 ≤ width ∧ width < 775 then
    let w : Bool := decide (500 ≤ width)
    if s.state = UNKNOWN then
      if w = false then (0, { s with flip := (s.flip + 1) % 256 })
      else if 20 < s.flip then (0, { s with state := SYNC })
      else (-1, s)
    else if s.state = SYNC then
      if w then
        (0, wr { s with state := OK, fsBitCount := 0, parity := false, extendedMsg := false } 0 0)
      else (-1, s)
    else if s.state = OK then (0, { s with state := if w = false then T0 else T1 })
    else if s.state = T0 then
      if !w then
        let r := fsxGotBit s 0
        if r.1 then (1, r.2) else (0, r.2)
      else (-1, s)
    else if s.state = T1 then
      if w then
        let r := fsxGotBit s 1
        if r.1 then (1, r.2) else (0, r.2)
      else (-1, s)
    else (0, s)
  else if 1500 ≤ width ∧ 5 ≤ s.pos then (1, s)
  else (-1, s)

/-! ## The driver -/

/-- The virtual call `decode(width)`. -/
def decode (k : Kind) (s : DecodeOOK) (width : Nat) : Int × DecodeOOK :=
  match k with
  | .visonic => visonicDecode s width
  | .emx => emxDecode s width
  | .ksx => ksxDecode s width
  | .fsx => fsxDecode s width

/-- Method `DecodeOOK::nextPulse`; `millis` is the value `millis()` has when
`checkRepeats` reads it.  The padding loop calls the base-class `gotBit` (the
method is not virtual). -/
def nextPulse (k : Kind) (s : DecodeOOK) (width millis : Nat) : Bool × DecodeOOK :=
  if s.state ≠ DONE then
    let r := decode k s width
    if r.1 = -1 then
      let t := resetDecoder r.2
      (decide (t.state = DONE), t)
    else if r.1 = 1 then
      let c := checkRepeats (padLoop 7 r.2) millis
      let t := if !c.1 then { c.2 with state := DONE } else resetDecoder c.2
      (decide (t.state = DONE), t)
    else (decide (r.2.state = DONE), r.2)
  else (true, s)

/-- Method `DecodeOOK::getData`: the count written to `count` and the bytes
`data[0..count)` the caller may read. -/
def getData (s : DecodeOOK) : Nat × List Nat := (s.pos, s.data.take s.pos)

/-- The default `gap` argument each subclass passes to the base constructor. -/
def defaultGap : Kind → Nat
  | .emx => 30
  | _ => 5

/-- The constructors: `lastCrc (0), lastTime (0), repeats (0), minGap (gap),
minCount (0)` followed by `resetDecoder()`.  Every other member keeps what the
memory `mem` held (the constructors do not initialise them); the ghost starts
clear. -/
def construct (k : Kind) (mem : DecodeOOK) : DecodeOOK :=
  resetDecoder { mem with lastCrc := 0, lastTime := 0, repeats := 0,
                          minGap := defaultGap k, minCount := 0, oob := false }

/-- Object memory that is all zero (static storage) with a 25-byte buffer. -/
def zeroMem : DecodeOOK :=
  { bits := 0, flip := 0, state := 0, pos := 0, data := List.replicate 25 0,
    lastCrc := 0, lastTime := 0, repeats := 0, minGap := 0, minCount := 0,
    pulse := 0, msgType := 0, bitCount := 0, fsBitCount := 0,
    extendedMsg := false, parity := false, oob := false }

/-- One call made by the owner of a decoder. -/
inductive Op where
  | pulse (width millis : Nat)
  | reset
  deriving DecidableEq, Repr

/-- Effect of one call on the object. -/
def step (k : Kind) (s : DecodeOOK) : Op → DecodeOOK
  | .pulse w m => (nextPulse k s w m).2
  | .reset => resetDecoder s

/-- Effect of a sequence of calls. -/
def run (k : Kind) (s : DecodeOOK) (ops : List Op) : DecodeOOK :=
  ops.foldl (step k) s

/-- Feed pulse widths, all at clock reading `millis`. -/
def feed (k : Kind) (s : DecodeOOK) (millis : Nat) (ws : List Nat) : DecodeOOK :=
  ws.foldl (fun t w => (nextPulse k t w millis).2) s

/-! ## Predicates used in the statements -/

/-- Every member except the buffer contents and the ghost agrees, and the
buffer has the same size. -/
def Frame (s t : DecodeOOK) : Prop :=
  t.bits = s.bits ∧ t.flip = s.flip ∧ t.state = s.state ∧ t.pos = s.pos ∧
  t.lastCrc = s.lastCrc ∧ t.lastTime = s.lastTime ∧ t.repeats = s.repeats ∧
  t.minGap = s.minGap ∧ t.minCount = s.minCount ∧ t.pulse = s.pulse ∧
  t.msgType = s.msgType ∧ t.bitCount = s.bitCount ∧ t.fsBitCount = s.fsBitCount ∧
  t.extendedMsg = s.extendedMsg ∧ t.parity = s.parity ∧ t.data.length = s.data.length

/-- The byte cursor is inside the buffer and no access so far was outside it. -/
def Safe (s : DecodeOOK) : Prop := s.pos ≤ 24 ∧ s.oob = false

/-- The object is as `resetDecoder` leaves it. -/
def IsReset (s : DecodeOOK) : Prop :=
  s.bits = 0 ∧ s.pos = 0 ∧ s.flip = 0 ∧ s.state = UNKNOWN

instance decIsReset (s : DecodeOOK) : Decidable (IsReset s) :=
  inferInstanceAs (Decidable (s.bits = 0 ∧ s.pos = 0 ∧ s.flip = 0 ∧ s.state = UNKNOWN))

/-- The duplicate record (`lastCrc`, `lastTime`, `repeats`, `minGap`,
`minCount`) is the same in `t` as in `s`, and `t` is not in `DONE` unless `s`
was. -/
def Keeps (s t : DecodeOOK) : Prop :=
  t.lastCrc = s.lastCrc ∧ t.lastTime = s.lastTime ∧ t.repeats = s.repeats ∧
  t.minGap = s.minGap ∧ t.minCount = s.minCount ∧ (s.state ≠ DONE → t.state ≠ DONE)

/-- Pulse widths that are neither a short or long pulse nor a terminating gap. -/
def outOfRange : Kind → Nat → Prop
  | .visonic, w => w < 200 ∨ (1000 ≤ w ∧ w < 2500)
  | .emx, w => w < 200 ∨ (1000 ≤ w ∧ w < 1500)
  | .ksx, w => w < 200 ∨ (1000 ≤ w ∧ w < 1500)
  | .fsx, w => w < 300 ∨ (775 ≤ w ∧ w < 1500)

/-- The Visonic decoder after `n` short-long pulse pairs on a decoder built
in zeroed memory.  With `n = 38` the closing gap passes the nibble check, with
`n = 36` it fails it. -/
def visonicAfter (n : Nat) : DecodeOOK :=
  feed .visonic (construct .visonic zeroMem) 0 (List.replicate n [400, 700]).flatten

/-- The results of `nextPulse` for a list of widths fed at clock reading
`millis`. -/
def results (k : Kind) : DecodeOOK → Nat → List Nat → List Bool
  | _, _, [] => []
  | s, m, w :: ws => (nextPulse k s w m).1 :: results k (nextPulse k s w m).2 m ws

/-- Result of the last `nextPulse` call and the final state when the widths
`ws` are fed at clock reading `millis`. -/
def lastResult (k : Kind) (s : DecodeOOK) (millis : Nat) (ws : List Nat) : Bool × DecodeOOK :=
  ws.foldl (fun p w => nextPulse k p.2 w millis) (false, s)

/-- An energy-meter transmission as `EMxDecoder::decode` accepts it: 21 short
pulses, one long pulse, then for each bit a short pulse followed by the bit's
pulse (short for 0, long for 1), then the closing gap of 1500 us. -/
def emxPacket (bs : List Nat) : List Nat :=
  List.replicate 21 400 ++ [700] ++
    (bs.map (fun b => [400, if b = 0 then 400 else 700])).flatten ++ [1500]

/-- A switch-actuator transmission: 21 short pulses, two long sync pulses,
then two equal pulses per bit (short-short for 0, long-long for 1). -/
def fsxPacket (bs : List Nat) : List Nat :=
  List.replicate 21 400 ++ [600, 600] ++
    (bs.map (fun b => if b = 0 then [400, 400] else [600, 600])).flatten

/-- Five groups of eight zero data bits, each followed by its even-parity
bit 0. -/
def fsxZeroBits : List Nat := List.replicate 45 0

/-- The same 45 bits with the parity bit of the first group flipped to 1. -/
def fsxBadParityBits : List Nat := List.replicate 8 0 ++ [1] ++ List.replicate 36 0

/-- No call in `ops` completes a packet: each `nextPulse` call either finds
the decoder in `DONE` (and ignores the pulse) or has `decode` return 0 or -1. -/
def quiet (k : Kind) : DecodeOOK → List Op → Bool
  | _, [] => true
  | s, .pulse w m :: ops =>
      (decide (s.state = DONE) || decide ((decode k s w).1 ≠ 1)) &&
        quiet k (step k s (.pulse w m)) ops
  | s, .reset :: ops => quiet k (resetDecoder s) ops

/-- The value of `repeats` that the `return` statement of `checkRepeats`
tests: 0 when the checksum differs or the gap is exceeded, the old count
otherwise. -/
def repeatsTested (s : DecodeOOK) (millis : Nat) : Nat :=
  if packetCrc s ≠ s.lastCrc ∨ s.minGap < (tenths millis + 65536 - s.lastTime) % 65536 then 0
  else s.repeats

/-- The packet handed to `checkRepeats` when `decode` returns 1 for `width`
in state `s`: the state after the padding loop. -/
def completed (k : Kind) (s : DecodeOOK) (width : Nat) : DecodeOOK :=
  padLoop 7 (decode k s width).2

/-- The object after the `nextPulse` call that completes the first packet:
the calls `ops1` are made on a new decoder, then the pulse `w1` arrives at clock
reading `m1`. -/
def afterFirst (k : Kind) (mem : DecodeOOK) (ops1 : List Op) (w1 m1 : Nat) : DecodeOOK :=
  (nextPulse k (run k (construct k mem) ops1) w1 m1).2

/-- The object just before the pulse that completes the second packet: the
owner calls `resetDecoder` after the first packet and then makes the calls
`ops2`. -/
def beforeSecond (k : Kind) (mem : DecodeOOK) (ops1 : List Op) (w1 m1 : Nat)
    (ops2 : List Op) : DecodeOOK :=
  run k (resetDecoder (afterFirst k mem ops1 w1 m1)) ops2

/-- The calls `nextPulse(w)` for the widths `ws`, all at clock reading
`millis`. -/
def pulsesAt (millis : Nat) (ws : List Nat) : List Op := ws.map (fun w => Op.pulse w millis)

/-- The switch-actuator transmission of 45 zero bits without its last pulse. -/
def fsxZeroLead : List Nat := List.replicate 21 400 ++ [600, 600] ++ List.replicate 89 400

/-- A decoder that has just been reset, straight after construction. -/
def emxFreshReset : DecodeOOK := resetDecoder (construct .emx zeroMem)

/-- A decoder that has just been reset after it decoded a packet of 63 one
bits. -/
def emxUsedReset : DecodeOOK :=
  resetDecoder (feed .emx (construct .emx zeroMem) 0 (emxPacket (List.replicate 63 1)))

/-- The values `decode` returns, and the state it leaves, when it is called
on each width in turn. -/
def decodeAll (k : Kind) : DecodeOOK → List Nat → List Int × DecodeOOK
  | s, [] => ([], s)
  | s, w :: ws =>
      ((decode k s w).1 :: (decodeAll k (decode k s w).2 ws).1,
       (decodeAll k (decode k s w).2 ws).2)

/-- The two pulses of one weather-sensor bit at nominal widths: bit 1 is
short then long, bit 0 is long then short. -/
def bitPair (v : Bool) : List Nat := if v then [200, 600] else [600, 200]

/-- The bit pulses of bits `i`, `i+1`, ... (`n` of them). -/
def bitPulses (b : Nat → Bool) : Nat → Nat → List Nat
  | _, 0 => []
  | i, n + 1 => bitPair (b i) ++ bitPulses b (i + 1) n

/-- A weather-sensor frame at nominal widths: `n` long-short pairs, a short
and a long sync pulse, then the 49 bits `b 0 .. b 48`. -/
def ksxFrame (n : Nat) (b : Nat → Bool) : List Nat :=
  (List.replicate n [600, 200]).flatten ++ ([200, 600] ++ bitPulses b 0 49)

/-- Width `w` lies in 200..999 us and is short (below 600) or long exactly as
the nominal width `c` is. -/
def sameClass (w c : Nat) : Prop :=
  (200 ≤ w ∧ w < 1000) ∧ (200 ≤ c ∧ c < 1000) ∧ (600 ≤ w ↔ 600 ≤ c)

instance decSameClass (w c : Nat) : Decidable (sameClass w c) :=
  inferInstanceAs (Decidable ((200 ≤ w ∧ w < 1000) ∧ (200 ≤ c ∧ c < 1000) ∧ (600 ≤ w ↔ 600 ≤ c)))

/-- Data bit `t` of a frame: among the transmitted bits `b`, every fifth one
(positions 4, 9, 14, ...) is a marker and carries no data. -/
def dataBit (b : Nat → Bool) (t : Nat) : Bool := b (t + t / 4)

/-- The byte made of data bits `8k .. 8k+7`, the earliest in bit 0. -/
def ksxByte (b : Nat → Bool) (k : Nat) : Nat :=
  b2n (dataBit b (8 * k)) + 2 * b2n (dataBit b (8 * k + 1)) + 4 * b2n (dataBit b (8 * k + 2)) +
  8 * b2n (dataBit b (8 * k + 3)) + 16 * b2n (dataBit b (8 * k + 4)) +
  32 * b2n (dataBit b (8 * k + 5)) + 64 * b2n (dataBit b (8 * k + 6)) +
  128 * b2n (dataBit b (8 * k + 7))

/-- The object `s` with the members the weather-sensor bit phase works on
replaced. -/
def ksAt (s : DecodeOOK) (st p j c mt : Nat) (d : List Nat) (o : Bool) : DecodeOOK :=
  { s with state := st, pos := p, bits := j, bitCount := c, msgType := mt, data := d, oob := o }

/-- The state `decode` moves to on the first pulse of a bit: `T0` for a bit 1
(short first), `T1` for a bit 0. -/
def phase (v : Bool) : Nat := if v then T0 else T1

/-- The reset object `s` during the weather-sensor preamble, with toggle
count `f` and last pulse class `q`. -/
def preAt (s : DecodeOOK) (f q : Nat) : DecodeOOK := { resetDecoder s with flip := f, pulse := q }

/-- The byte `(x >> 1) | (v << 7)` that `KSxDecoder::gotBit` stores. -/
def shiftIn (x : Nat) (v : Bool) : Nat := ((x >>> 1) ||| (b2n v <<< 7)) % 256

/-- A weather-sensor bit pattern with the markers set and type nibble 1; the
other bits come from the binary digits of `seed`. -/
def sampleBits (seed : Nat) : Nat → Bool := fun i =>
  if i % 5 = 4 then true else if i = 0 then true else if i < 4 then false
  else decide ((seed >>> i) % 2 = 1)

/-- The object `s` with the duplicate record `lastCrc`, `lastTime`, `repeats`
replaced. -/
def withRecord (s : DecodeOOK) (c t n : Nat) : DecodeOOK :=
  { s with lastCrc := c, lastTime := t, repeats := n }

/-- The same frame (the widths `lead`, then the width `w`) is received once
for each clock reading in the list; the owner calls `resetDecoder` before each
frame.  For each frame: the result of its last `nextPulse` call, and the byte
count and bytes that call hands to `checkRepeats`. -/
def burst (k : Kind) (lead : List Nat) (w : Nat) :
    DecodeOOK → List Nat → List (Bool × Nat × List Nat)
  | _, [] => []
  | s, m :: ms =>
      ((nextPulse k (run k (resetDecoder s) (pulsesAt m lead)) w m).1,
        getData (completed k (run k (resetDecoder s) (pulsesAt m lead)) w)) ::
        burst k lead w (nextPulse k (run k (resetDecoder s) (pulsesAt m lead)) w m).2 ms

/-- Clock readings of `n` frames, 200 ms apart, the first at `m0 + 200 * i`. -/
def every200 (m0 i : Nat) : Nat → List Nat
  | 0 => []
  | n + 1 => (m0 + 200 * i) :: every200 m0 (i + 1) n

/-- The state `decode` leaves when the switch-actuator packet of 45 zero bits
completes on a decoder built in zeroed memory. -/
@[irreducible] def fsxDone : DecodeOOK :=
  (decode .fsx (run .fsx (resetDecoder (construct .fsx zeroMem)) (pulsesAt 0 fsxZeroLead)) 400).2

/-- The decoder after that packet went through `checkRepeats` and the owner
called `resetDecoder`, duplicate record aside. -/
def fsxIdle : DecodeOOK := resetDecoder ((List.range fsxDone.pos).foldl touch fsxDone)

/-- The value of `repeats` that `checkRepeats` tests for the zero packet when
the duplicate record holds checksum `c`, time `t` and count `n`. -/
def repeatsIf (c t n millis : Nat) : Nat :=
  if packetCrc fsxDone ≠ c ∨ 5 < (tenths millis + 65536 - t) % 65536 then 0 else n

/-- From the reset state `x` the lead of the zero packet completes nothing and
the closing pulse makes `decode` return 1, leaving `fsxDone`. -/
def ZeroReady (x : DecodeOOK) : Prop :=
  quiet .fsx x (pulsesAt 0 fsxZeroLead) = true ∧
  (run .fsx x (pulsesAt 0 fsxZeroLead)).state ≠ DONE ∧
  decode .fsx (run .fsx x (pulsesAt 0 fsxZeroLead)) 400 = (1, fsxDone)

instance decZeroReady (x : DecodeOOK) : Decidable (ZeroReady x) :=
  inferInstanceAs (Decidable (quiet .fsx x (pulsesAt 0 fsxZeroLead) = true ∧
    (run .fsx x (pulsesAt 0 fsxZeroLead)).state ≠ DONE ∧
    decode .fsx (run .fsx x (pulsesAt 0 fsxZeroLead)) 400 = (1, fsxDone)))

/-- A state whose cursor is on the last byte of the buffer with six bits of
that byte filled. -/
def lastByteState : DecodeOOK := { zeroMem with pos := 24, bits := 6 }

/-- The calls in the list are all `nextPulse` calls (no `resetDecoder`). -/
def onlyPulses : List Op → Bool
  | [] => true
  | .pulse _ _ :: ops => onlyPulses ops
  | .reset :: _ => false

/-- A decoder holding a completed packet: zeroed memory with `state = DONE`
and `pos = 5`. -/
def heldPacket : DecodeOOK := { zeroMem with state := DONE, pos := 5 }

/-- An energy-meter decoder that decoded a packet of 63 one bits, was reset,
and then received preamble, sync and the short pulse that announces the first
bit of the next packet: it is about to store that bit. -/
def emxStale : DecodeOOK := feed .emx emxUsedReset 0 (List.replicate 21 400 ++ [700, 400])

/-- A switch-actuator decoder that is one pulse away from completing the
zero packet, configured with `minCount = 1`. -/
def fsxMinCountOne : DecodeOOK :=
  { run .fsx (construct .fsx zeroMem) (pulsesAt 0 fsxZeroLead) with minCount := 1 }

/-- The Visonic decoder after 36 short-long pairs and a closing gap whose
nibble check fails. -/
def visonicFailed : DecodeOOK := (nextPulse .visonic (visonicAfter 36) 2500 0).2

/-- Seven long-short pairs and a closing gap. -/
def visonicShortTail : List Nat := (List.replicate 7 [700, 400]).flatten ++ [2500]

/-- Five groups of eight data bits with their even-parity bits: the first
group is `00000001` with parity bit 1, the other groups are zero. -/
def fsxOddBits : List Nat := [0, 0, 0, 0, 0, 0, 0, 1, 1] ++ List.replicate 36 0

/-- The switch-actuator decoder between sync and the end of a packet: the
extended flag is clear, fewer than 45 bits were counted, and the cursor holds
the data bits counted so far (every ninth bit is a parity bit). -/
def FsxMid (s : DecodeOOK) : Prop :=
  s.extendedMsg = false ∧ s.fsBitCount ≤ 44 ∧ s.bits ≤ 7 ∧
  8 * s.pos + s.bits + s.fsBitCount / 9 = s.fsBitCount

/-- What holds of a switch-actuator decoder between calls: it is scanning
with an empty cursor, or collecting bits, or holding a packet. -/
def FsxInv (s : DecodeOOK) : Prop :=
  ((s.state = UNKNOWN ∨ s.state = SYNC) ∧ s.pos = 0 ∧ s.bits = 0) ∨
  ((s.state = OK ∨ s.state = T0 ∨ s.state = T1) ∧ FsxMid s) ∨
  (s.state = DONE ∧ s.fsBitCount ≤ 45)

/-- What holds of the result of `FSxDecoder::gotBit` when it is called
between sync and the end of a packet. -/
def FsxPost (r : Bool × DecodeOOK) : Prop :=
  r.2.extendedMsg = false ∧ r.2.fsBitCount ≤ 45 ∧
  (r.1 = true → r.2.fsBitCount = 45 ∧ r.2.pos = 5 ∧ r.2.bits = 0) ∧
  (r.1 = false → FsxInv r.2)

/-- What holds of the result of `FSxDecoder::decode` called in state `s`. -/
def FsxDec (s : DecodeOOK) (r : Int × DecodeOOK) : Prop :=
  (r.1 ≠ 1 → FsxInv r.2) ∧ (s.fsBitCount ≤ 45 → r.2.fsBitCount ≤ 45) ∧
  (r.1 = 1 → r.2.fsBitCount ≤ 45)

/-- The object `s` with the members the base `gotBit` works on replaced. -/
def emAt (s : DecodeOOK) (st p j : Nat) (d : List Nat) (o : Bool) : DecodeOOK :=
  { s with state := st, pos := p, bits := j, data := d, oob := o }

/-- The byte `x | (v << j)` that `DecodeOOK::gotBit` stores. -/
def orIn (x j : Nat) (v : Bool) : Nat := (x ||| (b2n v <<< j)) % 256

/-- The byte made of bits `7k .. 7k+6`, the earliest in bit 0 (bit 7 stays
clear). -/
def emxByte (b : Nat → Bool) (k : Nat) : Nat :=
  b2n (b (7 * k)) + 2 * b2n (b (7 * k + 1)) + 4 * b2n (b (7 * k + 2)) +
  8 * b2n (b (7 * k + 3)) + 16 * b2n (b (7 * k + 4)) + 32 * b2n (b (7 * k + 5)) +
  64 * b2n (b (7 * k + 6))

/-- The buffer after a frame with bits `b 0 .. b 62`: nine bytes of seven
bits each, the rest of the 25 bytes zero. -/
def emxData (b : Nat → Bool) : List Nat :=
  [emxByte b 0, emxByte b 1, emxByte b 2, emxByte b 3, emxByte b 4, emxByte b 5, emxByte b 6,
    emxByte b 7, emxByte b 8] ++ List.replicate 16 0

/-- The two pulses of one energy-meter bit at nominal widths: a short pulse,
then a short pulse for 0 or a long pulse for 1. -/
def emxPair (v : Bool) : List Nat := [400, if v then 700 else 400]

/-- The pulses of bits `i`, `i+1`, ... (`n` of them), followed by `rest`. -/
def emxBits (b : Nat → Bool) (rest : List Nat) : Nat → Nat → List Nat
  | _, 0 => rest
  | i, n + 1 => emxPair (b i) ++ emxBits b rest (i + 1) n

/-- An energy-meter frame at nominal widths: `n` short pulses, a long pulse,
the 63 bits `b 0 .. b 62`, two pulses each, and a closing gap of 1500 us. -/
def emxFrame (n : Nat) (b : Nat → Bool) : List Nat :=
  List.replicate n 400 ++ (700 :: emxBits b [1500] 0 63)

/-- Width `w` is in the same class as the nominal width `c`: both short, both
long, or both a closing gap of at least 1500 us. -/
def emxClass (w c : Nat) : Prop := sameClass w c ∨ (1500 ≤ w ∧ 1500 ≤ c)

instance decEmxClass (w c : Nat) : Decidable (emxClass w c) :=
  inferInstanceAs (Decidable (sameClass w c ∨ (1500 ≤ w ∧ 1500 ≤ c)))

/-- A frame with one pulse per bit: 21 short pulses, one more short pulse,
one pulse for each bit of `bs` (short for 0, long for 1), and a closing gap. -/
def emxSingle (bs : List Nat) : List Nat :=
  List.replicate 21 400 ++ [400] ++ bs.map (fun b => if b = 0 then 400 else 700) ++ [1500]

/-- The 72 bits of nine bytes `0x55`, low bit first. -/
def alternating72 : List Nat := (List.replicate 36 [1, 0]).flatten

/-- A sample bit pattern: every third bit is 1. -/
def emxSampleBits : Nat → Bool := fun i => decide (i % 3 = 0)

/-- Two buffers of the same size whose first entries are bytes. -/
def BytesOk (d1 d2 : List Nat) : Prop :=
  d1.length = d2.length ∧ d1.getD 0 0 < 256 ∧ d2.getD 0 0 < 256

/-- The buffers agree on the entries `0 .. p-1`. -/
def Upto (p : Nat) (d1 d2 : List Nat) : Prop := ∀ i, i < p → d1.getD i 0 = d2.getD i 0

/-- The relation between two buffers while the weather-sensor decoder
collects bits at byte `p`, bit `j`: completed bytes agree; the byte under the
cursor agrees once the cursor has left byte 0; while the cursor is on byte 0,
`msgType` is still 0 and the `j` bits shifted in so far (the top `j` bits of the
byte) agree. -/
def KsMid (p j mt : Nat) (d1 d2 : List Nat) : Prop :=
  p ≤ 24 ∧ Upto p d1 d2 ∧ (0 < p → d1.getD p 0 = d2.getD p 0) ∧
  (p = 0 → mt = 0 ∧ j ≤ 7 ∧ d1.getD 0 0 / 2 ^ (8 - j) = d2.getD 0 0 / 2 ^ (8 - j))

/-- The relation between two buffers when `decode` returns 1: completed bytes
agree, and so does a partly filled byte under the cursor. -/
def KsReady (p j : Nat) (d1 d2 : List Nat) : Prop :=
  Upto p d1 d2 ∧ (j ≠ 0 → d1.getD p 0 = d2.getD p 0)

/-- The relation between the results of `KSxDecoder::gotBit` on two objects
that differ only in their buffers: the same flag, objects that still differ
only in their buffers, and buffers related as the new state requires. -/
def KsPost (r1 r2 : Bool × DecodeOOK) : Prop :=
  r2.1 = r1.1 ∧ r2.2 = { r1.2 with data := r2.2.data } ∧ BytesOk r1.2.data r2.2.data ∧
  (r1.1 = false →
    (r1.2.state = UNKNOWN ∧ r1.2.pos = 0) ∨
    (r1.2.state = OK ∧ KsMid r1.2.pos r1.2.bits r1.2.msgType r1.2.data r2.2.data)) ∧
  (r1.1 = true → KsReady r1.2.pos r1.2.bits r1.2.data r2.2.data)

/-- The object `s` with its buffer replaced. -/
def withData (s : DecodeOOK) (d : List Nat) : DecodeOOK := { s with data := d }

/-- The relation between the buffer of an object and another buffer, by
decoder state: nothing is required while scanning (the cursor is at 0), the
collecting relation holds between sync and completion, and the reported bytes
agree while a packet is held. -/
def KsCond (a : DecodeOOK) (d2 : List Nat) : Prop :=
  ((a.state = UNKNOWN ∨ a.state = SYNC) ∧ a.pos = 0) ∨
  ((a.state = OK ∨ a.state = T0 ∨ a.state = T1) ∧ KsMid a.pos a.bits a.msgType a.data d2) ∨
  (a.state = DONE ∧ Upto a.pos a.data d2)

/-- Two weather-sensor decoders that differ only in their buffers, the
buffers being related as the state requires. -/
def KsSim (a b : DecodeOOK) : Prop :=
  b = { a with data := b.data } ∧ BytesOk a.data b.data ∧ KsCond a b.data

/-- The relation between the results of `KSxDecoder::decode` on two such
decoders. -/
def KsDec (r1 r2 : Int × DecodeOOK) : Prop :=
  r2.1 = r1.1 ∧ r2.2 = { r1.2 with data := r2.2.data } ∧ BytesOk r1.2.data r2.2.data ∧
  (r1.1 = 0 → KsCond r1.2 r2.2.data ∧ r1.2.state ≠ DONE) ∧
  (r1.1 = 1 → KsReady r1.2.pos r1.2.bits r1.2.data r2.2.data)

/-- The relation between two objects in the padding loop of `nextPulse`: they
differ only in their buffers, which agree on the completed bytes and on a
partly filled byte under the cursor. -/
def PadRel (x y : DecodeOOK) : Prop :=
  y = withData x y.data ∧ BytesOk x.data y.data ∧ KsReady x.pos x.bits x.data y.data

/-- What the owner of a decoder sees of one `nextPulse` call: the returned
flag and, when it is `true`, the count and bytes `getData` gives. -/
def report (r : Bool × DecodeOOK) : Bool × Nat × List Nat :=
  if r.1 = true then (true, getData r.2) else (false, 0, [])

/-- What the owner sees over a sequence of calls. -/
def reports (k : Kind) : DecodeOOK → List Op → List (Bool × Nat × List Nat)
  | _, [] => []
  | s, .pulse w m :: ops => report (nextPulse k s w m) :: reports k (nextPulse k s w m).2 ops
  | s, .reset :: ops => reports k (resetDecoder s) ops

/-- A weather-sensor decoder built in zeroed memory that received seven
preamble pairs, the sync pulses, the bits 1,0,1,1 and the long first pulse of a
fifth bit, which is a marker position. -/
def ksxBadMarker : DecodeOOK :=
  feed .ksx (construct .ksx zeroMem) 0
    ((List.replicate 7 [600, 200]).flatten ++ ([200, 600] ++ (bitPair true ++ (bitPair false ++
      (bitPair true ++ (bitPair true ++ [600]))))))

/-- A complete frame of type 1, received at clock reading 5000. -/
def ksxNextFrame : List Op := pulsesAt 5000 (ksxFrame 7 (sampleBits 0x5A5A5A5A5A5A5))

/-! # Theorems -/

/-! ## Loops -/

theorem foldl_keeps {α β : Type} (P : α → Prop) (f : α → β → α) (l : List β) (a : α)
    (h0 : P a) (hstep : ∀ t i, i ∈ l → P t → P (f t i)) : P (l.foldl f a) := by
  induction l generalizing a with
  | nil => simpa using h0
  | cons x xs ih =>
    simp only [List.foldl_cons]
    apply ih
    · exact hstep a x (by simp) h0
    · intro t i hi ht
      exact hstep t i (by simp [hi]) ht

theorem frame_refl (s : DecodeOOK) : Frame s s := by simp [Frame]

theorem frame_trans {a b c : DecodeOOK} (h1 : Frame a b) (h2 : Frame b c) : Frame a c := by
  simp only [Frame] at *
  simp_all

theorem frame_wr (s : DecodeOOK) (i v : Nat) : Frame s (wr s i v) := by
  simp [Frame, wr]

theorem frame_touch (s : DecodeOOK) (i : Nat) : Frame s (touch s i) := by
  simp [Frame, touch]

theorem invertLoop_frame (s : DecodeOOK) :
    Frame s (invertLoop s) ∧ (s.pos ≤ 24 → s.oob = false → (invertLoop s).oob = false) := by
  unfold invertLoop
  refine ⟨?_, ?_⟩
  · exact foldl_keeps (fun t => Frame s t) _ _ s (frame_refl s)
      (fun t i _ ht => frame_trans ht (frame_wr t i _))
  · intro hp ho
    refine foldl_keeps (fun t => t.oob = false) _ _ s ho ?_
    exact (by
        intro t i hi ht
        simp only [List.mem_range] at hi
        have ht1 : t.oob = false := ht
        show DecodeOOK.oob _ = false
        simp [wr, ht1, sizeofData]
        omega)

theorem alignLoop_frame (s : DecodeOOK) :
    Frame s (alignLoop s) ∧ (s.pos ≤ 24 → s.oob = false → (alignLoop s).oob = false) := by
  unfold alignLoop
  refine ⟨?_, ?_⟩
  · exact foldl_keeps (fun t => Frame s t) _ _ s (frame_refl s)
      (fun t i _ ht => frame_trans ht (frame_trans (frame_touch t _) (frame_wr _ i _)))
  · intro hp ho
    refine foldl_keeps (fun t => t.oob = false) _ _ s ho ?_
    exact (by
        intro t i hi ht
        simp only [List.mem_range] at hi
        have ht1 : t.oob = false := ht
        show DecodeOOK.oob _ = false
        simp [wr, touch, ht1, sizeofData]
        omega)

theorem dropLoop_frame (s : DecodeOOK) (n : Nat) :
    Frame s (dropLoop s n) ∧ (s.pos + n ≤ 25 → s.oob = false → (dropLoop s n).oob = false) := by
  unfold dropLoop
  refine ⟨?_, ?_⟩
  · exact foldl_keeps (fun t => Frame s t) _ _ s (frame_refl s)
      (fun t i _ ht => frame_trans ht (frame_trans (frame_touch t _) (frame_wr _ i _)))
  · intro hp ho
    refine foldl_keeps (fun t => t.oob = false) _ _ s ho ?_
    exact (by
        intro t i hi ht
        simp only [List.mem_range] at hi
        have ht1 : t.oob = false := ht
        show DecodeOOK.oob _ = false
        simp [wr, touch, ht1, sizeofData]
        omega)

theorem touchLoop_frame (s : DecodeOOK) :
    Frame s ((List.range s.pos).foldl touch s) ∧
    ((List.range s.pos).foldl touch s).data = s.data ∧
    (s.pos ≤ 25 → s.oob = false → ((List.range s.pos).foldl touch s).oob = false) := by
  refine ⟨?_, ?_, ?_⟩
  · exact foldl_keeps (fun t => Frame s t) _ _ s (frame_refl s)
      (fun t i _ ht => frame_trans ht (frame_touch t _))
  · exact foldl_keeps (fun t => t.data = s.data) _ _ s rfl
      (fun t i _ ht => by have ht1 : t.data = s.data := ht; show (touch t i).data = s.data; simpa [touch] using ht1)
  · intro hp ho
    refine foldl_keeps (fun t => t.oob = false) _ _ s ho ?_
    exact (by
        intro t i hi ht
        simp only [List.mem_range] at hi
        have ht1 : t.oob = false := ht
        show DecodeOOK.oob _ = false
        simp [touch, ht1, sizeofData]
        omega)

/-! ## Case analysis helpers -/

theorem ite_ind {α : Type} {P : α → Prop} {c : Prop} [Decidable c] {a b : α}
    (ha : c → P a) (hb : ¬c → P b) : P (if c then a else b) := by
  by_cases h : c
  · rw [if_pos h]; exact ha h
  · rw [if_neg h]; exact hb h

theorem oob_step {b : Bool} {i : Nat} (hb : b = false) (hi : i < 25) :
    (b || decide (sizeofData ≤ i)) = false := by
  simp [hb, sizeofData]; omega

/-! ## The cursor invariant -/

theorem gotBit_safe (s : DecodeOOK) (v : Nat) (h : Safe s) : Safe (gotBit s v) := by
  obtain ⟨hp, ho⟩ := h
  have hp1 : s.pos < 25 := by omega
  unfold gotBit
  refine ite_ind (P := Safe) (fun _ => ?_) (fun _ => ?_)
  · refine ite_ind (P := Safe) (fun h3 => ?_) (fun _ => ?_)
    · have h3a : (s.pos + 1) % 256 < 25 := h3
      have h3b : s.pos + 1 < 25 := by omega
      exact ⟨Nat.le_of_lt_succ h3, oob_step (oob_step ho hp1) h3b⟩
    · exact ⟨Nat.zero_le _, oob_step ho hp1⟩
  · exact ⟨hp, oob_step ho hp1⟩

theorem resetDecoder_safe (s : DecodeOOK) (h : s.oob = false) : Safe (resetDecoder s) :=
  ⟨Nat.zero_le _, h⟩

theorem invertLoop_safe (s : DecodeOOK) (h : Safe s) : Safe (invertLoop s) := by
  obtain ⟨hp, ho⟩ := h
  have h1 := invertLoop_frame s
  exact ⟨by rw [h1.1.2.2.2.1]; exact hp, h1.2 hp ho⟩

theorem alignTail_safe (s : DecodeOOK) (m : Nat) (h : Safe s) : Safe (alignTail s m) := by
  obtain ⟨hp, ho⟩ := h
  have hp1 : s.pos < 25 := by omega
  have key : ∀ s1 : DecodeOOK, Safe s1 →
      Safe (if 0 < m ∧ m < s1.pos then dropLoop { s1 with pos := m } (s1.pos - m) else s1) := by
    intro s1 h1
    obtain ⟨hq, hoq⟩ := h1
    refine ite_ind (P := Safe) (fun hm => ?_) (fun _ => ⟨hq, hoq⟩)
    have h2 := dropLoop_frame { s1 with pos := m } (s1.pos - m)
    have h3 : (dropLoop { s1 with pos := m } (s1.pos - m)).pos = m := h2.1.2.2.2.1
    have h4 : m + (s1.pos - m) ≤ 25 := by omega
    exact ⟨by rw [h3]; omega, h2.2 h4 hoq⟩
  unfold alignTail
  apply key
  refine ite_ind (P := Safe) (fun _ => ?_) (fun _ => ⟨hp, ho⟩)
  have h1 := alignLoop_frame (wr s s.pos (rd s s.pos >>> (8 - s.bits)))
  have h2 : (alignLoop (wr s s.pos (rd s s.pos >>> (8 - s.bits)))).pos = s.pos := h1.1.2.2.2.1
  exact ⟨by show (alignLoop _).pos ≤ 24; rw [h2]; exact hp, h1.2 hp (oob_step ho hp1)⟩

theorem padLoop_safe (n : Nat) (s : DecodeOOK) (h : Safe s) : Safe (padLoop n s) := by
  induction n generalizing s with
  | zero => exact h
  | succ n ih =>
    unfold padLoop
    exact ite_ind (P := Safe) (fun _ => ih _ (gotBit_safe s 0 h)) (fun _ => h)

theorem gotBit_bits (s : DecodeOOK) (v : Nat) : (gotBit s v).bits ≤ 6 := by
  unfold gotBit
  refine ite_ind (P := fun (t : DecodeOOK) => t.bits ≤ 6) (fun _ => ?_) (fun h => ?_)
  · exact ite_ind (P := fun (t : DecodeOOK) => t.bits ≤ 6) (fun _ => Nat.zero_le _)
      (fun _ => Nat.zero_le _)
  · have h1 : ¬ 7 ≤ (s.bits + 1) % 256 := h
    show (s.bits + 1) % 256 ≤ 6
    omega

theorem gotBit_bits_step (s : DecodeOOK) (v : Nat) (h : s.bits ≤ 6) :
    (gotBit s v).bits = 0 ∨ (gotBit s v).bits = s.bits + 1 := by
  unfold gotBit
  refine ite_ind (P := fun (t : DecodeOOK) => t.bits = 0 ∨ t.bits = s.bits + 1)
    (fun _ => ?_) (fun _ => ?_)
  · exact ite_ind (P := fun (t : DecodeOOK) => t.bits = 0 ∨ t.bits = s.bits + 1)
      (fun _ => Or.inl rfl) (fun _ => Or.inl rfl)
  · right
    show (s.bits + 1) % 256 = s.bits + 1
    omega

theorem padLoop_bits_aux (n : Nat) (s : DecodeOOK) (h6 : s.bits ≤ 6)
    (h : s.bits = 0 ∨ 7 ≤ s.bits + n) : (padLoop n s).bits = 0 := by
  induction n generalizing s with
  | zero =>
    show s.bits = 0
    omega
  | succ n ih =>
    unfold padLoop
    by_cases hb : s.bits ≠ 0
    · rw [if_pos hb]
      have h1 := gotBit_bits s 0
      have h2 := gotBit_bits_step s 0 h6
      exact ih _ h1 (by omega)
    · rw [if_neg hb]
      exact not_not.mp hb

/-- The padding loop ends: seven rounds always leave `bits = 0`. -/
theorem padLoop_bits (s : DecodeOOK) : (padLoop 7 s).bits = 0 := by
  unfold padLoop
  by_cases hb : s.bits ≠ 0
  · rw [if_pos hb]
    have h1 := gotBit_bits s 0
    exact padLoop_bits_aux 6 _ h1 (by omega)
  · rw [if_neg hb]
    exact not_not.mp hb

theorem padLoop_stable (n : Nat) (s : DecodeOOK) (h : (padLoop n s).bits = 0) :
    padLoop (n + 1) s = padLoop n s := by
  induction n generalizing s with
  | zero =>
    have h0 : s.bits = 0 := h
    show (if s.bits ≠ 0 then padLoop 0 (gotBit s 0) else s) = s
    rw [if_neg (not_not.mpr h0)]
  | succ n ih =>
    by_cases hb : s.bits ≠ 0
    · have e1 : padLoop (n + 1) s = padLoop n (gotBit s 0) := by
        show (if s.bits ≠ 0 then padLoop n (gotBit s 0) else s) = _
        rw [if_pos hb]
      have e2 : padLoop (n + 1 + 1) s = padLoop (n + 1) (gotBit s 0) := by
        show (if s.bits ≠ 0 then padLoop (n + 1) (gotBit s 0) else s) = _
        rw [if_pos hb]
      rw [e2, e1]
      exact ih _ (by rw [← e1]; exact h)
    · have e1 : padLoop (n + 1) s = s := by
        show (if s.bits ≠ 0 then padLoop n (gotBit s 0) else s) = _
        rw [if_neg hb]
      have e2 : padLoop (n + 1 + 1) s = s := by
        show (if s.bits ≠ 0 then padLoop (n + 1) (gotBit s 0) else s) = _
        rw [if_neg hb]
      rw [e2, e1]

/-- More rounds than seven change nothing: the bound of `padLoop` in
`nextPulse` does not cut the loop of the source short. -/
theorem padLoop_fuel (n : Nat) (s : DecodeOOK) : padLoop (7 + n) s = padLoop 7 s := by
  induction n with
  | zero => rfl
  | succ n ih =>
    have h : (padLoop (7 + n) s).bits = 0 := by rw [ih]; exact padLoop_bits s
    exact (padLoop_stable (7 + n) s h).trans ih

theorem checkRepeats_safe (s : DecodeOOK) (m : Nat) (h : Safe s) : Safe (checkRepeats s m).2 := by
  obtain ⟨hp, ho⟩ := h
  have h1 := touchLoop_frame s
  have hpos : ((List.range s.pos).foldl touch s).pos = s.pos := h1.1.2.2.2.1
  have hoob := h1.2.2 (by omega) ho
  have hs : Safe ((List.range s.pos).foldl touch s) := ⟨by rw [hpos]; exact hp, hoob⟩
  unfold checkRepeats
  show Safe (if _ then _ else _)
  exact ite_ind (P := Safe) (fun _ => hs) (fun _ => hs)

theorem visonicDecode_safe (s : DecodeOOK) (w : Nat) (h : Safe s) : Safe (visonicDecode s w).2 := by
  have h4 := alignTail_safe _ 5
    (gotBit_safe _ 0 (gotBit_safe _ 0 (gotBit_safe _ 0 (gotBit_safe s 0 h))))
  have hg := fun v => gotBit_safe s v h
  have hgi := fun v => invertLoop_safe _ (gotBit_safe s v h)
  have hi := fun x => invertLoop_safe { s with state := x } ⟨h.1, h.2⟩
  unfold visonicDecode
  split_ifs <;> dsimp only <;> (try split_ifs) <;>
    with_reducible first
    | exact h
    | exact h4
    | exact hg _
    | exact hgi _
    | exact hi _

theorem emxDecode_safe (s : DecodeOOK) (w : Nat) (h : Safe s) : Safe (emxDecode s w).2 := by
  unfold emxDecode
  refine ite_ind (P := fun (r : Int × DecodeOOK) => Safe r.2) (fun _ => ?_) (fun _ => ?_)
  · refine ite_ind (P := fun (r : Int × DecodeOOK) => Safe r.2) (fun _ => ?_) (fun _ => ?_)
    · refine ite_ind (P := fun (r : Int × DecodeOOK) => Safe r.2) (fun _ => h) (fun _ => ?_)
      exact ite_ind (P := fun (r : Int × DecodeOOK) => Safe r.2) (fun _ => h) (fun _ => h)
    · refine ite_ind (P := fun (r : Int × DecodeOOK) => Safe r.2) (fun _ => ?_) (fun _ => ?_)
      · exact ite_ind (P := fun (r : Int × DecodeOOK) => Safe r.2) (fun _ => h) (fun _ => h)
      · exact ite_ind (P := fun (r : Int × DecodeOOK) => Safe r.2)
          (fun _ => gotBit_safe s _ h) (fun _ => h)
  · exact ite_ind (P := fun (r : Int × DecodeOOK) => Safe r.2) (fun _ => h) (fun _ => h)

theorem ksxCount_safe (s : DecodeOOK) (h : Safe s) : Safe (ksxCount s).2 := by
  unfold ksxCount
  refine ite_ind (P := fun (r : Bool × DecodeOOK) => Safe r.2) (fun _ => h) (fun _ => ?_)
  exact ite_ind (P := fun (r : Bool × DecodeOOK) => Safe r.2) (fun _ => h) (fun _ => h)

theorem ksxGotBit_safe (s : DecodeOOK) (v : Nat) (h : Safe s) : Safe (ksxGotBit s v).2 := by
  obtain ⟨hp, ho⟩ := h
  have hp1 : s.pos < 25 := by omega
  unfold ksxGotBit
  refine ite_ind (P := fun (r : Bool × DecodeOOK) => Safe r.2) (fun _ => ?_) (fun _ => ?_)
  · refine ite_ind (P := fun (r : Bool × DecodeOOK) => Safe r.2) (fun _ => ?_) (fun _ => ?_)
    · refine ite_ind (P := fun (r : Bool × DecodeOOK) => Safe r.2) (fun h3 => ?_) (fun _ => ?_)
      · have h3a : (s.pos + 1) % 256 < 25 := h3
        have h3b : s.pos + 1 < 25 := by omega
        exact ksxCount_safe _ ⟨Nat.le_of_lt_succ h3, oob_step (oob_step ho hp1) h3b⟩
      · exact ⟨Nat.zero_le _, oob_step ho hp1⟩
    · exact ksxCount_safe _ ⟨hp, oob_step ho hp1⟩
  · refine ite_ind (P := fun (r : Bool × DecodeOOK) => Safe r.2) (fun _ => ?_) (fun _ => ?_)
    · exact ⟨Nat.zero_le _, ho⟩
    · exact ksxCount_safe _ ⟨hp, ho⟩

theorem ksxPreamble_safe (s : DecodeOOK) (w : Bool) (h : Safe s) : Safe (ksxPreamble s w) := by
  unfold ksxPreamble
  refine ite_ind (P := Safe) (fun _ => ?_) (fun _ => ?_)
  · exact ite_ind (P := Safe) (fun _ => h) (fun _ => h)
  · refine ite_ind (P := Safe) (fun _ => ?_) (fun _ => ?_)
    · exact ite_ind (P := Safe) (fun _ => h) (fun _ => h)
    · refine ite_ind (P := Safe) (fun _ => h) (fun _ => ?_)
      exact ite_ind (P := Safe) (fun _ => h) (fun _ => h)

theorem ksxDecode_safe (s : DecodeOOK) (w : Nat) (h : Safe s) : Safe (ksxDecode s w).2 := by
  have hg := fun v => ksxGotBit_safe s v h
  unfold ksxDecode
  refine ite_ind (P := fun (r : Int × DecodeOOK) => Safe r.2) (fun _ => ?_) (fun _ => ?_)
  · refine ite_ind (P := fun (r : Int × DecodeOOK) => Safe r.2) (fun _ => ?_) (fun _ => ?_)
    · exact ksxPreamble_safe s _ h
    · refine ite_ind (P := fun (r : Int × DecodeOOK) => Safe r.2) (fun _ => ?_) (fun _ => ?_)
      · exact ite_ind (P := fun (r : Int × DecodeOOK) => Safe r.2)
          (fun _ => ⟨Nat.zero_le _, h.2⟩) (fun _ => h)
      · refine ite_ind (P := fun (r : Int × DecodeOOK) => Safe r.2) (fun _ => h) (fun _ => ?_)
        refine ite_ind (P := fun (r : Int × DecodeOOK) => Safe r.2) (fun _ => ?_) (fun _ => ?_)
        · refine ite_ind (P := fun (r : Int × DecodeOOK) => Safe r.2) (fun _ => hg _) (fun _ => ?_)
          exact ite_ind (P := fun (r : Int × DecodeOOK) => Safe r.2) (fun _ => hg _)
            (fun _ => hg _)
        · refine ite_ind (P := fun (r : Int × DecodeOOK) => Safe r.2) (fun _ => ?_) (fun _ => h)
          refine ite_ind (P := fun (r : Int × DecodeOOK) => Safe r.2) (fun _ => hg _)
            (fun _ => ?_)
          exact ite_ind (P := fun (r : Int × DecodeOOK) => Safe r.2) (fun _ => hg _)
            (fun _ => hg _)
  · exact ite_ind (P := fun (r : Int × DecodeOOK) => Safe r.2) (fun _ => h) (fun _ => h)

theorem fsxCount_safe (s : DecodeOOK) (h : Safe s) : Safe (fsxCount s).2 := by
  unfold fsxCount
  refine ite_ind (P := fun (r : Bool × DecodeOOK) => Safe r.2) (fun _ => h) (fun _ => ?_)
  exact ite_ind (P := fun (r : Bool × DecodeOOK) => Safe r.2) (fun _ => h) (fun _ => h)

theorem fsxGotBit_safe (s : DecodeOOK) (v : Nat) (h : Safe s) : Safe (fsxGotBit s v).2 := by
  obtain ⟨hp, ho⟩ := h
  have hp1 : s.pos < 25 := by omega
  unfold fsxGotBit
  refine ite_ind (P := fun (r : Bool × DecodeOOK) => Safe r.2) (fun _ => ?_) (fun _ => ?_)
  · refine ite_ind (P := fun (r : Bool × DecodeOOK) => Safe r.2) (fun _ => ?_) (fun _ => ?_)
    · refine ite_ind (P := fun (r : Bool × DecodeOOK) => Safe r.2) (fun h3 => ?_) (fun _ => ?_)
      · have h3a : (s.pos + 1) % 256 < 25 := h3
        have h3b : s.pos + 1 < 25 := by omega
        exact fsxCount_safe _ ⟨Nat.le_of_lt_succ h3, oob_step (oob_step ho hp1) h3b⟩
      · exact ⟨Nat.zero_le _, oob_step ho hp1⟩
    · exact fsxCount_safe _ ⟨hp, oob_step ho hp1⟩
  · refine ite_ind (P := fun (r : Bool × DecodeOOK) => Safe r.2) (fun _ => ?_) (fun _ => ?_)
    · exact fsxCount_safe _ ⟨hp, oob_step ho hp1⟩
    · exact ⟨Nat.zero_le _, oob_step ho hp1⟩

theorem fsxDecode_safe (s : DecodeOOK) (w : Nat) (h : Safe s) : Safe (fsxDecode s w).2 := by
  have hg := fun v => fsxGotBit_safe s v h
  unfold fsxDecode
  refine ite_ind (P := fun (r : Int × DecodeOOK) => Safe r.2) (fun _ => ?_) (fun _ => ?_)
  · refine ite_ind (P := fun (r : Int × DecodeOOK) => Safe r.2) (fun _ => ?_) (fun _ => ?_)
    · refine ite_ind (P := fun (r : Int × DecodeOOK) => Safe r.2) (fun _ => h) (fun _ => ?_)
      exact ite_ind (P := fun (r : Int × DecodeOOK) => Safe r.2) (fun _ => h) (fun _ => h)
    · refine ite_ind (P := fun (r : Int × DecodeOOK) => Safe r.2) (fun _ => ?_) (fun _ => ?_)
      · exact ite_ind (P := fun (r : Int × DecodeOOK) => Safe r.2)
          (fun _ => ⟨h.1, oob_step h.2 (by decide)⟩) (fun _ => h)
      · refine ite_ind (P := fun (r : Int × DecodeOOK) => Safe r.2) (fun _ => h) (fun _ => ?_)
        refine ite_ind (P := fun (r : Int × DecodeOOK) => Safe r.2) (fun _ => ?_) (fun _ => ?_)
        · refine ite_ind (P := fun (r : Int × DecodeOOK) => Safe r.2) (fun _ => ?_) (fun _ => h)
          exact ite_ind (P := fun (r : Int × DecodeOOK) => Safe r.2) (fun _ => hg _)
            (fun _ => hg _)
        · refine ite_ind (P := fun (r : Int × DecodeOOK) => Safe r.2) (fun _ => ?_) (fun _ => h)
          refine ite_ind (P := fun (r : Int × DecodeOOK) => Safe r.2) (fun _ => ?_) (fun _ => h)
          exact ite_ind (P := fun (r : Int × DecodeOOK) => Safe r.2) (fun _ => hg _)
            (fun _ => hg _)
  · exact ite_ind (P := fun (r : Int × DecodeOOK) => Safe r.2) (fun _ => h) (fun _ => h)

theorem decode_safe (k : Kind) (s : DecodeOOK) (w : Nat) (h : Safe s) : Safe (decode k s w).2 := by
  cases k
  · exact visonicDecode_safe s w h
  · exact emxDecode_safe s w h
  · exact ksxDecode_safe s w h
  · exact fsxDecode_safe s w h

theorem nextPulse_safe (k : Kind) (s : DecodeOOK) (w m : Nat) (h : Safe s) :
    Safe (nextPulse k s w m).2 := by
  have h1 := decode_safe k s w h
  have h2 := checkRepeats_safe _ m (padLoop_safe 7 _ h1)
  unfold nextPulse
  refine ite_ind (P := fun (r : Bool × DecodeOOK) => Safe r.2) (fun _ => ?_) (fun _ => h)
  refine ite_ind (P := fun (r : Bool × DecodeOOK) => Safe r.2) (fun _ => ?_) (fun _ => ?_)
  · exact resetDecoder_safe _ h1.2
  · refine ite_ind (P := fun (r : Bool × DecodeOOK) => Safe r.2) (fun _ => ?_) (fun _ => h1)
    show Safe (if _ then _ else _)
    exact ite_ind (P := Safe) (fun _ => ⟨h2.1, h2.2⟩) (fun _ => resetDecoder_safe _ h2.2)

theorem run_safe (k : Kind) (s : DecodeOOK) (ops : List Op) (h : Safe s) : Safe (run k s ops) := by
  unfold run
  refine foldl_keeps Safe _ _ s h ?_
  intro t op _ ht
  cases op with
  | pulse w m => exact nextPulse_safe k t w m ht
  | reset => exact resetDecoder_safe t ht.2

theorem construct_safe (k : Kind) (mem : DecodeOOK) : Safe (construct k mem) :=
  ⟨Nat.zero_le _, rfl⟩

/-! ## What `decode` leaves alone -/

theorem keeps_refl (s : DecodeOOK) : Keeps s s := ⟨rfl, rfl, rfl, rfl, rfl, fun h => h⟩

theorem keeps_trans {a b c : DecodeOOK} (h1 : Keeps a b) (h2 : Keeps b c) : Keeps a c :=
  ⟨h2.1.trans h1.1, h2.2.1.trans h1.2.1, h2.2.2.1.trans h1.2.2.1, h2.2.2.2.1.trans h1.2.2.2.1,
   h2.2.2.2.2.1.trans h1.2.2.2.2.1, fun h => h2.2.2.2.2.2 (h1.2.2.2.2.2 h)⟩

theorem frame_keeps {s t : DecodeOOK} (h : Frame s t) : Keeps s t :=
  ⟨h.2.2.2.2.1, h.2.2.2.2.2.1, h.2.2.2.2.2.2.1, h.2.2.2.2.2.2.2.1, h.2.2.2.2.2.2.2.2.1,
   fun h1 => by rw [h.2.2.1]; exact h1⟩

theorem keeps_lt {s t : DecodeOOK} (h1 : t.lastCrc = s.lastCrc) (h2 : t.lastTime = s.lastTime)
    (h3 : t.repeats = s.repeats) (h4 : t.minGap = s.minGap) (h5 : t.minCount = s.minCount)
    (h6 : t.state < 8) : Keeps s t :=
  ⟨h1, h2, h3, h4, h5, fun _ => Nat.ne_of_lt h6⟩

theorem keeps_same {s t : DecodeOOK} (h1 : t.lastCrc = s.lastCrc) (h2 : t.lastTime = s.lastTime)
    (h3 : t.repeats = s.repeats) (h4 : t.minGap = s.minGap) (h5 : t.minCount = s.minCount)
    (h6 : t.state = s.state) : Keeps s t :=
  ⟨h1, h2, h3, h4, h5, fun h => by rw [h6]; exact h⟩

theorem lt8_0 : (0 : Nat) < 8 := by decide
theorem lt8_1 : (1 : Nat) < 8 := by decide
theorem lt8_2 : (2 : Nat) < 8 := by decide
theorem lt8_3 : (3 : Nat) < 8 := by decide
theorem lt8_6 : (6 : Nat) < 8 := by decide

theorem gotBit_keeps (s : DecodeOOK) (v : Nat) : Keeps s (gotBit s v) := by
  unfold gotBit
  refine ite_ind (P := Keeps s) (fun _ => ?_) (fun _ => ?_)
  · refine ite_ind (P := Keeps s) (fun _ => ?_) (fun _ => ?_)
    · exact keeps_lt rfl rfl rfl rfl rfl lt8_6
    · exact keeps_lt rfl rfl rfl rfl rfl lt8_0
  · exact keeps_lt rfl rfl rfl rfl rfl lt8_6

theorem resetDecoder_keeps (s : DecodeOOK) : Keeps s (resetDecoder s) :=
  keeps_lt rfl rfl rfl rfl rfl lt8_0

theorem alignTail_keeps (s : DecodeOOK) (m : Nat) : Keeps s (alignTail s m) := by
  have key : ∀ s1 : DecodeOOK,
      Keeps s1 (if 0 < m ∧ m < s1.pos then dropLoop { s1 with pos := m } (s1.pos - m) else s1) := by
    intro s1
    refine ite_ind (P := Keeps s1) (fun _ => ?_) (fun _ => keeps_refl s1)
    have h2 := frame_keeps (dropLoop_frame { s1 with pos := m } (s1.pos - m)).1
    exact keeps_trans (keeps_same rfl rfl rfl rfl rfl rfl) h2
  unfold alignTail
  refine keeps_trans ?_ (key _)
  refine ite_ind (P := Keeps s) (fun _ => ?_) (fun _ => keeps_refl s)
  have h1 := frame_keeps (alignLoop_frame (wr s s.pos (rd s s.pos >>> (8 - s.bits)))).1
  have h0 := frame_keeps (frame_wr s s.pos (rd s s.pos >>> (8 - s.bits)))
  exact keeps_trans (keeps_trans h0 h1) (keeps_same rfl rfl rfl rfl rfl rfl)

theorem padLoop_keeps (n : Nat) (s : DecodeOOK) : Keeps s (padLoop n s) := by
  induction n generalizing s with
  | zero => exact keeps_refl s
  | succ n ih =>
    unfold padLoop
    exact ite_ind (P := Keeps s) (fun _ => keeps_trans (gotBit_keeps s 0) (ih _))
      (fun _ => keeps_refl s)

theorem visonicDecode_keeps (s : DecodeOOK) (w : Nat) : Keeps s (visonicDecode s w).2 := by
  have hi := fun t => frame_keeps (invertLoop_frame t).1
  have hg := gotBit_keeps
  have h4 := keeps_trans (keeps_trans (keeps_trans (keeps_trans (hg s 0) (hg _ 0)) (hg _ 0))
    (hg _ 0)) (alignTail_keeps _ 5)
  have hgi := fun v => keeps_trans (hg s v) (hi _)
  have h2 : Keeps s (invertLoop { s with state := T0 }) :=
    keeps_trans (b := { s with state := T0 }) (keeps_lt rfl rfl rfl rfl rfl lt8_2) (hi _)
  have h3 : Keeps s (invertLoop { s with state := T1 }) :=
    keeps_trans (b := { s with state := T1 }) (keeps_lt rfl rfl rfl rfl rfl lt8_3) (hi _)
  unfold visonicDecode
  split_ifs <;> dsimp only <;> (try split_ifs) <;>
    with_reducible first
    | exact keeps_refl s
    | exact h4
    | exact hg _ _
    | exact hi _
    | exact hgi _
    | exact h2
    | exact h3

theorem emxDecode_keeps (s : DecodeOOK) (w : Nat) : Keeps s (emxDecode s w).2 := by
  have hr := keeps_refl s
  unfold emxDecode
  refine ite_ind (P := fun (r : Int × DecodeOOK) => Keeps s r.2) (fun _ => ?_) (fun _ => ?_)
  · refine ite_ind (P := fun (r : Int × DecodeOOK) => Keeps s r.2) (fun hs => ?_) (fun _ => ?_)
    · refine ite_ind (P := fun (r : Int × DecodeOOK) => Keeps s r.2)
        (fun _ => keeps_same rfl rfl rfl rfl rfl rfl) (fun _ => ?_)
      exact ite_ind (P := fun (r : Int × DecodeOOK) => Keeps s r.2)
        (fun _ => keeps_lt rfl rfl rfl rfl rfl lt8_6) (fun _ => hr)
    · refine ite_ind (P := fun (r : Int × DecodeOOK) => Keeps s r.2) (fun _ => ?_) (fun _ => ?_)
      · exact ite_ind (P := fun (r : Int × DecodeOOK) => Keeps s r.2)
          (fun _ => keeps_lt rfl rfl rfl rfl rfl lt8_2) (fun _ => hr)
      · exact ite_ind (P := fun (r : Int × DecodeOOK) => Keeps s r.2)
          (fun _ => gotBit_keeps s _) (fun _ => hr)
  · exact ite_ind (P := fun (r : Int × DecodeOOK) => Keeps s r.2) (fun _ => hr) (fun _ => hr)

theorem ksxCount_keeps (s : DecodeOOK) : Keeps s (ksxCount s).2 := by
  unfold ksxCount
  refine ite_ind (P := fun (r : Bool × DecodeOOK) => Keeps s r.2)
    (fun _ => keeps_same rfl rfl rfl rfl rfl rfl) (fun _ => ?_)
  exact ite_ind (P := fun (r : Bool × DecodeOOK) => Keeps s r.2)
    (fun _ => keeps_same rfl rfl rfl rfl rfl rfl) (fun _ => keeps_lt rfl rfl rfl rfl rfl lt8_6)

theorem ksxGotBit_keeps (s : DecodeOOK) (v : Nat) : Keeps s (ksxGotBit s v).2 := by
  have hc := fun (t : DecodeOOK) (h : Keeps s t) => keeps_trans h (ksxCount_keeps t)
  unfold ksxGotBit
  refine ite_ind (P := fun (r : Bool × DecodeOOK) => Keeps s r.2) (fun _ => ?_) (fun _ => ?_)
  · refine ite_ind (P := fun (r : Bool × DecodeOOK) => Keeps s r.2) (fun _ => ?_) (fun _ => ?_)
    · refine ite_ind (P := fun (r : Bool × DecodeOOK) => Keeps s r.2) (fun _ => ?_) (fun _ => ?_)
      · exact hc _ (keeps_same rfl rfl rfl rfl rfl rfl)
      · exact keeps_lt rfl rfl rfl rfl rfl lt8_0
    · exact hc _ (keeps_same rfl rfl rfl rfl rfl rfl)
  · refine ite_ind (P := fun (r : Bool × DecodeOOK) => Keeps s r.2) (fun _ => ?_) (fun _ => ?_)
    · exact keeps_lt rfl rfl rfl rfl rfl lt8_0
    · exact ksxCount_keeps s

theorem ksxPreamble_keeps (s : DecodeOOK) (w : Bool) : Keeps s (ksxPreamble s w) := by
  have hr := keeps_refl s
  have hs : ∀ f p : Nat, Keeps s { s with flip := f, pulse := p } :=
    fun _ _ => keeps_same rfl rfl rfl rfl rfl rfl
  have hf : ∀ f : Nat, Keeps s { s with flip := f } := fun _ => keeps_same rfl rfl rfl rfl rfl rfl
  unfold ksxPreamble
  refine ite_ind (P := Keeps s) (fun _ => ?_) (fun _ => ?_)
  · exact ite_ind (P := Keeps s) (fun _ => hs _ _) (fun _ => hr)
  · refine ite_ind (P := Keeps s) (fun _ => ?_) (fun _ => ?_)
    · exact ite_ind (P := Keeps s) (fun _ => hs _ _) (fun _ => hf _)
    · refine ite_ind (P := Keeps s) (fun _ => hs _ _) (fun _ => ?_)
      exact ite_ind (P := Keeps s) (fun _ => keeps_lt rfl rfl rfl rfl rfl lt8_1) (fun _ => hf _)

theorem ksxDecode_keeps (s : DecodeOOK) (w : Nat) : Keeps s (ksxDecode s w).2 := by
  have hg := ksxGotBit_keeps s
  have hr := keeps_refl s
  have hp := ksxPreamble_keeps s
  have h6 : Keeps s { s with state := OK, bits := 0, pos := 0, bitCount := 0, msgType := 0 } :=
    keeps_lt rfl rfl rfl rfl rfl lt8_6
  have h2 : Keeps s { s with state := T0 } := keeps_lt rfl rfl rfl rfl rfl lt8_2
  have h3 : Keeps s { s with state := T1 } := keeps_lt rfl rfl rfl rfl rfl lt8_3
  unfold ksxDecode
  refine ite_ind (P := fun (r : Int × DecodeOOK) => Keeps s r.2) (fun _ => ?_) (fun _ => ?_)
  · refine ite_ind (P := fun (r : Int × DecodeOOK) => Keeps s r.2) (fun _ => ?_) (fun _ => ?_)
    · exact hp _
    · refine ite_ind (P := fun (r : Int × DecodeOOK) => Keeps s r.2) (fun _ => ?_) (fun _ => ?_)
      · exact ite_ind (P := fun (r : Int × DecodeOOK) => Keeps s r.2) (fun _ => h6) (fun _ => hr)
      · refine ite_ind (P := fun (r : Int × DecodeOOK) => Keeps s r.2) (fun _ => ?_) (fun _ => ?_)
        · show Keeps s { s with state := if _ then _ else _ }
          exact ite_ind (P := fun x => Keeps s { s with state := x }) (fun _ => h2) (fun _ => h3)
        refine ite_ind (P := fun (r : Int × DecodeOOK) => Keeps s r.2) (fun _ => ?_) (fun _ => ?_)
        · refine ite_ind (P := fun (r : Int × DecodeOOK) => Keeps s r.2) (fun _ => hg _)
            (fun _ => ?_)
          exact ite_ind (P := fun (r : Int × DecodeOOK) => Keeps s r.2) (fun _ => hg _)
            (fun _ => hg _)
        · refine ite_ind (P := fun (r : Int × DecodeOOK) => Keeps s r.2) (fun _ => ?_) (fun _ => hr)
          refine ite_ind (P := fun (r : Int × DecodeOOK) => Keeps s r.2) (fun _ => hg _)
            (fun _ => ?_)
          exact ite_ind (P := fun (r : Int × DecodeOOK) => Keeps s r.2) (fun _ => hg _)
            (fun _ => hg _)
  · exact ite_ind (P := fun (r : Int × DecodeOOK) => Keeps s r.2) (fun _ => hr) (fun _ => hr)

theorem fsxCount_keeps (s : DecodeOOK) : Keeps s (fsxCount s).2 := by
  unfold fsxCount
  refine ite_ind (P := fun (r : Bool × DecodeOOK) => Keeps s r.2)
    (fun _ => keeps_same rfl rfl rfl rfl rfl rfl) (fun _ => ?_)
  exact ite_ind (P := fun (r : Bool × DecodeOOK) => Keeps s r.2)
    (fun _ => keeps_same rfl rfl rfl rfl rfl rfl) (fun _ => keeps_lt rfl rfl rfl rfl rfl lt8_6)

theorem fsxGotBit_keeps (s : DecodeOOK) (v : Nat) : Keeps s (fsxGotBit s v).2 := by
  have hc := fun (t : DecodeOOK) (h : Keeps s t) => keeps_trans h (fsxCount_keeps t)
  unfold fsxGotBit
  refine ite_ind (P := fun (r : Bool × DecodeOOK) => Keeps s r.2) (fun _ => ?_) (fun _ => ?_)
  · refine ite_ind (P := fun (r : Bool × DecodeOOK) => Keeps s r.2) (fun _ => ?_) (fun _ => ?_)
    · refine ite_ind (P := fun (r : Bool × DecodeOOK) => Keeps s r.2) (fun _ => ?_) (fun _ => ?_)
      · exact hc _ (keeps_same rfl rfl rfl rfl rfl rfl)
      · exact keeps_lt rfl rfl rfl rfl rfl lt8_0
    · exact hc _ (keeps_same rfl rfl rfl rfl rfl rfl)
  · refine ite_ind (P := fun (r : Bool × DecodeOOK) => Keeps s r.2) (fun _ => ?_) (fun _ => ?_)
    · exact hc _ (keeps_same rfl rfl rfl rfl rfl rfl)
    · exact keeps_lt rfl rfl rfl rfl rfl lt8_0

theorem fsxDecode_keeps (s : DecodeOOK) (w : Nat) : Keeps s (fsxDecode s w).2 := by
  have hg := fsxGotBit_keeps s
  have hr := keeps_refl s
  have hf : ∀ f : Nat, Keeps s { s with flip := f } := fun _ => keeps_same rfl rfl rfl rfl rfl rfl
  have h1 : Keeps s { s with state := SYNC } := keeps_lt rfl rfl rfl rfl rfl lt8_1
  have h6 : Keeps s
      (wr { s with state := OK, fsBitCount := 0, parity := false, extendedMsg := false } 0 0) :=
    keeps_lt rfl rfl rfl rfl rfl lt8_6
  have h2 : Keeps s { s with state := T0 } := keeps_lt rfl rfl rfl rfl rfl lt8_2
  have h3 : Keeps s { s with state := T1 } := keeps_lt rfl rfl rfl rfl rfl lt8_3
  unfold fsxDecode
  refine ite_ind (P := fun (r : Int × DecodeOOK) => Keeps s r.2) (fun _ => ?_) (fun _ => ?_)
  · refine ite_ind (P := fun (r : Int × DecodeOOK) => Keeps s r.2) (fun _ => ?_) (fun _ => ?_)
    · refine ite_ind (P := fun (r : Int × DecodeOOK) => Keeps s r.2) (fun _ => hf _) (fun _ => ?_)
      exact ite_ind (P := fun (r : Int × DecodeOOK) => Keeps s r.2) (fun _ => h1) (fun _ => hr)
    · refine ite_ind (P := fun (r : Int × DecodeOOK) => Keeps s r.2) (fun _ => ?_) (fun _ => ?_)
      · exact ite_ind (P := fun (r : Int × DecodeOOK) => Keeps s r.2) (fun _ => h6) (fun _ => hr)
      · refine ite_ind (P := fun (r : Int × DecodeOOK) => Keeps s r.2) (fun _ => ?_) (fun _ => ?_)
        · show Keeps s { s with state := if _ then _ else _ }
          exact ite_ind (P := fun x => Keeps s { s with state := x }) (fun _ => h2) (fun _ => h3)
        refine ite_ind (P := fun (r : Int × DecodeOOK) => Keeps s r.2) (fun _ => ?_) (fun _ => ?_)
        · refine ite_ind (P := fun (r : Int × DecodeOOK) => Keeps s r.2) (fun _ => ?_) (fun _ => hr)
          exact ite_ind (P := fun (r : Int × DecodeOOK) => Keeps s r.2) (fun _ => hg _)
            (fun _ => hg _)
        · refine ite_ind (P := fun (r : Int × DecodeOOK) => Keeps s r.2) (fun _ => ?_) (fun _ => hr)
          refine ite_ind (P := fun (r : Int × DecodeOOK) => Keeps s r.2) (fun _ => ?_) (fun _ => hr)
          exact ite_ind (P := fun (r : Int × DecodeOOK) => Keeps s r.2) (fun _ => hg _)
            (fun _ => hg _)
  · exact ite_ind (P := fun (r : Int × DecodeOOK) => Keeps s r.2) (fun _ => hr) (fun _ => hr)

theorem decode_keeps (k : Kind) (s : DecodeOOK) (w : Nat) : Keeps s (decode k s w).2 := by
  cases k
  · exact visonicDecode_keeps s w
  · exact emxDecode_keeps s w
  · exact ksxDecode_keeps s w
  · exact fsxDecode_keeps s w

/-! ## C1: the cursor never leaves the buffer -/

theorem isReset_resetDecoder (s : DecodeOOK) : IsReset (resetDecoder s) := ⟨rfl, rfl, rfl, rfl⟩

theorem gotBit_overflow (s : DecodeOOK) (v : Nat) (hp : s.pos = 24)
    (hb : 7 ≤ (s.bits + 1) % 256) : IsReset (gotBit s v) := by
  have h2 : ¬ (s.pos + 1) % 256 < sizeofData := by rw [hp]; decide
  unfold gotBit
  refine ite_ind (P := IsReset) (fun _ => ?_) (fun h => absurd hb h)
  exact ite_ind (P := IsReset) (fun h => absurd h h2) (fun _ => isReset_resetDecoder _)

theorem ksxGotBit_overflow (s : DecodeOOK) (v : Nat) (hp : s.pos = 24)
    (hc : s.bitCount % 5 ≠ 4) (hb : 8 ≤ (s.bits + 1) % 256) :
    (ksxGotBit s v).1 = false ∧ IsReset (ksxGotBit s v).2 := by
  have h2 : ¬ (s.pos + 1) % 256 < sizeofData := by rw [hp]; decide
  unfold ksxGotBit
  refine ite_ind (P := fun (r : Bool × DecodeOOK) => r.1 = false ∧ IsReset r.2)
    (fun _ => ?_) (fun h => absurd hc h)
  refine ite_ind (P := fun (r : Bool × DecodeOOK) => r.1 = false ∧ IsReset r.2)
    (fun _ => ?_) (fun h => absurd hb h)
  exact ite_ind (P := fun (r : Bool × DecodeOOK) => r.1 = false ∧ IsReset r.2)
    (fun h => absurd h h2) (fun _ => ⟨rfl, isReset_resetDecoder _⟩)

theorem fsxGotBit_overflow (s : DecodeOOK) (v : Nat) (hp : s.pos = 24)
    (hc : s.fsBitCount % 9 ≠ 8) (hb : 8 ≤ (s.bits + 1) % 256) :
    (fsxGotBit s v).1 = false ∧ IsReset (fsxGotBit s v).2 := by
  have h2 : ¬ (s.pos + 1) % 256 < sizeofData := by rw [hp]; decide
  unfold fsxGotBit
  refine ite_ind (P := fun (r : Bool × DecodeOOK) => r.1 = false ∧ IsReset r.2)
    (fun _ => ?_) (fun h => absurd hc h)
  refine ite_ind (P := fun (r : Bool × DecodeOOK) => r.1 = false ∧ IsReset r.2)
    (fun _ => ?_) (fun h => absurd hb h)
  exact ite_ind (P := fun (r : Bool × DecodeOOK) => r.1 = false ∧ IsReset r.2)
    (fun h => absurd h h2) (fun _ => ⟨rfl, isReset_resetDecoder _⟩)

/-- C1: for each of the four decoders, starting from a newly constructed
object (whatever the uninitialised members hold) and after any finite sequence
of `nextPulse` and `resetDecoder` calls, the byte cursor `pos` is at most 24
and no `data[]` access made so far used an index outside `0..24` (the ghost
`oob` is still clear); and a bit append that would move `pos` to 25 (in
`DecodeOOK::gotBit`, `KSxDecoder::gotBit` or `FSxDecoder::gotBit`) leaves the
decoder reset: `pos = bits = flip = 0`, `state = UNKNOWN`. -/
theorem cursor_stays_in_buffer (k : Kind) (mem : DecodeOOK) (ops : List Op) :
    (run k (construct k mem) ops).pos ≤ 24 ∧ (run k (construct k mem) ops).oob = false ∧
    (∀ (s : DecodeOOK) (v : Nat), s.pos = 24 → 7 ≤ (s.bits + 1) % 256 → IsReset (gotBit s v)) ∧
    (∀ (s : DecodeOOK) (v : Nat), s.pos = 24 → s.bitCount % 5 ≠ 4 → 8 ≤ (s.bits + 1) % 256 →
      (ksxGotBit s v).1 = false ∧ IsReset (ksxGotBit s v).2) ∧
    (∀ (s : DecodeOOK) (v : Nat), s.pos = 24 → s.fsBitCount % 9 ≠ 8 → 8 ≤ (s.bits + 1) % 256 →
      (fsxGotBit s v).1 = false ∧ IsReset (fsxGotBit s v).2) :=
  ⟨(run_safe k _ ops (construct_safe k mem)).1, (run_safe k _ ops (construct_safe k mem)).2,
   gotBit_overflow, ksxGotBit_overflow, fsxGotBit_overflow⟩

/-- Instance of C1: an energy-meter run, and an append at `pos = 24`,
`bits = 6`. -/
theorem cursor_stays_in_buffer_witness :
    (run .emx (construct .emx zeroMem) [.pulse 400 0, .reset, .pulse 700 5]).pos ≤ 24 ∧
    IsReset (gotBit lastByteState 1) :=
  ⟨(cursor_stays_in_buffer .emx zeroMem [.pulse 400 0, .reset, .pulse 700 5]).1,
   (cursor_stays_in_buffer .emx zeroMem []).2.2.1 lastByteState 1 rfl (by decide)⟩

/-! ## The duplicate filter -/

theorem checkRepeats_spec (p : DecodeOOK) (m : Nat) :
    (checkRepeats p m).1 = decide (repeatsTested p m ≠ p.minCount) ∧
    (checkRepeats p m).2.repeats = (repeatsTested p m + 1) % 256 ∧
    (checkRepeats p m).2.lastCrc = packetCrc p ∧
    (checkRepeats p m).2.lastTime = tenths m ∧
    (checkRepeats p m).2.minGap = p.minGap ∧
    (checkRepeats p m).2.minCount = p.minCount ∧
    (checkRepeats p m).2.pos = p.pos ∧
    (checkRepeats p m).2.bits = p.bits ∧
    (checkRepeats p m).2.flip = p.flip ∧
    (checkRepeats p m).2.state = p.state ∧
    (checkRepeats p m).2.data = p.data := by
  obtain ⟨hf, hd, -⟩ := touchLoop_frame p
  obtain ⟨e1, e2, e3, e4, e5, e6, e7, e8, e9, -⟩ := hf
  unfold checkRepeats repeatsTested
  dsimp only
  rw [e5, e6, e8]
  split_ifs <;> simp [e1, e2, e3, e4, e7, e8, e9, hd]

theorem foldl_congr_mem {α β : Type} (f g : α → β → α) (l : List β) (a : α)
    (h : ∀ x i, i ∈ l → f x i = g x i) : l.foldl f a = l.foldl g a := by
  induction l generalizing a with
  | nil => rfl
  | cons y ys ih =>
    simp only [List.foldl_cons]
    rw [h a y (by simp)]
    exact ih _ (fun x i hi => h x i (by simp [hi]))

theorem packetCrc_of_getData (s t : DecodeOOK) (h : getData s = getData t) :
    packetCrc s = packetCrc t := by
  have hp : s.pos = t.pos := congrArg Prod.fst h
  have hd : s.data.take s.pos = t.data.take t.pos := congrArg Prod.snd h
  unfold packetCrc
  rw [← hp]
  apply foldl_congr_mem
  intro c i hi
  have hi1 : i < s.pos := List.mem_range.mp hi
  have e1 : rd s i = (s.data.take s.pos).getD i 0 := by
    simp [rd, List.getD_eq_getElem?_getD, List.getElem?_take, hi1]
  have e2 : rd t i = (t.data.take t.pos).getD i 0 := by
    simp [rd, List.getD_eq_getElem?_getD, List.getElem?_take, ← hp, hi1]
  rw [e1, e2, hd]

theorem nextPulse_quiet (k : Kind) (s : DecodeOOK) (w m : Nat)
    (h : s.state = DONE ∨ (decode k s w).1 ≠ 1) : Keeps s (nextPulse k s w m).2 := by
  have hd := decode_keeps k s w
  unfold nextPulse
  refine ite_ind (P := fun (r : Bool × DecodeOOK) => Keeps s r.2) (fun hs => ?_)
    (fun _ => keeps_refl s)
  have h1 : (decode k s w).1 ≠ 1 := h.resolve_left hs
  refine ite_ind (P := fun (r : Bool × DecodeOOK) => Keeps s r.2) (fun _ => ?_) (fun _ => ?_)
  · exact keeps_trans hd (resetDecoder_keeps _)
  · exact ite_ind (P := fun (r : Bool × DecodeOOK) => Keeps s r.2) (fun h2 => absurd h2 h1)
      (fun _ => hd)

theorem run_quiet (k : Kind) (s : DecodeOOK) (ops : List Op) (h : quiet k s ops = true) :
    Keeps s (run k s ops) := by
  induction ops generalizing s with
  | nil => exact keeps_refl s
  | cons op ops ih =>
    cases op with
    | pulse w m =>
      simp only [quiet, Bool.and_eq_true, Bool.or_eq_true, decide_eq_true_eq] at h
      exact keeps_trans (nextPulse_quiet k s w m h.1) (ih _ h.2)
    | reset =>
      simp only [quiet] at h
      exact keeps_trans (resetDecoder_keeps s) (ih _ h)

theorem nextPulse_complete (k : Kind) (s : DecodeOOK) (w m : Nat) (hs : s.state ≠ DONE)
    (h1 : (decode k s w).1 = 1) :
    nextPulse k s w m =
      if (checkRepeats (completed k s w) m).1 = false
      then (true, { (checkRepeats (completed k s w) m).2 with state := DONE })
      else (false, resetDecoder (checkRepeats (completed k s w) m).2) := by
  have h2 : ¬ (decode k s w).1 = -1 := by rw [h1]; decide
  unfold nextPulse completed
  rw [if_pos hs]
  dsimp only
  rw [if_neg h2, if_pos h1]
  cases (checkRepeats (padLoop 7 (decode k s w).2) m).1 <;> rfl

theorem defaultGap_le (k : Kind) : defaultGap k ≤ 30 := by cases k <;> decide

theorem since_small (m1 m2 g : Nat) (h1 : m1 ≤ m2) (h2 : m2 / 100 - m1 / 100 ≤ g)
    (hg : g ≤ 30) : ¬ g < (tenths m2 + 65536 - tenths m1) % 65536 := by
  have h3 : m1 / 100 ≤ m2 / 100 := Nat.div_le_div_right h1
  unfold tenths
  omega

theorem completed_keeps (k : Kind) (s : DecodeOOK) (w : Nat) : Keeps s (completed k s w) :=
  keeps_trans (decode_keeps k s w) (padLoop_keeps 7 _)

/-- The duplicate filter between two rollovers of the clock: on a newly
constructed decoder (default `minCount = 0`), let a first packet complete (no
call before it completes one), let the owner call `resetDecoder`, and let a
second packet complete (no completion in between) with the same byte count and
bytes, at a reading `m2` of `millis()` that is not below the first reading `m1`
(the 32-bit counter did not wrap in between) and whose tenths are at most
`minGap` after those of the first.  Then `nextPulse` returns `true` for the
first completion and `false` for the second, and leaves the decoder with
`state = UNKNOWN`, `pos = 0`, `bits = 0`. -/
theorem duplicate_within_gap_suppressed (k : Kind) (mem : DecodeOOK) (ops1 ops2 : List Op)
    (w1 m1 w2 m2 : Nat)
    (hq1 : quiet k (construct k mem) ops1 = true)
    (hc1 : (decode k (run k (construct k mem) ops1) w1).1 = 1)
    (hq2 : quiet k (resetDecoder (afterFirst k mem ops1 w1 m1)) ops2 = true)
    (hc2 : (decode k (beforeSecond k mem ops1 w1 m1 ops2) w2).1 = 1)
    (hb : getData (completed k (beforeSecond k mem ops1 w1 m1 ops2) w2) =
      getData (afterFirst k mem ops1 w1 m1))
    (ht1 : m1 ≤ m2) (ht2 : m2 / 100 - m1 / 100 ≤ defaultGap k) :
    (nextPulse k (run k (construct k mem) ops1) w1 m1).1 = true ∧
    (nextPulse k (beforeSecond k mem ops1 w1 m1 ops2) w2 m2).1 = false ∧
    (nextPulse k (beforeSecond k mem ops1 w1 m1 ops2) w2 m2).2.state = UNKNOWN ∧
    (nextPulse k (beforeSecond k mem ops1 w1 m1 ops2) w2 m2).2.pos = 0 ∧
    (nextPulse k (beforeSecond k mem ops1 w1 m1 ops2) w2 m2).2.bits = 0 := by
  -- the first completion
  have k1 := keeps_trans (run_quiet k _ ops1 hq1) (completed_keeps k _ w1)
  obtain ⟨-, -, r1, -, c1, -⟩ := k1
  have r1' : (completed k (run k (construct k mem) ops1) w1).repeats = 0 := r1
  have c1' : (completed k (run k (construct k mem) ops1) w1).minCount = 0 := c1
  have g1 : (completed k (run k (construct k mem) ops1) w1).minGap = defaultGap k :=
    (keeps_trans (run_quiet k _ ops1 hq1) (completed_keeps k _ w1)).2.2.2.1
  have hs1 : (run k (construct k mem) ops1).state ≠ DONE :=
    (run_quiet k _ ops1 hq1).2.2.2.2.2 (Nat.ne_of_lt lt8_0)
  have t1 : repeatsTested (completed k (run k (construct k mem) ops1) w1) m1 = 0 := by
    unfold repeatsTested
    split_ifs
    · rfl
    · exact r1'
  obtain ⟨a1, a2, a3, a4, a5, a6, a7, -, -, -, a11⟩ :=
    checkRepeats_spec (completed k (run k (construct k mem) ops1) w1) m1
  rw [t1, c1'] at a1
  rw [t1] at a2
  have a1' : (checkRepeats (completed k (run k (construct k mem) ops1) w1) m1).1 = false := by
    rw [a1]; decide
  have n1 := nextPulse_complete k _ w1 m1 hs1 hc1
  rw [if_pos a1'] at n1
  -- the duplicate record after the first completion
  have f1 : afterFirst k mem ops1 w1 m1 =
      { (checkRepeats (completed k (run k (construct k mem) ops1) w1) m1).2 with state := DONE } :=
    congrArg Prod.snd n1
  have fd : getData (afterFirst k mem ops1 w1 m1) =
      getData (completed k (run k (construct k mem) ops1) w1) := by
    rw [f1]
    show ((checkRepeats _ m1).2.pos, List.take (checkRepeats _ m1).2.pos (checkRepeats _ m1).2.data)
      = _
    rw [a7, a11]
    rfl
  -- the second completion
  have k2 := keeps_trans (keeps_trans (resetDecoder_keeps (afterFirst k mem ops1 w1 m1))
    (run_quiet k _ ops2 hq2)) (completed_keeps k (beforeSecond k mem ops1 w1 m1 ops2) w2)
  obtain ⟨b1, b2, b3, b4, b5, -⟩ := k2
  rw [f1] at b1 b2 b3 b4 b5
  have b1' : (completed k (beforeSecond k mem ops1 w1 m1 ops2) w2).lastCrc =
      packetCrc (completed k (run k (construct k mem) ops1) w1) := b1.trans a3
  have b2' : (completed k (beforeSecond k mem ops1 w1 m1 ops2) w2).lastTime = tenths m1 :=
    b2.trans a4
  have b3' : (completed k (beforeSecond k mem ops1 w1 m1 ops2) w2).repeats = 1 := b3.trans a2
  have b4' : (completed k (beforeSecond k mem ops1 w1 m1 ops2) w2).minGap = defaultGap k :=
    (b4.trans a5).trans g1
  have b5' : (completed k (beforeSecond k mem ops1 w1 m1 ops2) w2).minCount = 0 :=
    (b5.trans a6).trans c1'
  have hs2 : (beforeSecond k mem ops1 w1 m1 ops2).state ≠ DONE :=
    (run_quiet k _ ops2 hq2).2.2.2.2.2 (Nat.ne_of_lt lt8_0)
  have crc2 : packetCrc (completed k (beforeSecond k mem ops1 w1 m1 ops2) w2) =
      packetCrc (completed k (run k (construct k mem) ops1) w1) :=
    packetCrc_of_getData _ _ (hb.trans fd)
  have t2 : repeatsTested (completed k (beforeSecond k mem ops1 w1 m1 ops2) w2) m2 = 1 := by
    unfold repeatsTested
    rw [b1', b2', b3', b4', crc2]
    rw [if_neg]
    intro h
    rcases h with h | h
    · exact h rfl
    · exact since_small m1 m2 _ ht1 ht2 (defaultGap_le k) h
  obtain ⟨d1, -⟩ := checkRepeats_spec (completed k (beforeSecond k mem ops1 w1 m1 ops2) w2) m2
  rw [t2, b5'] at d1
  have d1' : ¬ (checkRepeats (completed k (beforeSecond k mem ops1 w1 m1 ops2) w2) m2).1 = false := by
    rw [d1]; decide
  have n2 := nextPulse_complete k _ w2 m2 hs2 hc2
  rw [if_neg d1'] at n2
  refine ⟨by rw [n1], ?_, ?_, ?_, ?_⟩ <;> rw [n2] <;> rfl

/-- Instance of the filter between rollovers: the switch-actuator packet of
45 zero bits, completed at clock readings 1000 ms and 1300 ms on a decoder
built in zeroed memory. -/
theorem duplicate_within_gap_suppressed_witness :
    (decode .fsx (run .fsx (construct .fsx zeroMem) (pulsesAt 1000 fsxZeroLead)) 400).1 = 1 ∧
    (nextPulse .fsx (run .fsx (construct .fsx zeroMem) (pulsesAt 1000 fsxZeroLead)) 400 1000).1
      = true ∧
    (nextPulse .fsx (beforeSecond .fsx zeroMem (pulsesAt 1000 fsxZeroLead) 400 1000
      (pulsesAt 1300 fsxZeroLead)) 400 1300).1 = false :=
  ⟨by decide!,
   (duplicate_within_gap_suppressed .fsx zeroMem (pulsesAt 1000 fsxZeroLead)
      (pulsesAt 1300 fsxZeroLead) 400 1000 400 1300 (by decide!) (by decide!) (by decide!)
      (by decide!) (by decide!) (by decide) (by decide)).1,
   (duplicate_within_gap_suppressed .fsx zeroMem (pulsesAt 1000 fsxZeroLead)
      (pulsesAt 1300 fsxZeroLead) 400 1000 400 1300 (by decide!) (by decide!) (by decide!)
      (by decide!) (by decide!) (by decide) (by decide)).2.1⟩

/-! ## C3: a duplicate across the rollover of `millis()` -/

/-- C3 (fails on the code): on a switch-actuator decoder built in zeroed
memory (`minCount = 0`, `minGap = 5`) the packet of 45 zero bits completes when
`millis()` reads 4294967200, the owner calls `resetDecoder`, and the same
packet completes again 200 ms later, when the 32-bit counter has wrapped and
reads 104.  The second completion is two tenths of a second after the first,
with identical bytes, yet `nextPulse` returns `true` for both and the decoder
ends in `DONE`: `millis() / 100` drops from 23592 to 1 (as 16-bit values)
across the rollover, so `now - lastTime` is 41945 and exceeds `minGap`.  With
the same 200 ms between readings 1000 and 1200 the second completion is
suppressed. -/
theorem duplicate_across_clock_rollover_reported :
    4294967200 < 2 ^ 32 ∧ (4294967200 + 200) % 2 ^ 32 = 104 ∧
    200 / 100 ≤ defaultGap .fsx ∧
    tenths 4294967200 = 23592 ∧ tenths 104 = 1 ∧
    (decode .fsx (run .fsx (construct .fsx zeroMem) (pulsesAt 4294967200 fsxZeroLead)) 400).1
      = 1 ∧
    (nextPulse .fsx (run .fsx (construct .fsx zeroMem) (pulsesAt 4294967200 fsxZeroLead))
      400 4294967200).1 = true ∧
    (decode .fsx (beforeSecond .fsx zeroMem (pulsesAt 4294967200 fsxZeroLead) 400 4294967200
      (pulsesAt 104 fsxZeroLead)) 400).1 = 1 ∧
    getData (completed .fsx (beforeSecond .fsx zeroMem (pulsesAt 4294967200 fsxZeroLead) 400
      4294967200 (pulsesAt 104 fsxZeroLead)) 400) =
      getData (afterFirst .fsx zeroMem (pulsesAt 4294967200 fsxZeroLead) 400 4294967200) ∧
    (nextPulse .fsx (beforeSecond .fsx zeroMem (pulsesAt 4294967200 fsxZeroLead) 400 4294967200
      (pulsesAt 104 fsxZeroLead)) 400 104).1 = true ∧
    (nextPulse .fsx (beforeSecond .fsx zeroMem (pulsesAt 4294967200 fsxZeroLead) 400 4294967200
      (pulsesAt 104 fsxZeroLead)) 400 104).2.state = DONE ∧
    (nextPulse .fsx (beforeSecond .fsx zeroMem (pulsesAt 1000 fsxZeroLead) 400 1000
      (pulsesAt 1200 fsxZeroLead)) 400 1200).1 = false := by
  decide!

/-! ## C2: what `resetDecoder` leaves behind -/

/-- C2 (fails on the code): two energy-meter decoders that have both just been
reset, one straight after construction and one after decoding a packet of one
bits, are fed the same transmission of 63 zero bits.  Both runs give the same
`nextPulse` results and both end in `DONE` with 9 bytes, but the bytes differ:
`resetDecoder` does not clear `data[0]` and `gotBit` only ORs bits into it, so
the second decoder reports `0x7F` as first byte where the first reports 0. -/
theorem reset_leaves_first_byte :
    IsReset emxFreshReset ∧ IsReset emxUsedReset ∧
    results .emx emxFreshReset 100000 (emxPacket (List.replicate 63 0)) =
      results .emx emxUsedReset 100000 (emxPacket (List.replicate 63 0)) ∧
    lastResult .emx emxFreshReset 100000 (emxPacket (List.replicate 63 0)) =
      (true, feed .emx emxFreshReset 100000 (emxPacket (List.replicate 63 0))) ∧
    lastResult .emx emxUsedReset 100000 (emxPacket (List.replicate 63 0)) =
      (true, feed .emx emxUsedReset 100000 (emxPacket (List.replicate 63 0))) ∧
    getData (feed .emx emxFreshReset 100000 (emxPacket (List.replicate 63 0))) =
      (9, [0, 0, 0, 0, 0, 0, 0, 0, 0]) ∧
    getData (feed .emx emxUsedReset 100000 (emxPacket (List.replicate 63 0))) =
      (9, [127, 0, 0, 0, 0, 0, 0, 0, 0]) := by
  decide!

/-! ## C5: the 16-bit timestamp -/

/-- C5 (fails on the code): on a switch-actuator decoder built in zeroed
memory the packet of 45 zero bits completes at clock reading 1000 ms and again
at 6554600 ms, that is 65536 tenths of a second (over 109 minutes) later, far
more than `minGap = 5`.  `nextPulse` returns `true` for the first completion
and `false` for the second: `now - lastTime` is computed in a 16-bit `word`
and wraps to 0. -/
theorem gap_wraps_after_65536_tenths :
    defaultGap .fsx < 6554600 / 100 - 1000 / 100 ∧
    (decode .fsx (run .fsx (construct .fsx zeroMem) (pulsesAt 1000 fsxZeroLead)) 400).1 = 1 ∧
    (nextPulse .fsx (run .fsx (construct .fsx zeroMem) (pulsesAt 1000 fsxZeroLead)) 400 1000).1
      = true ∧
    (decode .fsx (beforeSecond .fsx zeroMem (pulsesAt 1000 fsxZeroLead) 400 1000
      (pulsesAt 6554600 fsxZeroLead)) 400).1 = 1 ∧
    getData (completed .fsx (beforeSecond .fsx zeroMem (pulsesAt 1000 fsxZeroLead) 400 1000
      (pulsesAt 6554600 fsxZeroLead)) 400) =
      getData (afterFirst .fsx zeroMem (pulsesAt 1000 fsxZeroLead) 400 1000) ∧
    (nextPulse .fsx (beforeSecond .fsx zeroMem (pulsesAt 1000 fsxZeroLead) 400 1000
      (pulsesAt 6554600 fsxZeroLead)) 400 6554600).1 = false := by
  decide!

/-! ## C6: the padding loop at the end of the buffer -/

/-- C6 (fails on the code): an energy-meter decoder built in zeroed memory
receives the preamble, 169 zero bits (24 full bytes and one bit) and the
closing gap.  `decode` returns 1 with `pos = 24`, `bits = 1`; the padding loop
runs `gotBit(0)` until the byte rolls, `pos` would become 25, and `gotBit`
resets the decoder; `nextPulse` goes on to `checkRepeats`, enters `DONE` and
returns `true`, and `getData` reports 0 bytes. -/
theorem emx_padding_overflow_exposes_empty_packet :
    (lastResult .emx (construct .emx zeroMem) 0 (emxPacket (List.replicate 169 0))).1 = true ∧
    (lastResult .emx (construct .emx zeroMem) 0 (emxPacket (List.replicate 169 0))).2.state
      = DONE ∧
    getData (lastResult .emx (construct .emx zeroMem) 0 (emxPacket (List.replicate 169 0))).2
      = (0, []) := by
  decide!

/-! ## C7: out-of-range pulses -/

theorem nextPulse_fail (k : Kind) (s : DecodeOOK) (w m : Nat) (hs : s.state ≠ DONE)
    (h : decode k s w = (-1, s)) : nextPulse k s w m = (false, resetDecoder s) := by
  unfold nextPulse
  rw [if_pos hs, h]
  rfl

theorem decode_out_of_range (k : Kind) (s : DecodeOOK) (w : Nat) (hw : outOfRange k w) :
    decode k s w = (-1, s) := by
  cases k
  · have h : w < 200 ∨ (1000 ≤ w ∧ w < 2500) := hw
    unfold decode visonicDecode
    exact (if_neg (by omega)).trans (if_neg (by omega))
  · have h : w < 200 ∨ (1000 ≤ w ∧ w < 1500) := hw
    unfold decode emxDecode
    exact (if_neg (by omega)).trans (if_neg (by omega))
  · have h : w < 200 ∨ (1000 ≤ w ∧ w < 1500) := hw
    unfold decode ksxDecode
    exact (if_neg (by omega)).trans (if_neg (by omega))
  · have h : w < 300 ∨ (775 ≤ w ∧ w < 1500) := hw
    unfold decode fsxDecode
    exact (if_neg (by omega)).trans (if_neg (by omega))

/-- C7: for each of the four decoders, in every state other than `DONE`, a
pulse width that is neither in the short/long range nor at or above the
terminating-gap threshold makes `decode` return -1 (leaving the object as it
was); `nextPulse` then returns `false` and leaves the decoder reset:
`state = UNKNOWN`, `pos = bits = flip = 0`. -/
theorem out_of_range_fails (k : Kind) (s : DecodeOOK) (w m : Nat) (hs : s.state ≠ DONE)
    (hw : outOfRange k w) :
    decode k s w = (-1, s) ∧ nextPulse k s w m = (false, resetDecoder s) ∧
    IsReset (nextPulse k s w m).2 := by
  have h1 := decode_out_of_range k s w hw
  have h2 := nextPulse_fail k s w m hs h1
  refine ⟨h1, h2, ?_⟩
  rw [h2]
  exact isReset_resetDecoder s

/-- Instance of C7: a 1200 us pulse in the middle of a Visonic packet. -/
theorem out_of_range_fails_witness :
    (visonicAfter 36).pos = 5 ∧
    decode .visonic (visonicAfter 36) 1200 = (-1, visonicAfter 36) ∧
    (nextPulse .visonic (visonicAfter 36) 1200 0).2.pos = 0 :=
  ⟨by decide!,
   (out_of_range_fails .visonic (visonicAfter 36) 1200 0 (by decide!)
      (Or.inr ⟨by decide, by decide⟩)).1,
   (out_of_range_fails .visonic (visonicAfter 36) 1200 0 (by decide!)
      (Or.inr ⟨by decide, by decide⟩)).2.2.2.1⟩

/-! ## C8: the parity check of the switch-actuator decoder -/

/-- C8 (fails on the code): a switch-actuator decoder built in zeroed memory
receives preamble and sync and then 45 bits: five groups of eight zero data
bits and a parity bit, where the parity bit of the first group is 1 although
the even parity of its data bits is 0.  The decoder does not abort:
`nextPulse` returns `true` on the last pulse and the decoder is in `DONE` with
five bytes, exactly as for the valid sequence.  (`FSxDecoder::gotBit` clears
`parity` when the eighth data bit completes the byte, then toggles it by the
parity bit itself before comparing the two, so the comparison always holds;
the parity bit also lands in bit 7 of the next byte.) -/
theorem fsx_wrong_parity_bit_accepted :
    (lastResult .fsx (construct .fsx zeroMem) 0 (fsxPacket fsxZeroBits)).1 = true ∧
    (lastResult .fsx (construct .fsx zeroMem) 0 (fsxPacket fsxBadParityBits)).1 = true ∧
    (lastResult .fsx (construct .fsx zeroMem) 0 (fsxPacket fsxBadParityBits)).2.state = DONE ∧
    results .fsx (construct .fsx zeroMem) 0 (fsxPacket fsxBadParityBits) =
      List.replicate 112 false ++ [true] ∧
    getData (lastResult .fsx (construct .fsx zeroMem) 0 (fsxPacket fsxBadParityBits)).2 =
      (5, [0, 128, 0, 0, 0]) := by
  decide!

/-! ## C9: the nibble check of the Visonic decoder -/

theorem nextPulse_not_complete (k : Kind) (s : DecodeOOK) (w m : Nat) (hs : s.state ≠ DONE)
    (h1 : (decode k s w).1 ≠ 1) :
    (nextPulse k s w m).1 = false ∧ (nextPulse k s w m).2.state ≠ DONE := by
  have hd : (decode k s w).2.state ≠ DONE := (decode_keeps k s w).2.2.2.2.2 hs
  unfold nextPulse
  rw [if_pos hs]
  refine ite_ind (P := fun (r : Bool × DecodeOOK) => r.1 = false ∧ r.2.state ≠ DONE)
    (fun _ => ⟨rfl, Nat.ne_of_lt lt8_0⟩) (fun _ => ?_)
  refine ite_ind (P := fun (r : Bool × DecodeOOK) => r.1 = false ∧ r.2.state ≠ DONE)
    (fun h => absurd h h1) (fun _ => ⟨decide_eq_false hd, hd⟩)

theorem visonicDecode_one (s : DecodeOOK) (w : Nat) (h : (visonicDecode s w).1 = 1) :
    xorFold (visonicDecode s w).2 &&& 0xF = xorFold (visonicDecode s w).2 >>> 4 := by
  have ne0 : ¬ (0 : Int) = 1 := by decide
  have ne1 : ¬ (-1 : Int) = 1 := by decide
  by_cases c1 : 200 ≤ w ∧ w < 1000
  · have e : (visonicDecode s w).1 = 0 := by
      unfold visonicDecode
      rw [if_pos c1]
      refine ite_ind (P := fun (r : Int × DecodeOOK) => r.1 = 0) (fun _ => rfl) (fun _ => ?_)
      refine ite_ind (P := fun (r : Int × DecodeOOK) => r.1 = 0) (fun _ => ?_) (fun _ => ?_)
      · exact ite_ind (P := fun (r : Int × DecodeOOK) => r.1 = 0) (fun _ => rfl) (fun _ => rfl)
      · refine ite_ind (P := fun (r : Int × DecodeOOK) => r.1 = 0) (fun _ => ?_) (fun _ => rfl)
        exact ite_ind (P := fun (r : Int × DecodeOOK) => r.1 = 0) (fun _ => rfl) (fun _ => rfl)
    rw [e] at h
    exact absurd h ne0
  · by_cases c2 : 2500 ≤ w ∧ 36 ≤ 8 * s.pos + s.bits ∧ s.state = OK
    · by_cases c3 : xorFold (alignTail (gotBit (gotBit (gotBit (gotBit s 0) 0) 0) 0) 5) &&& 0xF =
          xorFold (alignTail (gotBit (gotBit (gotBit (gotBit s 0) 0) 0) 0) 5) >>> 4
      · have e : visonicDecode s w =
            (1, alignTail (gotBit (gotBit (gotBit (gotBit s 0) 0) 0) 0) 5) := by
          unfold visonicDecode
          rw [if_neg c1, if_pos c2]
          exact if_pos c3
        rw [e]
        dsimp only
        exact c3
      · have e : visonicDecode s w =
            (0, alignTail (gotBit (gotBit (gotBit (gotBit s 0) 0) 0) 0) 5) := by
          unfold visonicDecode
          rw [if_neg c1, if_pos c2]
          exact if_neg c3
        rw [e] at h
        dsimp only at h
        exact absurd h ne0
    · have e : visonicDecode s w = (-1, s) := by
        unfold visonicDecode
        rw [if_neg c1, if_neg c2]
      rw [e] at h
      exact absurd h ne1

/-- C9: for every state and pulse width, if `VisonicDecoder::decode` returns
1 then in the state it leaves `b = data[0]^data[1]^data[2]^data[3]^data[4]`
satisfies `(b & 0x0F) == (b >> 4)`; so when that check fails on the state
`decode` leaves, `decode` did not return 1, and (for a decoder not in `DONE`)
`nextPulse` returns `false` and does not enter `DONE` on that pulse. -/
theorem visonic_checksum_gate (s : DecodeOOK) (w m : Nat) :
    ((decode .visonic s w).1 = 1 →
      xorFold (decode .visonic s w).2 &&& 0xF = xorFold (decode .visonic s w).2 >>> 4) ∧
    (¬ (xorFold (decode .visonic s w).2 &&& 0xF = xorFold (decode .visonic s w).2 >>> 4) →
      (decode .visonic s w).1 ≠ 1 ∧
      (s.state ≠ DONE →
        (nextPulse .visonic s w m).1 = false ∧ (nextPulse .visonic s w m).2.state ≠ DONE)) := by
  have h1 := visonicDecode_one s w
  refine ⟨h1, fun hn => ⟨fun h => hn (h1 h), fun hs => ?_⟩⟩
  exact nextPulse_not_complete .visonic s w m hs (fun h => hn (h1 h))

/-- Instance of C9: the closing gap after 38 short-long pairs passes the
check and completes; after 36 pairs it fails the check and does not. -/
theorem visonic_checksum_gate_witness :
    (decode .visonic (visonicAfter 38) 2500).1 = 1 ∧
    xorFold (decode .visonic (visonicAfter 38) 2500).2 &&& 0xF =
      xorFold (decode .visonic (visonicAfter 38) 2500).2 >>> 4 ∧
    (nextPulse .visonic (visonicAfter 36) 2500 0).1 = false :=
  ⟨by decide!,
   (visonic_checksum_gate (visonicAfter 38) 2500 0).1 (by decide!),
   ((visonic_checksum_gate (visonicAfter 36) 2500 0).2 (by decide!)).2 (by decide!) |>.1⟩


/-! ## C10: a weather-sensor packet of type 1 -/

theorem ksxCount_go (t : DecodeOOK)
    (h49 : ¬ ((t.bitCount + 1) % 256 = 49 ∧ t.msgType = 1))
    (h79 : ¬ ((t.bitCount + 1) % 256 = 79 ∧ t.msgType = 7)) :
    ksxCount t = (false, { t with bitCount := (t.bitCount + 1) % 256, state := OK }) := by
  unfold ksxCount
  exact (if_neg h49).trans (if_neg h79)

theorem ksxCount_done (t : DecodeOOK) (h49 : (t.bitCount + 1) % 256 = 49 ∧ t.msgType = 1) :
    ksxCount t = (true, { t with bitCount := (t.bitCount + 1) % 256 }) := by
  unfold ksxCount
  exact if_pos h49

theorem ksxGotBit_data_raw (s : DecodeOOK) (st p j c mt : Nat) (dd : List Nat) (o : Bool)
    (v : Nat) (hc : c % 5 ≠ 4) (hj : ¬ 8 ≤ (j + 1) % 256)
    (h49 : ¬ ((c + 1) % 256 = 49 ∧ mt = 1)) (h79 : ¬ ((c + 1) % 256 = 79 ∧ mt = 7)) :
    ksxGotBit (ksAt s st p j c mt dd o) v =
      (false, ksAt s OK p ((j + 1) % 256) ((c + 1) % 256) mt
        (dd.set p (((dd.getD p 0 >>> 1) ||| (v <<< 7)) % 256)) (o || decide (sizeofData ≤ p))) := by
  unfold ksxGotBit
  exact (if_pos hc).trans ((if_neg hj).trans (ksxCount_go _ h49 h79))

theorem ksxGotBit_roll_raw (s : DecodeOOK) (st p j c mt : Nat) (dd : List Nat) (o : Bool)
    (v : Nat) (hc : c % 5 ≠ 4) (hj : 8 ≤ (j + 1) % 256) (hp : (p + 1) % 256 < sizeofData) :
    ksxGotBit (ksAt s st p j c mt dd o) v =
      ksxCount (ksAt s st ((p + 1) % 256) 0 c
        (if p = 0 then (dd.set p (((dd.getD p 0 >>> 1) ||| (v <<< 7)) % 256)).getD p 0 &&& 0x0F else mt)
        ((dd.set p (((dd.getD p 0 >>> 1) ||| (v <<< 7)) % 256)).set (p + 1) (0 % 256))
        (o || decide (sizeofData ≤ p) || decide (sizeofData ≤ p + 1))) := by
  unfold ksxGotBit
  exact (if_pos hc).trans ((if_pos hj).trans (if_pos hp))

theorem ksxGotBit_marker_raw (s : DecodeOOK) (st p j c mt : Nat) (dd : List Nat) (o : Bool)
    (hc : c % 5 = 4) (h49 : ¬ ((c + 1) % 256 = 49 ∧ mt = 1))
    (h79 : ¬ ((c + 1) % 256 = 79 ∧ mt = 7)) :
    ksxGotBit (ksAt s st p j c mt dd o) 1 =
      (false, ksAt s OK p j ((c + 1) % 256) mt dd o) := by
  have h1 : ¬ (1 : Nat) = 0 := by decide
  unfold ksxGotBit
  exact (if_neg (not_not.mpr hc)).trans ((if_neg h1).trans (ksxCount_go _ h49 h79))

theorem getD_set_self (d : List Nat) (p x : Nat) (hp : p < d.length) :
    (d.set p x).getD p 0 = x := by
  simp [List.getD_eq_getElem?_getD, hp]

theorem shiftIn_mod (x : Nat) (v : Bool) :
    (((x >>> 1) ||| (b2n v <<< 7)) % 256) % 256 = shiftIn x v := by
  unfold shiftIn
  exact Nat.mod_mod _ _

theorem or_oob (o : Bool) (p : Nat) (hp : p < 25) : (o || decide (sizeofData ≤ p)) = o := by
  have : decide (sizeofData ≤ p) = false := decide_eq_false (by unfold sizeofData; omega)
  rw [this, Bool.or_false]

theorem ksxGotBit_data (s : DecodeOOK) (st p j c mt : Nat) (d : List Nat) (x : Nat) (o : Bool)
    (v : Bool) (hp : p < d.length) (hp25 : p < 25) (hc : c % 5 ≠ 4) (hj : j + 1 < 8)
    (hc49 : c + 1 < 49) :
    ksxGotBit (ksAt s st p j c mt (d.set p x) o) (b2n v) =
      (false, ksAt s OK p (j + 1) (c + 1) mt (d.set p (shiftIn x v)) o) := by
  have e1 : (j + 1) % 256 = j + 1 := Nat.mod_eq_of_lt (by omega)
  have e2 : (c + 1) % 256 = c + 1 := Nat.mod_eq_of_lt (by omega)
  rw [ksxGotBit_data_raw s st p j c mt (d.set p x) o (b2n v) hc (by omega) (by omega) (by omega),
    e1, e2, getD_set_self d p x hp, List.set_set, or_oob o p hp25]
  rfl

theorem ksxGotBit_roll (s : DecodeOOK) (st p c mt : Nat) (d : List Nat) (x : Nat) (o : Bool)
    (v : Bool) (hp : p < d.length) (hp25 : p + 1 < 25) (hc : c % 5 ≠ 4) (hc49 : c + 1 < 49) :
    ksxGotBit (ksAt s st p 7 c mt (d.set p x) o) (b2n v) =
      (false, ksAt s OK (p + 1) 0 (c + 1) (if p = 0 then shiftIn x v &&& 0x0F else mt)
        ((d.set p (shiftIn x v)).set (p + 1) 0) o) := by
  have e1 : (p + 1) % 256 = p + 1 := Nat.mod_eq_of_lt (by omega)
  have e2 : (c + 1) % 256 = c + 1 := Nat.mod_eq_of_lt (by omega)
  rw [ksxGotBit_roll_raw s st p 7 c mt (d.set p x) o (b2n v) hc (by decide)
      (by rw [e1]; unfold sizeofData; omega),
    e1, getD_set_self d p x hp, List.set_set,
    getD_set_self d p _ hp, or_oob o p (by omega), or_oob o (p + 1) (by omega)]
  rw [ksxCount_go _ (by show ¬ ((c + 1) % 256 = 49 ∧ _); omega)
    (by show ¬ ((c + 1) % 256 = 79 ∧ _); omega)]
  show (false, ksAt s OK (p + 1) 0 ((c + 1) % 256) _ _ o) = _
  rw [e2]
  rfl

theorem ksxGotBit_last (s : DecodeOOK) (st p mt : Nat) (d : List Nat) (x : Nat) (o : Bool)
    (v : Bool) (hp : p < d.length) (hp25 : p + 1 < 25) (hp0 : p ≠ 0) (hmt : mt = 1) :
    ksxGotBit (ksAt s st p 7 48 mt (d.set p x) o) (b2n v) =
      (true, ksAt s st (p + 1) 0 49 1 ((d.set p (shiftIn x v)).set (p + 1) 0) o) := by
  subst hmt
  have e1 : (p + 1) % 256 = p + 1 := Nat.mod_eq_of_lt (by omega)
  rw [ksxGotBit_roll_raw s st p 7 48 1 (d.set p x) o (b2n v) (by decide) (by decide)
      (by rw [e1]; unfold sizeofData; omega),
    e1, getD_set_self d p x hp, List.set_set,
    getD_set_self d p _ hp, or_oob o p (by omega), or_oob o (p + 1) (by omega), if_neg hp0]
  have h49 : (48 + 1) % 256 = 49 := by decide
  rw [ksxCount_done _ ⟨h49, rfl⟩]
  rfl

theorem ksxGotBit_marker (s : DecodeOOK) (st p j c mt : Nat) (dd : List Nat) (o : Bool)
    (hc : c % 5 = 4) (hc49 : c + 1 < 49) :
    ksxGotBit (ksAt s st p j c mt dd o) (b2n true) = (false, ksAt s OK p j (c + 1) mt dd o) := by
  have e2 : (c + 1) % 256 = c + 1 := Nat.mod_eq_of_lt (by omega)
  show ksxGotBit (ksAt s st p j c mt dd o) 1 = _
  rw [ksxGotBit_marker_raw s st p j c mt dd o hc (by omega) (by omega), e2]

theorem decodeAll_cons (k : Kind) (s : DecodeOOK) (w : Nat) (ws : List Nat) :
    decodeAll k s (w :: ws) =
      ((decode k s w).1 :: (decodeAll k (decode k s w).2 ws).1,
       (decodeAll k (decode k s w).2 ws).2) := rfl

theorem ksx_first_short (s : DecodeOOK) (p j c mt : Nat) (dd : List Nat) (o : Bool) :
    decode .ksx (ksAt s OK p j c mt dd o) 200 = (0, ksAt s T0 p j c mt dd o) := by
  have h0 : ¬ (6 : Nat) = 0 := by decide
  have h1 : ¬ (6 : Nat) = 1 := by decide
  have hr : 200 ≤ 200 ∧ 200 < 1000 := by decide
  unfold decode ksxDecode
  exact (if_pos hr).trans ((if_neg h0).trans ((if_neg h1).trans (if_pos rfl)))

theorem ksx_first_long (s : DecodeOOK) (p j c mt : Nat) (dd : List Nat) (o : Bool) :
    decode .ksx (ksAt s OK p j c mt dd o) 600 = (0, ksAt s T1 p j c mt dd o) := by
  have h0 : ¬ (6 : Nat) = 0 := by decide
  have h1 : ¬ (6 : Nat) = 1 := by decide
  have hr : 200 ≤ 600 ∧ 600 < 1000 := by decide
  unfold decode ksxDecode
  exact (if_pos hr).trans ((if_neg h0).trans ((if_neg h1).trans (if_pos rfl)))

theorem ksx_second_long (s : DecodeOOK) (p j c mt : Nat) (dd : List Nat) (o : Bool) :
    decode .ksx (ksAt s T0 p j c mt dd o) 600 =
      if (ksxGotBit (ksAt s T0 p j c mt dd o) 1).1 = true
      then (1, (ksxGotBit (ksAt s T0 p j c mt dd o) 1).2)
      else (0, (ksxGotBit (ksAt s T0 p j c mt dd o) 1).2) := by
  have h0 : ¬ (2 : Nat) = 0 := by decide
  have h1 : ¬ (2 : Nat) = 1 := by decide
  have h6 : ¬ (2 : Nat) = 6 := by decide
  have hr : 200 ≤ 600 ∧ 600 < 1000 := by decide
  unfold decode ksxDecode
  exact (if_pos hr).trans ((if_neg h0).trans ((if_neg h1).trans ((if_neg h6).trans (if_pos rfl))))

theorem ksx_second_short (s : DecodeOOK) (p j c mt : Nat) (dd : List Nat) (o : Bool) :
    decode .ksx (ksAt s T1 p j c mt dd o) 200 =
      if (ksxGotBit (ksAt s T1 p j c mt dd o) 0).1 = true
      then (1, (ksxGotBit (ksAt s T1 p j c mt dd o) 0).2)
      else (0, (ksxGotBit (ksAt s T1 p j c mt dd o) 0).2) := by
  have h0 : ¬ (3 : Nat) = 0 := by decide
  have h1 : ¬ (3 : Nat) = 1 := by decide
  have h6 : ¬ (3 : Nat) = 6 := by decide
  have h2 : ¬ (3 : Nat) = 2 := by decide
  have hr : 200 ≤ 200 ∧ 200 < 1000 := by decide
  unfold decode ksxDecode
  exact (if_pos hr).trans ((if_neg h0).trans ((if_neg h1).trans ((if_neg h6).trans
    ((if_neg h2).trans (if_pos rfl)))))

theorem ksx_pair_go (s : DecodeOOK) (p j c mt : Nat) (dd : List Nat) (o : Bool) (v : Bool)
    (u : DecodeOOK) (rest : List Nat) (rs : List Int) (fin : DecodeOOK)
    (hr : ksxGotBit (ksAt s (phase v) p j c mt dd o) (b2n v) = (false, u))
    (hrest : decodeAll .ksx u rest = (rs, fin)) :
    decodeAll .ksx (ksAt s OK p j c mt dd o) (bitPair v ++ rest) = (0 :: 0 :: rs, fin) := by
  cases v
  · have hr1 : ksxGotBit (ksAt s T1 p j c mt dd o) 0 = (false, u) := hr
    show decodeAll .ksx (ksAt s OK p j c mt dd o) (600 :: 200 :: rest) = _
    have h2 : decode .ksx (ksAt s T1 p j c mt dd o) 200 = (0, u) := by
      rw [ksx_second_short, hr1]
      rfl
    rw [decodeAll_cons, ksx_first_long]
    dsimp only
    rw [decodeAll_cons, h2]
    dsimp only
    rw [hrest]
  · have hr1 : ksxGotBit (ksAt s T0 p j c mt dd o) 1 = (false, u) := hr
    show decodeAll .ksx (ksAt s OK p j c mt dd o) (200 :: 600 :: rest) = _
    have h2 : decode .ksx (ksAt s T0 p j c mt dd o) 600 = (0, u) := by
      rw [ksx_second_long, hr1]
      rfl
    rw [decodeAll_cons, ksx_first_short]
    dsimp only
    rw [decodeAll_cons, h2]
    dsimp only
    rw [hrest]

theorem ksx_pair_done (s : DecodeOOK) (p j c mt : Nat) (dd : List Nat) (o : Bool) (v : Bool)
    (u : DecodeOOK)
    (hr : ksxGotBit (ksAt s (phase v) p j c mt dd o) (b2n v) = (true, u)) :
    decodeAll .ksx (ksAt s OK p j c mt dd o) (bitPair v ++ []) = ([0, 1], u) := by
  cases v
  · have hr1 : ksxGotBit (ksAt s T1 p j c mt dd o) 0 = (true, u) := hr
    show decodeAll .ksx (ksAt s OK p j c mt dd o) [600, 200] = _
    have h2 : decode .ksx (ksAt s T1 p j c mt dd o) 200 = (1, u) := by
      rw [ksx_second_short, hr1]
      rfl
    rw [decodeAll_cons, ksx_first_long]
    dsimp only
    rw [decodeAll_cons, h2]
    rfl
  · have hr1 : ksxGotBit (ksAt s T0 p j c mt dd o) 1 = (true, u) := hr
    show decodeAll .ksx (ksAt s OK p j c mt dd o) [200, 600] = _
    have h2 : decode .ksx (ksAt s T0 p j c mt dd o) 600 = (1, u) := by
      rw [ksx_second_long, hr1]
      rfl
    rw [decodeAll_cons, ksx_first_short]
    dsimp only
    rw [decodeAll_cons, h2]
    rfl

theorem ksx_group (s : DecodeOOK) (p c mt : Nat) (d : List Nat) (x : Nat) (o : Bool)
    (v0 v1 v2 v3 v4 v5 v6 v7 : Bool) (rest : List Nat) (rs : List Int) (fin : DecodeOOK)
    (hp : p + 1 < 25) (hd : p + 1 < d.length) (hc : c % 5 = 0) (hc49 : c + 10 < 49)
    (hrest : decodeAll .ksx
      (ksAt s OK (p + 1) 0 (c + 10)
        (if p = 0 then
          shiftIn (shiftIn (shiftIn (shiftIn (shiftIn (shiftIn (shiftIn (shiftIn x v0) v1) v2) v3)
            v4) v5) v6) v7 &&& 0x0F
         else mt)
        ((d.set p (shiftIn (shiftIn (shiftIn (shiftIn (shiftIn (shiftIn (shiftIn (shiftIn x v0) v1)
          v2) v3) v4) v5) v6) v7)).set (p + 1) 0) o) rest = (rs, fin)) :
    decodeAll .ksx (ksAt s OK p 0 c mt (d.set p x) o)
      (bitPair v0 ++ (bitPair v1 ++ (bitPair v2 ++ (bitPair v3 ++ (bitPair true ++
        (bitPair v4 ++ (bitPair v5 ++ (bitPair v6 ++ (bitPair v7 ++
          (bitPair true ++ rest)))))))))) = (List.replicate 20 0 ++ rs, fin) := by
  have hpd : p < d.length := by omega
  have hp25 : p < 25 := by omega
  refine ksx_pair_go _ _ _ _ _ _ _ _ _ _ _ _
    (ksxGotBit_data s _ p 0 c mt d x o v0 hpd hp25 (by omega) (by decide) (by omega)) ?_
  refine ksx_pair_go _ _ _ _ _ _ _ _ _ _ _ _
    (ksxGotBit_data s _ p _ _ mt d _ o v1 hpd hp25 (by omega) (by decide) (by omega)) ?_
  refine ksx_pair_go _ _ _ _ _ _ _ _ _ _ _ _
    (ksxGotBit_data s _ p _ _ mt d _ o v2 hpd hp25 (by omega) (by decide) (by omega)) ?_
  refine ksx_pair_go _ _ _ _ _ _ _ _ _ _ _ _
    (ksxGotBit_data s _ p _ _ mt d _ o v3 hpd hp25 (by omega) (by decide) (by omega)) ?_
  refine ksx_pair_go _ _ _ _ _ _ _ _ _ _ _ _
    (ksxGotBit_marker s _ p _ _ mt _ o (by omega) (by omega)) ?_
  refine ksx_pair_go _ _ _ _ _ _ _ _ _ _ _ _
    (ksxGotBit_data s _ p _ _ mt d _ o v4 hpd hp25 (by omega) (by decide) (by omega)) ?_
  refine ksx_pair_go _ _ _ _ _ _ _ _ _ _ _ _
    (ksxGotBit_data s _ p _ _ mt d _ o v5 hpd hp25 (by omega) (by decide) (by omega)) ?_
  refine ksx_pair_go _ _ _ _ _ _ _ _ _ _ _ _
    (ksxGotBit_data s _ p _ _ mt d _ o v6 hpd hp25 (by omega) (by decide) (by omega)) ?_
  refine ksx_pair_go _ _ _ _ _ _ _ _ _ _ _ _
    (ksxGotBit_roll s _ p _ mt d _ o v7 hpd hp (by omega) (by omega)) ?_
  refine ksx_pair_go _ _ _ _ _ _ _ _ _ _ _ _
    (ksxGotBit_marker s _ _ _ _ _ _ o (by omega) (by omega)) ?_
  exact hrest

theorem ksx_tail (s : DecodeOOK) (mt : Nat) (d : List Nat) (x : Nat) (o : Bool)
    (v0 v1 v2 v3 v4 v5 v6 v7 : Bool) (hd : 5 < d.length) (hmt : mt = 1) :
    decodeAll .ksx (ksAt s OK 4 0 40 mt (d.set 4 x) o)
      (bitPair v0 ++ (bitPair v1 ++ (bitPair v2 ++ (bitPair v3 ++ (bitPair true ++
        (bitPair v4 ++ (bitPair v5 ++ (bitPair v6 ++ (bitPair v7 ++ [])))))))))
      = (List.replicate 16 0 ++ [0, 1],
         ksAt s (phase v7) 5 0 49 1
           ((d.set 4 (shiftIn (shiftIn (shiftIn (shiftIn (shiftIn (shiftIn (shiftIn (shiftIn x v0)
              v1) v2) v3) v4) v5) v6) v7)).set 5 0) o) := by
  have hpd : 4 < d.length := by omega
  refine ksx_pair_go _ _ _ _ _ _ _ _ _ _ _ _
    (ksxGotBit_data s _ 4 0 40 mt d x o v0 hpd (by decide) (by decide) (by decide) (by decide)) ?_
  refine ksx_pair_go _ _ _ _ _ _ _ _ _ _ _ _
    (ksxGotBit_data s _ 4 _ _ mt d _ o v1 hpd (by decide) (by decide) (by decide) (by decide)) ?_
  refine ksx_pair_go _ _ _ _ _ _ _ _ _ _ _ _
    (ksxGotBit_data s _ 4 _ _ mt d _ o v2 hpd (by decide) (by decide) (by decide) (by decide)) ?_
  refine ksx_pair_go _ _ _ _ _ _ _ _ _ _ _ _
    (ksxGotBit_data s _ 4 _ _ mt d _ o v3 hpd (by decide) (by decide) (by decide) (by decide)) ?_
  refine ksx_pair_go _ _ _ _ _ _ _ _ _ _ _ _
    (ksxGotBit_marker s _ 4 _ _ mt _ o (by decide) (by decide)) ?_
  refine ksx_pair_go _ _ _ _ _ _ _ _ _ _ _ _
    (ksxGotBit_data s _ 4 _ _ mt d _ o v4 hpd (by decide) (by decide) (by decide) (by decide)) ?_
  refine ksx_pair_go _ _ _ _ _ _ _ _ _ _ _ _
    (ksxGotBit_data s _ 4 _ _ mt d _ o v5 hpd (by decide) (by decide) (by decide) (by decide)) ?_
  refine ksx_pair_go _ _ _ _ _ _ _ _ _ _ _ _
    (ksxGotBit_data s _ 4 _ _ mt d _ o v6 hpd (by decide) (by decide) (by decide) (by decide)) ?_
  exact ksx_pair_done _ _ _ _ _ _ _ _ _
    (ksxGotBit_last s _ 4 mt d _ o v7 hpd (by decide) (by decide) hmt)

theorem ksx_unknown (t : DecodeOOK) (w : Nat) (hr : 200 ≤ w ∧ w < 1000)
    (hs : t.state = UNKNOWN) :
    decode .ksx t w = (0, ksxPreamble t (decide (600 ≤ w))) := by
  unfold decode ksxDecode
  exact (if_pos hr).trans (if_pos hs)

theorem ksx_pre_first (s : DecodeOOK) :
    decode .ksx (resetDecoder s) 600 = (0, preAt s 1 0) := by
  rw [ksx_unknown _ 600 (by decide) rfl]
  rfl

theorem ksx_pre_short (s : DecodeOOK) (f : Nat) (hf : f ≠ 0) (hf2 : f + 1 < 256) :
    decode .ksx (preAt s f 0) 200 = (0, preAt s (f + 1) 1) := by
  have e : (f + 1) % 256 = f + 1 := Nat.mod_eq_of_lt hf2
  have h1 : ksxPreamble (preAt s f 0) (decide (600 ≤ 200)) = preAt s ((f + 1) % 256) 1 := by
    unfold ksxPreamble
    exact (if_neg hf).trans ((if_pos rfl).trans (if_pos rfl))
  rw [ksx_unknown _ 200 (by decide) rfl, h1, e]

theorem ksx_pre_long (s : DecodeOOK) (f : Nat) (hf : f ≠ 0) (hf2 : f + 1 < 256) :
    decode .ksx (preAt s f 1) 600 = (0, preAt s (f + 1) 0) := by
  have e : (f + 1) % 256 = f + 1 := Nat.mod_eq_of_lt hf2
  have n1 : ¬ (1 : Nat) = 0 := by decide
  have h1 : ksxPreamble (preAt s f 1) (decide (600 ≤ 600)) = preAt s ((f + 1) % 256) 0 := by
    unfold ksxPreamble
    exact (if_neg hf).trans ((if_neg n1).trans (if_pos rfl))
  rw [ksx_unknown _ 600 (by decide) rfl, h1, e]

theorem ksx_sync_short (s : DecodeOOK) (f : Nat) (hf : 14 ≤ f ∧ f ≤ 20) :
    decode .ksx (preAt s f 1) 200 = (0, { preAt s f 1 with state := SYNC }) := by
  have n1 : ¬ (1 : Nat) = 0 := by decide
  have n2 : ¬ (decide (600 ≤ 200) = true) := by decide
  have hf0 : f ≠ 0 := by omega
  have h1 : ksxPreamble (preAt s f 1) (decide (600 ≤ 200)) = { preAt s f 1 with state := SYNC } := by
    unfold ksxPreamble
    exact (if_neg hf0).trans ((if_neg n1).trans ((if_neg n2).trans (if_pos hf)))
  rw [ksx_unknown _ 200 (by decide) rfl, h1]

theorem ksx_sync_long (s : DecodeOOK) (f : Nat) :
    decode .ksx { preAt s f 1 with state := SYNC } 600 =
      (0, ksAt (preAt s f 1) OK 0 0 0 0 s.data s.oob) := by
  have h0 : ¬ (1 : Nat) = 0 := by decide
  have hr : 200 ≤ 600 ∧ 600 < 1000 := by decide
  unfold decode ksxDecode
  exact (if_pos hr).trans ((if_neg h0).trans ((if_pos rfl).trans (if_pos rfl)))

theorem ksx_pairs (s : DecodeOOK) (m : Nat) : ∀ (j : Nat) (rest : List Nat) (rs : List Int)
    (fin : DecodeOOK), 1 ≤ j → 2 * (j + m) < 256 →
    decodeAll .ksx (preAt s (2 * (j + m)) 1) rest = (rs, fin) →
    decodeAll .ksx (preAt s (2 * j) 1) ((List.replicate m [600, 200]).flatten ++ rest)
      = (List.replicate (2 * m) 0 ++ rs, fin) := by
  induction m with
  | zero =>
    intro j rest rs fin _ _ h
    exact h
  | succ m ih =>
    intro j rest rs fin hj hlt h
    have h2 : decodeAll .ksx (preAt s (2 * (j + 1)) 1)
        ((List.replicate m [600, 200]).flatten ++ rest) = (List.replicate (2 * m) 0 ++ rs, fin) :=
      ih (j + 1) rest rs fin (by omega) (by omega)
        (by rw [show j + 1 + m = j + (m + 1) by omega]; exact h)
    show decodeAll .ksx (preAt s (2 * j) 1)
      (600 :: 200 :: ((List.replicate m [600, 200]).flatten ++ rest)) = _
    rw [decodeAll_cons, ksx_pre_long s (2 * j) (by omega) (by omega)]
    dsimp only
    rw [decodeAll_cons, ksx_pre_short s (2 * j + 1) (by omega) (by omega)]
    dsimp only
    rw [show 2 * j + 1 + 1 = 2 * (j + 1) by omega, h2]
    rfl

theorem ksx_preamble (s : DecodeOOK) (n : Nat) (rest : List Nat) (rs : List Int)
    (fin : DecodeOOK) (hn : 7 ≤ n ∧ n ≤ 10)
    (hrest : decodeAll .ksx (ksAt (preAt s (2 * n) 1) OK 0 0 0 0 s.data s.oob) rest = (rs, fin)) :
    decodeAll .ksx (resetDecoder s)
      ((List.replicate n [600, 200]).flatten ++ ([200, 600] ++ rest))
      = (List.replicate (2 * n + 2) 0 ++ rs, fin) := by
  obtain ⟨m, rfl⟩ : ∃ m, n = m + 1 := ⟨n - 1, by omega⟩
  have h1 : decodeAll .ksx (preAt s (2 * (1 + m)) 1) ([200, 600] ++ rest) = (0 :: 0 :: rs, fin) := by
    show decodeAll .ksx (preAt s (2 * (1 + m)) 1) (200 :: 600 :: rest) = _
    rw [decodeAll_cons, ksx_sync_short s _ (by omega)]
    dsimp only
    rw [decodeAll_cons, ksx_sync_long]
    dsimp only
    rw [show 2 * (1 + m) = 2 * (m + 1) by omega, hrest]
  have h2 := ksx_pairs s m 1 _ _ _ (le_refl 1) (by omega) h1
  show decodeAll .ksx (resetDecoder s)
    (600 :: 200 :: ((List.replicate m [600, 200]).flatten ++ ([200, 600] ++ rest))) = _
  rw [decodeAll_cons, ksx_pre_first]
  dsimp only
  rw [decodeAll_cons, ksx_pre_short s 1 (by decide) (by decide)]
  dsimp only
  rw [show 1 + 1 = 2 * 1 by rfl, h2]
  have e : (0 : Int) :: 0 :: (List.replicate (2 * m) 0 ++ 0 :: 0 :: rs)
      = List.replicate (2 * (m + 1) + 2) 0 ++ rs := by
    rw [show 2 * (m + 1) + 2 = 2 + 2 * m + 2 by omega, List.replicate_add, List.replicate_add]
    simp [List.replicate_succ, List.append_assoc]
  rw [← e]

theorem shiftIn_eq : ∀ x < 256, ∀ v : Bool, shiftIn x v = x / 2 + 128 * b2n v := by decide!

theorem b2n_le (v : Bool) : b2n v ≤ 1 := by cases v <;> decide

theorem shift8 (x : Nat) (v0 v1 v2 v3 v4 v5 v6 v7 : Bool) (hx : x < 256) :
    shiftIn (shiftIn (shiftIn (shiftIn (shiftIn (shiftIn (shiftIn (shiftIn x v0) v1) v2) v3)
      v4) v5) v6) v7 =
    b2n v0 + 2 * b2n v1 + 4 * b2n v2 + 8 * b2n v3 + 16 * b2n v4 + 32 * b2n v5 + 64 * b2n v6 +
      128 * b2n v7 := by
  have lt : ∀ (y : Nat) (v : Bool), shiftIn y v < 256 := fun y v => Nat.mod_lt _ (by decide)
  have h0 := b2n_le v0
  have h1 := b2n_le v1
  have h2 := b2n_le v2
  have h3 := b2n_le v3
  have h4 := b2n_le v4
  have h5 := b2n_le v5
  have h6 := b2n_le v6
  have h7 := b2n_le v7
  rw [shiftIn_eq _ (lt _ _) v7, shiftIn_eq _ (lt _ _) v6, shiftIn_eq _ (lt _ _) v5,
    shiftIn_eq _ (lt _ _) v4, shiftIn_eq _ (lt _ _) v3, shiftIn_eq _ (lt _ _) v2,
    shiftIn_eq _ (lt _ _) v1, shiftIn_eq x hx v0]
  omega

theorem ksx_sameClass (s : DecodeOOK) (w c : Nat) (h : sameClass w c) :
    decode .ksx s w = decode .ksx s c := by
  have hd : decide (600 ≤ w) = decide (600 ≤ c) := decide_eq_decide.mpr h.2.2
  unfold decode ksxDecode
  rw [if_pos h.1, if_pos h.2.1]
  dsimp only
  rw [hd]

theorem decodeAll_sameClass (ws cs : List Nat) (h : List.Forall₂ sameClass ws cs) :
    ∀ s : DecodeOOK, decodeAll .ksx s ws = decodeAll .ksx s cs := by
  induction h with
  | nil => intro s; rfl
  | cons hwc _ ih =>
    intro s
    rw [decodeAll_cons, decodeAll_cons, ksx_sameClass s _ _ hwc, ih]

theorem resetDecoder_of_isReset (s : DecodeOOK) (h : IsReset s) : resetDecoder s = s := by
  obtain ⟨h1, h2, h3, h4⟩ := h
  cases s
  simp only [resetDecoder] at *
  subst h1 h2 h3 h4
  rfl

theorem bitPulses_49 (b : Nat → Bool) (hmark : ∀ j, j < 9 → b (5 * j + 4) = true) :
    bitPulses b 0 49 =
        (bitPair (b 0) ++ (bitPair (b 1) ++ (bitPair (b 2) ++ (bitPair (b 3) ++ (bitPair
        true ++ (bitPair (b 5) ++ (bitPair (b 6) ++ (bitPair (b 7) ++ (bitPair (b 8) ++
        (bitPair true ++ (bitPair (b 10) ++ (bitPair (b 11) ++ (bitPair (b 12) ++
        (bitPair (b 13) ++ (bitPair true ++ (bitPair (b 15) ++ (bitPair (b 16) ++
        (bitPair (b 17) ++ (bitPair (b 18) ++ (bitPair true ++ (bitPair (b 20) ++
        (bitPair (b 21) ++ (bitPair (b 22) ++ (bitPair (b 23) ++ (bitPair true ++
        (bitPair (b 25) ++ (bitPair (b 26) ++ (bitPair (b 27) ++ (bitPair (b 28) ++
        (bitPair true ++ (bitPair (b 30) ++ (bitPair (b 31) ++ (bitPair (b 32) ++
        (bitPair (b 33) ++ (bitPair true ++ (bitPair (b 35) ++ (bitPair (b 36) ++
        (bitPair (b 37) ++ (bitPair (b 38) ++ (bitPair true ++ (bitPair (b 40) ++
        (bitPair (b 41) ++ (bitPair (b 42) ++ (bitPair (b 43) ++ (bitPair true ++
        (bitPair (b 45) ++ (bitPair (b 46) ++ (bitPair (b 47) ++ (bitPair (b 48) ++
        []))))))))))))))))))))))))))))))))))))))))))))))))) := by
  have m0 := hmark 0 (by decide)
  have m1 := hmark 1 (by decide)
  have m2 := hmark 2 (by decide)
  have m3 := hmark 3 (by decide)
  have m4 := hmark 4 (by decide)
  have m5 := hmark 5 (by decide)
  have m6 := hmark 6 (by decide)
  have m7 := hmark 7 (by decide)
  have m8 := hmark 8 (by decide)
  simp only [Nat.reduceMul, Nat.reduceAdd] at m0 m1 m2 m3 m4 m5 m6 m7 m8
  simp only [bitPulses, Nat.reduceAdd, m0, m1, m2, m3, m4, m5, m6, m7, m8]

theorem ksx_frame_run (s : DecodeOOK) (n : Nat) (b : Nat → Bool)
    (hlen : s.data.length = 25) (hbyte : rd s 0 < 256) (hn : 7 ≤ n ∧ n ≤ 10)
    (hmark : ∀ j, j < 9 → b (5 * j + 4) = true)
    (hnib : b 0 = true ∧ b 1 = false ∧ b 2 = false ∧ b 3 = false) :
    decodeAll .ksx (resetDecoder s) (ksxFrame n b) =
      (List.replicate (2 * n + 2) 0 ++ (List.replicate 20 0 ++ (List.replicate 20 0 ++
        (List.replicate 20 0 ++ (List.replicate 20 0 ++ (List.replicate 16 0 ++ [0, 1]))))),
       ksAt (preAt s (2 * n) 1) (phase (b 48)) 5 0 49 1
        ((((((s.data.set 0 (ksxByte b 0)).set 1 (ksxByte b 1)).set 2 (ksxByte b 2)).set 3
          (ksxByte b 3)).set 4 (ksxByte b 4)).set 5 0) s.oob) := by
  have hd0 : s.data.set 0 (rd s 0) = s.data := by
    unfold rd
    apply List.ext_getElem?
    intro i
    by_cases hi : i = 0
    · subst hi
      simp [List.getD_eq_getElem?_getD, hlen]
    · simp [List.getElem?_set, Ne.symm hi]
  have e0 : ksxByte b 0 = shiftIn (shiftIn (shiftIn (shiftIn (shiftIn (shiftIn (shiftIn
      (shiftIn (rd s 0) (b 0)) (b 1)) (b 2)) (b 3)) (b 5)) (b 6)) (b 7)) (b 8) := by
    rw [shift8 _ _ _ _ _ _ _ _ _ hbyte]
    simp [ksxByte, dataBit]
  have z : (0 : Nat) < 256 := by decide
  have e1 : ksxByte b 1 = shiftIn (shiftIn (shiftIn (shiftIn (shiftIn (shiftIn (shiftIn
      (shiftIn 0 (b 10)) (b 11)) (b 12)) (b 13)) (b 15)) (b 16)) (b 17)) (b 18) := by
    rw [shift8 _ _ _ _ _ _ _ _ _ z]
    simp [ksxByte, dataBit]
  have e2 : ksxByte b 2 = shiftIn (shiftIn (shiftIn (shiftIn (shiftIn (shiftIn (shiftIn
      (shiftIn 0 (b 20)) (b 21)) (b 22)) (b 23)) (b 25)) (b 26)) (b 27)) (b 28) := by
    rw [shift8 _ _ _ _ _ _ _ _ _ z]
    simp [ksxByte, dataBit]
  have e3 : ksxByte b 3 = shiftIn (shiftIn (shiftIn (shiftIn (shiftIn (shiftIn (shiftIn
      (shiftIn 0 (b 30)) (b 31)) (b 32)) (b 33)) (b 35)) (b 36)) (b 37)) (b 38) := by
    rw [shift8 _ _ _ _ _ _ _ _ _ z]
    simp [ksxByte, dataBit]
  have e4 : ksxByte b 4 = shiftIn (shiftIn (shiftIn (shiftIn (shiftIn (shiftIn (shiftIn
      (shiftIn 0 (b 40)) (b 41)) (b 42)) (b 43)) (b 45)) (b 46)) (b 47)) (b 48) := by
    rw [shift8 _ _ _ _ _ _ _ _ _ z]
    simp [ksxByte, dataBit]
  have hmt : ksxByte b 0 &&& 0x0F = 1 := by
    have h5 := b2n_le (b 5)
    have h6 := b2n_le (b 6)
    have h7 := b2n_le (b 7)
    have h8 := b2n_le (b 8)
    have hm := Nat.and_pow_two_sub_one_eq_mod (ksxByte b 0) 4
    have hv : ksxByte b 0 % 16 = 1 := by
      simp only [ksxByte, dataBit, Nat.reduceMul, Nat.reduceAdd, Nat.reduceDiv, hnib.1, hnib.2.1,
        hnib.2.2.1, hnib.2.2.2, b2n]
      simp only [if_true, Bool.false_eq_true, if_false]
      omega
    exact hm.trans hv
  unfold ksxFrame
  refine ksx_preamble s n _ _ _ hn ?_
  have hst : ksAt (preAt s (2 * n) 1) OK 0 0 0 0 s.data s.oob =
      ksAt (preAt s (2 * n) 1) OK 0 0 0 0 (s.data.set 0 (rd s 0)) s.oob := by rw [hd0]
  have hmt1 : shiftIn (shiftIn (shiftIn (shiftIn (shiftIn (shiftIn (shiftIn
      (shiftIn (rd s 0) (b 0)) (b 1)) (b 2)) (b 3)) (b 5)) (b 6)) (b 7)) (b 8) &&& 0x0F = 1 := by
    rw [← e0]
    exact hmt
  rw [bitPulses_49 b hmark, hst, e0, e1, e2, e3, e4]
  refine ksx_group _ 0 0 _ _ _ _ _ _ _ _ _ _ _ _ _ _ _ (by decide) (by simp [hlen]) (by decide)
    (by decide) ?_
  refine ksx_group _ 1 10 _ _ _ _ _ _ _ _ _ _ _ _ _ _ _ (by decide) (by simp [hlen]) (by decide)
    (by decide) ?_
  refine ksx_group _ 2 20 _ _ _ _ _ _ _ _ _ _ _ _ _ _ _ (by decide) (by simp [hlen]) (by decide)
    (by decide) ?_
  refine ksx_group _ 3 30 _ _ _ _ _ _ _ _ _ _ _ _ _ _ _ (by decide) (by simp [hlen]) (by decide)
    (by decide) ?_
  exact ksx_tail _ _ _ _ _ _ _ _ _ _ _ _ _ (by simp [hlen]) hmt1

theorem forall₂_self {α : Type} (R : α → α → Prop) (l : List α) (h : ∀ x ∈ l, R x x) :
    List.Forall₂ R l l := by
  induction l with
  | nil => exact List.Forall₂.nil
  | cons a t ih =>
    exact List.Forall₂.cons (h a (by simp)) (ih (fun x hx => h x (by simp [hx])))

/-- C10: a weather-sensor decoder in the reset state (buffer of 25 bytes) is
fed `n` long-short pulse pairs with `7 <= n <= 10`, a short and a long sync
pulse, and 49 bits `b 0 .. b 48` (bit 1 = short then long, bit 0 = long then
short) in which every fifth bit is 1 and the first four bits are 1,0,0,0; each
width is anywhere in its class, short = 200..599 us, long = 600..999 us.  Then
`decode` returns 0 on every pulse before the last and 1 on the last one (the
second pulse of the 49th bit, no trailing gap), leaving `pos = 5`, `bits = 0`,
and for `k < 5` byte `k` of the buffer holds data bits `8k .. 8k+7`, the
earliest in bit 0. -/
theorem ksx_type1_packet (s : DecodeOOK) (n : Nat) (b : Nat → Bool) (ws : List Nat)
    (hs : IsReset s) (hlen : s.data.length = 25) (hbyte : rd s 0 < 256) (hn : 7 ≤ n ∧ n ≤ 10)
    (hmark : ∀ j, j < 9 → b (5 * j + 4) = true)
    (hnib : b 0 = true ∧ b 1 = false ∧ b 2 = false ∧ b 3 = false)
    (hw : List.Forall₂ sameClass ws (ksxFrame n b)) :
    (decodeAll .ksx s ws).1 = List.replicate (2 * n + 2 + 97) 0 ++ [1] ∧
    (decodeAll .ksx s ws).2.pos = 5 ∧ (decodeAll .ksx s ws).2.bits = 0 ∧
    ∀ k, k < 5 → rd (decodeAll .ksx s ws).2 k = ksxByte b k := by
  have key := ksx_frame_run s n b hlen hbyte hn hmark hnib
  rw [resetDecoder_of_isReset s hs, ← decodeAll_sameClass ws _ hw s] at key
  rw [key]
  refine ⟨?_, rfl, rfl, ?_⟩
  · have e : (List.replicate 20 (0 : Int) ++ (List.replicate 20 0 ++ (List.replicate 20 0 ++
        (List.replicate 20 0 ++ (List.replicate 16 0 ++ [0, 1]))))) = List.replicate 97 0 ++ [1] :=
      rfl
    dsimp only
    rw [e, show List.replicate (2 * n + 2 + 97) (0 : Int) =
      List.replicate (2 * n + 2) 0 ++ List.replicate 97 0 from List.replicate_add _ _ _,
      List.append_assoc]
  · intro k hk
    show ((((((s.data.set 0 (ksxByte b 0)).set 1 (ksxByte b 1)).set 2 (ksxByte b 2)).set 3
      (ksxByte b 3)).set 4 (ksxByte b 4)).set 5 0).getD k 0 = ksxByte b k
    interval_cases k <;> simp [List.getD_eq_getElem?_getD, List.getElem?_set, hlen]

/-- Instance of C10: seven preamble pairs and a sample bit pattern on a
decoder built in zeroed memory, every short pulse 200 us and every long pulse
600 us. -/
theorem ksx_type1_packet_witness :
    (∀ j, j < 9 → sampleBits 0x5A5A5A5A5A5A5 (5 * j + 4) = true) ∧
    (decodeAll .ksx (construct .ksx zeroMem) (ksxFrame 7 (sampleBits 0x5A5A5A5A5A5A5))).1 =
      List.replicate (2 * 7 + 2 + 97) 0 ++ [1] ∧
    (decodeAll .ksx (construct .ksx zeroMem) (ksxFrame 7 (sampleBits 0x5A5A5A5A5A5A5))).2.pos = 5 :=
  ⟨by decide!,
   (ksx_type1_packet (construct .ksx zeroMem) 7 (sampleBits 0x5A5A5A5A5A5A5) _ (by decide!)
      (by decide!) (by decide!) (by decide!) (by decide!) (by decide!)
      (forall₂_self sameClass _ (by decide!))).1,
   (ksx_type1_packet (construct .ksx zeroMem) 7 (sampleBits 0x5A5A5A5A5A5A5) _ (by decide!)
      (by decide!) (by decide!) (by decide!) (by decide!) (by decide!)
      (forall₂_self sameClass _ (by decide!))).2.1⟩


/-! ## C4: the 8-bit repeat counter -/

theorem ite_push {α β : Type} (F : α → β) {c : Prop} [Decidable c] {a b : α} {a1 b1 : β}
    (ha : a1 = F a) (hb : b1 = F b) : (if c then a1 else b1) = F (if c then a else b) := by
  by_cases h : c
  · rw [if_pos h, if_pos h]; exact ha
  · rw [if_neg h, if_neg h]; exact hb

theorem fsxCount_record (s s1 : DecodeOOK) (c t n : Nat) (h : s1 = withRecord s c t n) :
    fsxCount s1 = ((fsxCount s).1, withRecord (fsxCount s).2 c t n) := by
  subst h
  unfold fsxCount
  exact ite_push (fun (r : Bool × DecodeOOK) => (r.1, withRecord r.2 c t n)) rfl
    (ite_push (fun (r : Bool × DecodeOOK) => (r.1, withRecord r.2 c t n)) rfl rfl)

theorem fsxGotBit_record (s s1 : DecodeOOK) (v c t n : Nat) (h : s1 = withRecord s c t n) :
    fsxGotBit s1 v = ((fsxGotBit s v).1, withRecord (fsxGotBit s v).2 c t n) := by
  subst h
  unfold fsxGotBit
  exact ite_push (fun (r : Bool × DecodeOOK) => (r.1, withRecord r.2 c t n))
    (ite_push (fun (r : Bool × DecodeOOK) => (r.1, withRecord r.2 c t n))
      (ite_push (fun (r : Bool × DecodeOOK) => (r.1, withRecord r.2 c t n))
        (fsxCount_record _ _ c t n rfl) rfl)
      (fsxCount_record _ _ c t n rfl))
    (ite_push (fun (r : Bool × DecodeOOK) => (r.1, withRecord r.2 c t n))
      (fsxCount_record _ _ c t n rfl) rfl)

theorem fsxDecode_record (s : DecodeOOK) (w c t n : Nat) :
    fsxDecode (withRecord s c t n) w = ((fsxDecode s w).1, withRecord (fsxDecode s w).2 c t n) := by
  have hg := fun v => fsxGotBit_record s (withRecord s c t n) v c t n rfl
  unfold fsxDecode
  refine ite_push (fun (r : Int × DecodeOOK) => (r.1, withRecord r.2 c t n)) ?_
    (ite_push (fun (r : Int × DecodeOOK) => (r.1, withRecord r.2 c t n)) rfl rfl)
  refine ite_push (fun (r : Int × DecodeOOK) => (r.1, withRecord r.2 c t n))
    (ite_push (fun (r : Int × DecodeOOK) => (r.1, withRecord r.2 c t n)) rfl
      (ite_push (fun (r : Int × DecodeOOK) => (r.1, withRecord r.2 c t n)) rfl rfl)) ?_
  refine ite_push (fun (r : Int × DecodeOOK) => (r.1, withRecord r.2 c t n))
    (ite_push (fun (r : Int × DecodeOOK) => (r.1, withRecord r.2 c t n)) rfl rfl) ?_
  refine ite_push (fun (r : Int × DecodeOOK) => (r.1, withRecord r.2 c t n)) rfl ?_
  refine ite_push (fun (r : Int × DecodeOOK) => (r.1, withRecord r.2 c t n)) ?_ ?_
  · refine ite_push (fun (r : Int × DecodeOOK) => (r.1, withRecord r.2 c t n)) ?_ rfl
    dsimp only
    rw [hg 0]
    exact ite_push (fun (r : Int × DecodeOOK) => (r.1, withRecord r.2 c t n)) rfl rfl
  · refine ite_push (fun (r : Int × DecodeOOK) => (r.1, withRecord r.2 c t n)) ?_ rfl
    refine ite_push (fun (r : Int × DecodeOOK) => (r.1, withRecord r.2 c t n)) ?_ rfl
    dsimp only
    rw [hg 1]
    exact ite_push (fun (r : Int × DecodeOOK) => (r.1, withRecord r.2 c t n)) rfl rfl

theorem nextPulse_done (k : Kind) (s : DecodeOOK) (w m : Nat) (h : s.state = DONE) :
    nextPulse k s w m = (true, s) := by
  unfold nextPulse
  exact if_neg (not_not.mpr h)

theorem nextPulse_go (k : Kind) (s : DecodeOOK) (w m : Nat) (hs : s.state ≠ DONE)
    (h1 : (decode k s w).1 ≠ 1) :
    nextPulse k s w m =
      if (decode k s w).1 = -1 then (false, resetDecoder (decode k s w).2)
      else (decide ((decode k s w).2.state = DONE), (decode k s w).2) := by
  unfold nextPulse
  rw [if_pos hs]
  dsimp only
  by_cases h2 : (decode k s w).1 = -1
  · rw [if_pos h2, if_pos h2]
    rfl
  · rw [if_neg h2, if_neg h2, if_neg h1]

theorem nextPulse_record (s : DecodeOOK) (w m m1 c t n : Nat)
    (h : s.state = DONE ∨ (decode .fsx s w).1 ≠ 1) :
    nextPulse .fsx (withRecord s c t n) w m =
      ((nextPulse .fsx s w m1).1, withRecord (nextPulse .fsx s w m1).2 c t n) := by
  have hd : decode .fsx (withRecord s c t n) w =
      ((decode .fsx s w).1, withRecord (decode .fsx s w).2 c t n) := fsxDecode_record s w c t n
  by_cases hs : s.state = DONE
  · rw [nextPulse_done _ _ _ _ hs, nextPulse_done .fsx (withRecord s c t n) w m hs]
  · have h1 := h.resolve_left hs
    have h1r : (decode .fsx (withRecord s c t n) w).1 ≠ 1 := by rw [hd]; exact h1
    rw [nextPulse_go _ _ _ _ hs h1, nextPulse_go .fsx (withRecord s c t n) w m hs h1r, hd]
    dsimp only
    exact ite_push (fun (r : Bool × DecodeOOK) => (r.1, withRecord r.2 c t n)) rfl rfl

theorem run_record (ws : List Nat) : ∀ (s : DecodeOOK) (m m1 c t n : Nat),
    quiet .fsx s (pulsesAt m1 ws) = true →
    run .fsx (withRecord s c t n) (pulsesAt m ws) =
      withRecord (run .fsx s (pulsesAt m1 ws)) c t n := by
  induction ws with
  | nil => intro s m m1 c t n _; rfl
  | cons w ws ih =>
    intro s m m1 c t n hq
    have hq1 : (s.state = DONE ∨ (decode .fsx s w).1 ≠ 1) ∧
        quiet .fsx (nextPulse .fsx s w m1).2 (pulsesAt m1 ws) = true := by
      have := hq
      simp only [pulsesAt, List.map_cons, quiet, Bool.and_eq_true, Bool.or_eq_true,
        decide_eq_true_eq] at this
      exact this
    show run .fsx (nextPulse .fsx (withRecord s c t n) w m).2 (pulsesAt m ws) =
      withRecord (run .fsx (nextPulse .fsx s w m1).2 (pulsesAt m1 ws)) c t n
    rw [nextPulse_record s w m m1 c t n hq1.1]
    exact ih _ m m1 c t n hq1.2

theorem foldl_comm {α β : Type} (f : α → β → α) (g : α → α) (h : ∀ x i, f (g x) i = g (f x i))
    (l : List β) : ∀ a, l.foldl f (g a) = g (l.foldl f a) := by
  induction l with
  | nil => intro a; rfl
  | cons y ys ih =>
    intro a
    simp only [List.foldl_cons]
    rw [h, ih]

theorem checkRepeats_record (s : DecodeOOK) (c t n m : Nat) :
    checkRepeats (withRecord s c t n) m =
      (decide ((if packetCrc s ≠ c ∨ s.minGap < (tenths m + 65536 - t) % 65536 then 0 else n)
          ≠ s.minCount),
       withRecord ((List.range s.pos).foldl touch s) (packetCrc s) (tenths m)
        (((if packetCrc s ≠ c ∨ s.minGap < (tenths m + 65536 - t) % 65536 then 0 else n) + 1)
          % 256)) := by
  have ht : (List.range s.pos).foldl touch (withRecord s c t n) =
      withRecord ((List.range s.pos).foldl touch s) c t n :=
    foldl_comm touch (fun x => withRecord x c t n) (fun _ _ => rfl) _ s
  obtain ⟨hf, -, -⟩ := touchLoop_frame s
  obtain ⟨-, -, -, -, -, -, -, e8, e9, -⟩ := hf
  unfold checkRepeats
  show (_, _) = _
  dsimp only
  rw [show (withRecord s c t n).pos = s.pos from rfl, ht]
  by_cases hc : packetCrc s ≠ c ∨ s.minGap < (tenths m + 65536 - t) % 65536
  · have hc1 : packetCrc (withRecord s c t n) ≠
        (withRecord ((List.range s.pos).foldl touch s) c t n).lastCrc ∨
        (withRecord ((List.range s.pos).foldl touch s) c t n).minGap <
          (tenths m + 65536 - (withRecord ((List.range s.pos).foldl touch s) c t n).lastTime)
            % 65536 := by
      show packetCrc s ≠ c ∨ ((List.range s.pos).foldl touch s).minGap < _
      rw [e8]
      exact hc
    rw [if_pos hc, if_pos hc1]
    show (decide ((0 : Nat) ≠ ((List.range s.pos).foldl touch s).minCount), _) = _
    rw [e9]
    rfl
  · have hc1 : ¬ (packetCrc (withRecord s c t n) ≠
        (withRecord ((List.range s.pos).foldl touch s) c t n).lastCrc ∨
        (withRecord ((List.range s.pos).foldl touch s) c t n).minGap <
          (tenths m + 65536 - (withRecord ((List.range s.pos).foldl touch s) c t n).lastTime)
            % 65536) := by
      show ¬ (packetCrc s ≠ c ∨ ((List.range s.pos).foldl touch s).minGap < _)
      rw [e8]
      exact hc
    rw [if_neg hc, if_neg hc1]
    show (decide (n ≠ ((List.range s.pos).foldl touch s).minCount), _) = _
    rw [e9]
    rfl

theorem fsxDone_facts : fsxDone.bits = 0 ∧ fsxDone.minGap = 5 ∧ fsxDone.minCount = 0 ∧
    getData fsxDone = (5, [0, 0, 0, 0, 0]) ∧ ZeroReady (resetDecoder (construct .fsx zeroMem)) ∧
    ZeroReady fsxIdle := by
  decide!

theorem fsx_zero_step (x : DecodeOOK) (c t n m : Nat) (hx : ZeroReady x) :
    (nextPulse .fsx (run .fsx (withRecord x c t n) (pulsesAt m fsxZeroLead)) 400 m).1 =
      decide (repeatsIf c t n m = 0) ∧
    getData (completed .fsx (run .fsx (withRecord x c t n) (pulsesAt m fsxZeroLead)) 400) =
      (5, [0, 0, 0, 0, 0]) ∧
    resetDecoder (nextPulse .fsx (run .fsx (withRecord x c t n) (pulsesAt m fsxZeroLead)) 400 m).2
      = withRecord fsxIdle (packetCrc fsxDone) (tenths m) ((repeatsIf c t n m + 1) % 256) := by
  obtain ⟨hq, hs, hd⟩ := hx
  obtain ⟨hb, hg, hmc, hgd, -, -⟩ := fsxDone_facts
  rw [run_record fsxZeroLead x m 0 c t n hq]
  generalize run .fsx x (pulsesAt 0 fsxZeroLead) = q at hs hd
  have hs1 : (withRecord q c t n).state ≠ DONE := hs
  have hdr : decode .fsx (withRecord q c t n) 400 = (1, withRecord fsxDone c t n) := by
    have h0 := fsxDecode_record q 400 c t n
    have hd1 : fsxDecode q 400 = (1, fsxDone) := hd
    rw [hd1] at h0
    exact h0
  have hcomp : completed .fsx (withRecord q c t n) 400 = withRecord fsxDone c t n := by
    unfold completed
    rw [hdr]
    show padLoop 7 (withRecord fsxDone c t n) = _
    unfold padLoop
    exact if_neg (not_not.mpr hb)
  have hrt : (if packetCrc fsxDone ≠ c ∨ fsxDone.minGap < (tenths m + 65536 - t) % 65536
      then 0 else n) = repeatsIf c t n m := by
    unfold repeatsIf
    rw [hg]
  have hn := nextPulse_complete .fsx (withRecord q c t n) 400 m hs1 (by rw [hdr])
  rw [hcomp, checkRepeats_record, hrt, hmc] at hn
  rw [hcomp, hn]
  refine ⟨?_, hgd, ?_⟩
  · by_cases h0 : repeatsIf c t n m = 0
    · rw [h0]
      rfl
    · have e1 : decide (repeatsIf c t n m ≠ 0) = true := decide_eq_true h0
      have e2 : decide (repeatsIf c t n m = 0) = false := decide_eq_false h0
      rw [e1, e2]
      rfl
  · by_cases h0 : repeatsIf c t n m = 0
    · rw [h0]
      rfl
    · have e1 : decide (repeatsIf c t n m ≠ 0) = true := decide_eq_true h0
      rw [e1]
      rfl


theorem repeatsIf_run (i c t n : Nat) (hn : n = i % 256)
    (hi : i = 0 ∨ (c = packetCrc fsxDone ∧ t = tenths (1000 + 200 * (i - 1)))) :
    repeatsIf c t n (1000 + 200 * i) = i % 256 := by
  unfold repeatsIf
  rcases hi with h0 | ⟨hc, ht⟩
  · subst h0
    subst hn
    split_ifs <;> rfl
  · by_cases h0 : i = 0
    · subst h0
      subst hn
      split_ifs <;> rfl
    · rw [if_neg, hn]
      intro h
      rcases h with h | h
      · exact h hc.symm
      · rw [ht] at h
        unfold tenths at h
        omega

theorem burst_zero_run (len : Nat) : ∀ (s x : DecodeOOK) (i c t n : Nat),
    resetDecoder s = withRecord x c t n → ZeroReady x → n = i % 256 →
    (i = 0 ∨ (c = packetCrc fsxDone ∧ t = tenths (1000 + 200 * (i - 1)))) →
    burst .fsx fsxZeroLead 400 s (every200 1000 i len) =
      (List.range' i len).map (fun j => (decide (j % 256 = 0), 5, [0, 0, 0, 0, 0])) := by
  induction len with
  | zero => intro s x i c t n _ _ _ _; rfl
  | succ len ih =>
    intro s x i c t n hs hx hn hi
    obtain ⟨h1, h2, h3⟩ := fsx_zero_step x c t n (1000 + 200 * i) hx
    rw [repeatsIf_run i c t n hn hi] at h1 h3
    have hnext := ih (nextPulse .fsx (run .fsx (withRecord x c t n)
      (pulsesAt (1000 + 200 * i) fsxZeroLead)) 400 (1000 + 200 * i)).2 fsxIdle (i + 1)
      (packetCrc fsxDone) (tenths (1000 + 200 * i)) ((i % 256 + 1) % 256) h3
      fsxDone_facts.2.2.2.2.2 (by omega) (Or.inr ⟨rfl, rfl⟩)
    show (_, _) :: burst .fsx fsxZeroLead 400 _ (every200 1000 (i + 1) len) = _
    rw [hs, h1, h2, hnext]
    rfl

/-- C4 (fails on the code): a switch-actuator decoder built in zeroed memory
(default `minGap = 5`, `minCount = 0`) receives the same packet of 45 zero bits
257 times, completing at clock readings 1000, 1200, 1400, ... ms, each 2
tenths of a second after the previous one; the owner calls `resetDecoder`
before each frame.  Every frame hands the same 5 zero bytes to
`checkRepeats`.  `nextPulse` returns `true` for the 1st packet, `false` for
the 2nd to 256th, and `true` again for the 257th: the 8-bit `repeats` counter
has wrapped to 0, which `repeats++ != minCount` takes for a new packet. -/
theorem repeat_counter_wraps_after_256 :
    burst .fsx fsxZeroLead 400 (construct .fsx zeroMem) (every200 1000 0 257) =
      (true, 5, [0, 0, 0, 0, 0]) ::
        (List.replicate 255 (false, 5, [0, 0, 0, 0, 0]) ++ [(true, 5, [0, 0, 0, 0, 0])]) := by
  have h := burst_zero_run 257 (construct .fsx zeroMem) (resetDecoder (construct .fsx zeroMem))
    0 0 0 0 rfl fsxDone_facts.2.2.2.2.1 rfl (Or.inl rfl)
  rw [h]
  decide!

/-! ## C12: pulses while a packet is held -/

theorem run_done (k : Kind) (s : DecodeOOK) (h : s.state = DONE) :
    ∀ ops, onlyPulses ops = true → run k s ops = s := by
  intro ops
  induction ops with
  | nil => intro _; rfl
  | cons op ops ih =>
    cases op with
    | pulse w m =>
      intro ho
      have e : run k s (Op.pulse w m :: ops) = run k (nextPulse k s w m).2 ops := rfl
      rw [e, nextPulse_done k s w m h]
      exact ih ho
    | reset =>
      intro ho
      exact absurd (show false = true from ho) Bool.false_ne_true

/-- C12: for each decoder and every state with `state = DONE`, `nextPulse`
returns `true` for every pulse width and leaves the whole object as it was
(every member, the buffer included); `getData` reports `pos` as the count (it
is a `const` method, here a function of the state); any number of further
`nextPulse` calls leaves the object in that same `DONE` state, and
`resetDecoder` takes it to `UNKNOWN`. -/
theorem done_ignores_pulses (k : Kind) (s : DecodeOOK) (h : s.state = DONE) :
    (∀ w m, nextPulse k s w m = (true, s)) ∧
    (getData s).1 = s.pos ∧
    (∀ ops, onlyPulses ops = true → run k s ops = s ∧ (run k s ops).state = DONE) ∧
    (resetDecoder s).state = UNKNOWN :=
  ⟨fun w m => nextPulse_done k s w m h, rfl,
   fun ops ho => ⟨run_done k s h ops ho, by rw [run_done k s h ops ho]; exact h⟩, rfl⟩

/-- Instance of C12: a held five-byte packet of the switch-actuator decoder. -/
theorem done_ignores_pulses_witness :
    heldPacket.state = DONE ∧
    nextPulse .fsx heldPacket 400 0 = (true, heldPacket) ∧
    nextPulse .fsx heldPacket 2000 70000 = (true, heldPacket) ∧
    (getData heldPacket).1 = 5 :=
  ⟨rfl, (done_ignores_pulses .fsx heldPacket rfl).1 400 0,
   (done_ignores_pulses .fsx heldPacket rfl).1 2000 70000,
   (done_ignores_pulses .fsx heldPacket rfl).2.1⟩

/-! ## C13: the duplicate record across resets -/

/-- C13: for every state, `resetDecoder` sets `bits = pos = flip = 0` and
`state = UNKNOWN` and leaves `lastCrc`, `lastTime`, `repeats`, `minGap` and
`minCount` as they were; and a `nextPulse` call whose `decode` step returns -1
leaves those five members as they were (for each of the four decoders). -/
theorem reset_keeps_duplicate_record (k : Kind) (s : DecodeOOK) (w m : Nat)
    (h : (decode k s w).1 = -1) :
    (IsReset (resetDecoder s) ∧
      (resetDecoder s).lastCrc = s.lastCrc ∧ (resetDecoder s).lastTime = s.lastTime ∧
      (resetDecoder s).repeats = s.repeats ∧ (resetDecoder s).minGap = s.minGap ∧
      (resetDecoder s).minCount = s.minCount) ∧
    ((nextPulse k s w m).2.lastCrc = s.lastCrc ∧ (nextPulse k s w m).2.lastTime = s.lastTime ∧
      (nextPulse k s w m).2.repeats = s.repeats ∧ (nextPulse k s w m).2.minGap = s.minGap ∧
      (nextPulse k s w m).2.minCount = s.minCount) := by
  have h1 : (decode k s w).1 ≠ 1 := by rw [h]; decide
  obtain ⟨a, b, c, d, e, -⟩ := nextPulse_quiet k s w m (Or.inr h1)
  exact ⟨⟨isReset_resetDecoder s, rfl, rfl, rfl, rfl, rfl⟩, a, b, c, d, e⟩

/-- Instance of C13: a 1200 us pulse in the middle of a Visonic packet. -/
theorem reset_keeps_duplicate_record_witness :
    (decode .visonic (visonicAfter 36) 1200).1 = -1 ∧
    (nextPulse .visonic (visonicAfter 36) 1200 0).2.minGap = (visonicAfter 36).minGap :=
  ⟨by decide!,
   (reset_keeps_duplicate_record .visonic (visonicAfter 36) 1200 0 (by decide!)).2.2.2.2.1⟩

/-! ## C14: what the OR-write of `gotBit` stores -/

/-- C14 (fails on the code): an energy-meter decoder decodes a packet of one
bits, is reset, and receives preamble, sync and the first pulse of a bit, so
that it is in state `T0` with `pos = 0`, `bits = 0` and `data[0]` still `0x7F`.
The next short pulse makes `decode` call `gotBit(0)`: afterwards bit 0 of
`data[0]` is 1, not the value 0 that was appended, and the cursor has moved on
by one bit. -/
theorem gotBit_leaves_stale_bit_set :
    emxStale.state = T0 ∧ emxStale.pos = 0 ∧ emxStale.bits = 0 ∧ rd emxStale 0 = 0x7F ∧
    (decode .emx emxStale 400).2 = gotBit emxStale 0 ∧
    (gotBit emxStale 0).pos = 0 ∧ (gotBit emxStale 0).bits = 1 ∧
    rd (gotBit emxStale 0) 0 = 0x7F ∧ (rd (gotBit emxStale 0) 0).testBit 0 = true := by
  decide!

/-! ## C15: acceptance of a new packet -/

/-- C15 as stated fails: with `minCount = 1` a completed packet whose checksum
differs from `lastCrc` is treated as new (`repeats` becomes 0) and therefore not
accepted: `nextPulse` returns `false` and resets the decoder. -/
theorem new_packet_rejected_with_min_count :
    fsxMinCountOne.state ≠ DONE ∧ fsxMinCountOne.minCount = 1 ∧
    (decode .fsx fsxMinCountOne 400).1 = 1 ∧
    packetCrc (completed .fsx fsxMinCountOne 400) ≠ fsxMinCountOne.lastCrc ∧
    (nextPulse .fsx fsxMinCountOne 400 1000).1 = false ∧
    (nextPulse .fsx fsxMinCountOne 400 1000).2.state = UNKNOWN := by
  decide!

/-- C15 (amended): for each decoder, every `minGap` and `minCount` and every
duplicate record, when a packet completes whose checksum differs from
`lastCrc`, or whose timestamp exceeds `lastTime` by more than `minGap` tenths
in the 16-bit arithmetic of `checkRepeats`, the repeat count that is tested is
0, and the packet is accepted exactly when `minCount = 0`: then `nextPulse`
enters `DONE` and returns `true`; with `minCount ≠ 0` it returns `false` and
leaves the decoder reset. -/
theorem new_packet_accepted_when_min_count_zero (k : Kind) (s : DecodeOOK) (w m : Nat)
    (hs : s.state ≠ DONE) (h1 : (decode k s w).1 = 1)
    (hnew : packetCrc (completed k s w) ≠ s.lastCrc ∨
      s.minGap < (tenths m + 65536 - s.lastTime) % 65536) :
    repeatsTested (completed k s w) m = 0 ∧
    (s.minCount = 0 →
      (nextPulse k s w m).1 = true ∧ (nextPulse k s w m).2.state = DONE) ∧
    (s.minCount ≠ 0 →
      (nextPulse k s w m).1 = false ∧ IsReset (nextPulse k s w m).2) := by
  obtain ⟨k1, k2, -, k4, k5, -⟩ := completed_keeps k s w
  obtain ⟨c1, -⟩ := checkRepeats_spec (completed k s w) m
  have ht : repeatsTested (completed k s w) m = 0 := by
    unfold repeatsTested
    rw [k1, k2, k4]
    exact if_pos hnew
  have e := nextPulse_complete k s w m hs h1
  rw [ht, k5] at c1
  refine ⟨ht, fun h0 => ?_, fun h0 => ?_⟩
  · have c2 : (checkRepeats (completed k s w) m).1 = false := by
      rw [c1]
      exact decide_eq_false (not_not.mpr h0.symm)
    rw [e, if_pos c2]
    exact ⟨rfl, rfl⟩
  · have c2 : ¬ (checkRepeats (completed k s w) m).1 = false := by
      rw [c1]
      intro hc
      exact (of_decide_eq_false hc) (fun h => h0 h.symm)
    rw [e, if_neg c2]
    exact ⟨rfl, isReset_resetDecoder _⟩

/-- Instance of C15 (amended): the first zero packet of a switch-actuator
decoder built in zeroed memory. -/
theorem new_packet_accepted_when_min_count_zero_witness :
    (run .fsx (construct .fsx zeroMem) (pulsesAt 0 fsxZeroLead)).minCount = 0 ∧
    (nextPulse .fsx (run .fsx (construct .fsx zeroMem) (pulsesAt 0 fsxZeroLead)) 400 1000).1
      = true :=
  ⟨by decide!,
   ((new_packet_accepted_when_min_count_zero .fsx
      (run .fsx (construct .fsx zeroMem) (pulsesAt 0 fsxZeroLead)) 400 1000
      (by decide!) (by decide!) (Or.inl (by decide!))).2.1 (by decide!)).1⟩

/-! ## C16: a failed nibble check -/

/-- C16 (fails on the code): a Visonic decoder built in zeroed memory receives
36 short-long pairs and a gap of 2500 us.  The gap branch runs (`state = OK`,
`8 * pos + bits = 41`) and the nibble check fails (the XOR of the five bytes is
`0xF8`), but `decode` returns 0, not -1: `nextPulse` returns `false` and the
decoder is not reset: `state = OK`, `pos = 5`, and the five bytes stay.
Seven more long-short pairs and a gap then complete a packet made of those
bytes, which the same pulses do not do on a reset decoder. -/
theorem visonic_failed_check_keeps_packet :
    (visonicAfter 36).state = OK ∧
    8 * (visonicAfter 36).pos + (visonicAfter 36).bits = 41 ∧
    (decode .visonic (visonicAfter 36) 2500).1 = 0 ∧
    (nextPulse .visonic (visonicAfter 36) 2500 0).1 = false ∧
    xorFold visonicFailed = 0xF8 ∧
    visonicFailed.state = OK ∧ visonicFailed.pos = 5 ∧ visonicFailed.bits = 0 ∧
    getData visonicFailed = (5, [248, 7, 248, 7, 248]) ∧
    (lastResult .visonic visonicFailed 0 visonicShortTail).1 = true ∧
    getData (lastResult .visonic visonicFailed 0 visonicShortTail).2 =
      (5, [127, 128, 127, 80, 13]) ∧
    (lastResult .visonic (resetDecoder visonicFailed) 0 visonicShortTail).1 = false := by
  decide!

/-! ## C19: the bit count of the Visonic gap test -/

/-- C19 (fails on the code): a Visonic decoder built in zeroed memory receives
32 short-long pairs, each of which appends one bit (after `n` pairs the buffer
holds `7 * pos + bits = n` bits, seven to a byte).  With 32 bits collected
(`pos = 4`, `bits = 4`) the test `8 * pos + bits >= 36` holds, a gap of 2500 us
makes `decode` return 1, and `nextPulse` returns `true` with five bytes. -/
theorem visonic_completes_with_32_bits :
    (∀ n, n < 33 → 7 * (visonicAfter n).pos + (visonicAfter n).bits = n) ∧
    (visonicAfter 32).state = OK ∧ (visonicAfter 32).pos = 4 ∧ (visonicAfter 32).bits = 4 ∧
    8 * (visonicAfter 32).pos + (visonicAfter 32).bits = 36 ∧
    (decode .visonic (visonicAfter 32) 2500).1 = 1 ∧
    (nextPulse .visonic (visonicAfter 32) 2500 0).1 = true ∧
    getData (nextPulse .visonic (visonicAfter 32) 2500 0).2 = (5, [128, 127, 128, 127, 0]) := by
  decide!

/-! ## C20: the parity bits of the switch-actuator decoder -/

/-- C20 (fails on the code): a reset switch-actuator decoder with a zeroed
buffer receives 21 short pulses, two long sync pulses and five groups of
eight data bits, each followed by its even-parity bit; the first group is
`00000001` (parity bit 1), the others are zero.  `decode` returns 1 on the last
pulse with `pos = 5`, but the bytes are `01 80 00 00 00`: the parity bit of the
first group is stored in bit 7 of `data[1]`, whose eight data bits are all
zero. -/
theorem fsx_parity_bit_stored_in_next_byte :
    IsReset (construct .fsx zeroMem) ∧
    (results .fsx (construct .fsx zeroMem) 0 (fsxPacket fsxOddBits).dropLast).all
      (fun r => r = false) = true ∧
    (decode .fsx (feed .fsx (construct .fsx zeroMem) 0 (fsxPacket fsxOddBits).dropLast) 400).1
      = 1 ∧
    (decode .fsx (feed .fsx (construct .fsx zeroMem) 0 (fsxPacket fsxOddBits).dropLast) 400).2.pos
      = 5 ∧
    (lastResult .fsx (construct .fsx zeroMem) 0 (fsxPacket fsxOddBits)).1 = true ∧
    getData (lastResult .fsx (construct .fsx zeroMem) 0 (fsxPacket fsxOddBits)).2 =
      (5, [1, 128, 0, 0, 0]) := by
  decide!

/-! ## C18: the extended-message branch -/

theorem fsxCount_post (t : DecodeOOK) (he : t.extendedMsg = false) (hc : t.fsBitCount ≤ 44)
    (hb : t.bits ≤ 7)
    (hq : 8 * t.pos + t.bits + (t.fsBitCount + 1) / 9 = t.fsBitCount + 1) :
    FsxPost (fsxCount t) := by
  unfold fsxCount
  refine ite_ind (P := FsxPost) (fun h1 => ?_) (fun h1 => ?_)
  · have h2 : (t.fsBitCount + 1) % 256 = 45 := h1.1
    refine ⟨he, ?_, fun _ => ⟨h2, ?_, ?_⟩, fun h => Bool.noConfusion h⟩
    · show (t.fsBitCount + 1) % 256 ≤ 45
      omega
    · show t.pos = 5
      omega
    · show t.bits = 0
      omega
  · refine ite_ind (P := FsxPost) (fun h2 => ?_) (fun _ => ?_)
    · have h3 : t.extendedMsg = true := h2.2
      rw [he] at h3
      exact Bool.noConfusion h3
    · have h3 : ¬ (t.fsBitCount + 1) % 256 = 45 := fun h => h1 ⟨h, he⟩
      refine ⟨he, ?_, fun h => Bool.noConfusion h, fun _ => Or.inr (Or.inl ⟨Or.inl rfl, he, ?_, hb, ?_⟩)⟩
      · show (t.fsBitCount + 1) % 256 ≤ 45
        omega
      · show (t.fsBitCount + 1) % 256 ≤ 44
        omega
      · show 8 * t.pos + t.bits + (t.fsBitCount + 1) % 256 / 9 = (t.fsBitCount + 1) % 256
        have e : (t.fsBitCount + 1) % 256 = t.fsBitCount + 1 := by omega
        rw [e]
        exact hq

theorem fsxGotBit_post (s : DecodeOOK) (v : Nat) (h : FsxMid s) : FsxPost (fsxGotBit s v) := by
  obtain ⟨he, hc, hb, hq⟩ := h
  unfold fsxGotBit
  refine ite_ind (P := FsxPost) (fun h9 => ?_) (fun h9 => ?_)
  · have h9a : s.fsBitCount % 9 ≠ 8 := h9
    refine ite_ind (P := FsxPost) (fun h8 => ?_) (fun h8 => ?_)
    · have h8a : 8 ≤ (s.bits + 1) % 256 := h8
      refine ite_ind (P := FsxPost) (fun _ => ?_) (fun _ => ?_)
      · refine fsxCount_post _ ?_ hc (Nat.zero_le 7) ?_
        · exact ite_ind (P := fun (b : Bool) => b = false) (fun _ => rfl) (fun _ => he)
        · show 8 * ((s.pos + 1) % 256) + 0 + (s.fsBitCount + 1) / 9 = s.fsBitCount + 1
          omega
      · refine ⟨?_, ?_, fun h => Bool.noConfusion h, fun _ => Or.inl ⟨Or.inl rfl, rfl, rfl⟩⟩
        · exact ite_ind (P := fun (b : Bool) => b = false) (fun _ => rfl) (fun _ => he)
        · show s.fsBitCount ≤ 45
          omega
    · have h8a : ¬ 8 ≤ (s.bits + 1) % 256 := h8
      refine fsxCount_post _ he hc ?_ ?_
      · show (s.bits + 1) % 256 ≤ 7
        omega
      · show 8 * s.pos + (s.bits + 1) % 256 + (s.fsBitCount + 1) / 9 = s.fsBitCount + 1
        omega
  · have h9a : ¬ s.fsBitCount % 9 ≠ 8 := h9
    refine ite_ind (P := FsxPost) (fun _ => ?_) (fun _ => ?_)
    · refine fsxCount_post _ he hc hb ?_
      show 8 * s.pos + s.bits + (s.fsBitCount + 1) / 9 = s.fsBitCount + 1
      omega
    · refine ⟨he, ?_, fun h => Bool.noConfusion h, fun _ => Or.inl ⟨Or.inl rfl, rfl, rfl⟩⟩
      show s.fsBitCount ≤ 45
      omega

theorem int_0_ne_1 : ¬ (0 : Int) = 1 := by decide

theorem int_1_ne_0 : ¬ (1 : Int) = 0 := by decide

theorem int_m1_ne_0 : ¬ (-1 : Int) = 0 := by decide

theorem int_m1_ne_1 : ¬ (-1 : Int) = 1 := by decide

theorem fsxInv_scan (s : DecodeOOK) (h : FsxInv s) (hs : s.state = UNKNOWN ∨ s.state = SYNC) :
    s.pos = 0 ∧ s.bits = 0 := by
  have hs1 : s.state = 0 ∨ s.state = 1 := hs
  rcases h with ⟨-, h⟩ | ⟨h1, -⟩ | ⟨h1, -⟩
  · exact h
  · have h2 : s.state = 6 ∨ s.state = 2 ∨ s.state = 3 := h1
    omega
  · have h2 : s.state = 8 := h1
    omega

theorem fsxInv_mid (s : DecodeOOK) (h : FsxInv s) (hs : s.state = OK ∨ s.state = T0 ∨ s.state = T1) :
    FsxMid s := by
  have hs1 : s.state = 6 ∨ s.state = 2 ∨ s.state = 3 := hs
  rcases h with ⟨h1, -⟩ | ⟨-, h⟩ | ⟨h1, -⟩
  · have h2 : s.state = 0 ∨ s.state = 1 := h1
    omega
  · exact h
  · have h2 : s.state = 8 := h1
    omega

theorem fsxInv_held (s : DecodeOOK) (h : FsxInv s) (h0 : s.state ≠ UNKNOWN)
    (h1 : s.state ≠ SYNC) : s.fsBitCount ≤ 45 := by
  rcases h with ⟨h2, -⟩ | ⟨-, hm⟩ | ⟨-, h⟩
  · rcases h2 with h2 | h2
    · exact absurd h2 h0
    · exact absurd h2 h1
  · exact Nat.le_succ_of_le hm.2.1
  · exact h

theorem fsxPost_decode (s : DecodeOOK) (r : Bool × DecodeOOK) (h : FsxPost r) :
    FsxDec s (if r.1 = true then ((1 : Int), r.2) else ((0 : Int), r.2)) := by
  obtain ⟨-, h45, -, hf⟩ := h
  have nf : ¬ (false = true) := by decide
  cases hr : r.1
  · rw [if_neg nf]
    exact ⟨fun _ => hf hr, fun _ => h45, fun h1 => absurd h1 int_0_ne_1⟩
  · rw [if_pos rfl]
    exact ⟨fun hne => absurd rfl hne, fun _ => h45, fun _ => h45⟩

theorem fsxDecode_inv (s : DecodeOOK) (w : Nat) (h : FsxInv s) (hd : s.state ≠ DONE) :
    FsxDec s (fsxDecode s w) := by
  have keep : FsxDec s (-1, s) := ⟨fun _ => h, fun x => x, fun h1 => absurd h1 int_m1_ne_1⟩
  have keep0 : FsxDec s (0, s) := ⟨fun _ => h, fun x => x, fun h1 => absurd h1 int_0_ne_1⟩
  have hgap : 5 ≤ s.pos → s.fsBitCount ≤ 45 := by
    intro h5
    rcases h with ⟨-, hp, -⟩ | ⟨-, hm⟩ | ⟨h1, -⟩
    · omega
    · exact Nat.le_succ_of_le hm.2.1
    · exact absurd h1 hd
  unfold fsxDecode
  refine ite_ind (P := FsxDec s) (fun _ => ?_) (fun _ => ?_)
  · refine ite_ind (P := FsxDec s) (fun hu => ?_) (fun _ => ?_)
    · have hz := fsxInv_scan s h (Or.inl hu)
      refine ite_ind (P := FsxDec s)
        (fun _ => ⟨fun _ => Or.inl ⟨Or.inl hu, hz⟩, fun x => x,
          fun h1 => absurd h1 int_0_ne_1⟩) (fun _ => ?_)
      exact ite_ind (P := FsxDec s)
        (fun _ => ⟨fun _ => Or.inl ⟨Or.inr rfl, hz⟩, fun x => x,
          fun h1 => absurd h1 int_0_ne_1⟩) (fun _ => keep)
    · refine ite_ind (P := FsxDec s) (fun hy => ?_) (fun _ => ?_)
      · have hz := fsxInv_scan s h (Or.inr hy)
        refine ite_ind (P := FsxDec s)
          (fun _ => ⟨fun _ => Or.inr (Or.inl ⟨Or.inl rfl, rfl, Nat.zero_le 44, ?_, ?_⟩),
            fun _ => Nat.zero_le 45, fun h1 => absurd h1 int_0_ne_1⟩) (fun _ => keep)
        · show s.bits ≤ 7
          omega
        · show 8 * s.pos + s.bits + 0 / 9 = 0
          omega
      · refine ite_ind (P := FsxDec s) (fun ho => ?_) (fun _ => ?_)
        · have hm := fsxInv_mid s h (Or.inl ho)
          refine ⟨fun _ => Or.inr (Or.inl ⟨?_, hm⟩), fun x => x,
            fun h1 => absurd h1 int_0_ne_1⟩
          exact ite_ind (P := fun (n : Nat) => n = OK ∨ n = T0 ∨ n = T1)
            (fun _ => Or.inr (Or.inl rfl)) (fun _ => Or.inr (Or.inr rfl))
        · refine ite_ind (P := FsxDec s) (fun h0 => ?_) (fun _ => ?_)
          · have hm := fsxInv_mid s h (Or.inr (Or.inl h0))
            exact ite_ind (P := FsxDec s)
              (fun _ => fsxPost_decode s _ (fsxGotBit_post s 0 hm)) (fun _ => keep)
          · refine ite_ind (P := FsxDec s) (fun h1 => ?_) (fun _ => keep0)
            have hm := fsxInv_mid s h (Or.inr (Or.inr h1))
            exact ite_ind (P := FsxDec s)
              (fun _ => fsxPost_decode s _ (fsxGotBit_post s 1 hm)) (fun _ => keep)
  · exact ite_ind (P := FsxDec s)
      (fun hg => ⟨fun hne => absurd rfl hne, fun x => x, fun _ => hgap hg.2⟩) (fun _ => keep)

theorem gotBit_fsBitCount (s : DecodeOOK) (v : Nat) : (gotBit s v).fsBitCount = s.fsBitCount := by
  unfold gotBit
  refine ite_ind (P := fun (t : DecodeOOK) => t.fsBitCount = s.fsBitCount) (fun _ => ?_)
    (fun _ => rfl)
  exact ite_ind (P := fun (t : DecodeOOK) => t.fsBitCount = s.fsBitCount) (fun _ => rfl)
    (fun _ => rfl)

theorem padLoop_fsBitCount (n : Nat) (s : DecodeOOK) :
    (padLoop n s).fsBitCount = s.fsBitCount := by
  induction n generalizing s with
  | zero => rfl
  | succ n ih =>
    unfold padLoop
    exact ite_ind (P := fun (t : DecodeOOK) => t.fsBitCount = s.fsBitCount)
      (fun _ => (ih _).trans (gotBit_fsBitCount s 0)) (fun _ => rfl)

theorem checkRepeats_fsBitCount (s : DecodeOOK) (m : Nat) :
    (checkRepeats s m).2.fsBitCount = s.fsBitCount := by
  have e : ((List.range s.pos).foldl touch s).fsBitCount = s.fsBitCount :=
    (touchLoop_frame s).1.2.2.2.2.2.2.2.2.2.2.2.2.1
  unfold checkRepeats
  show (if _ then _ else _ : DecodeOOK).fsBitCount = s.fsBitCount
  exact ite_ind (P := fun (t : DecodeOOK) => t.fsBitCount = s.fsBitCount) (fun _ => e)
    (fun _ => e)

theorem nextPulse_fsxInv (s : DecodeOOK) (w m : Nat) (h : FsxInv s) :
    FsxInv (nextPulse .fsx s w m).2 ∧
    (s.fsBitCount ≤ 45 → (nextPulse .fsx s w m).2.fsBitCount ≤ 45) := by
  have hrst : ∀ t : DecodeOOK, FsxInv (resetDecoder t) := fun t => Or.inl ⟨Or.inl rfl, rfl, rfl⟩
  have hc : (checkRepeats (padLoop 7 (fsxDecode s w).2) m).2.fsBitCount
      = (fsxDecode s w).2.fsBitCount :=
    (checkRepeats_fsBitCount _ m).trans (padLoop_fsBitCount 7 _)
  unfold nextPulse
  refine ite_ind
    (P := fun (r : Bool × DecodeOOK) => FsxInv r.2 ∧ (s.fsBitCount ≤ 45 → r.2.fsBitCount ≤ 45))
    (fun hd => ?_) (fun _ => ⟨h, fun x => x⟩)
  obtain ⟨d1, d2, d3⟩ := fsxDecode_inv s w h hd
  refine ite_ind
    (P := fun (r : Bool × DecodeOOK) => FsxInv r.2 ∧ (s.fsBitCount ≤ 45 → r.2.fsBitCount ≤ 45))
    (fun _ => ⟨hrst _, d2⟩) (fun _ => ?_)
  refine ite_ind
    (P := fun (r : Bool × DecodeOOK) => FsxInv r.2 ∧ (s.fsBitCount ≤ 45 → r.2.fsBitCount ≤ 45))
    (fun h1 => ?_) (fun hne => ⟨d1 hne, d2⟩)
  have d4 : (checkRepeats (padLoop 7 (fsxDecode s w).2) m).2.fsBitCount ≤ 45 := by
    rw [hc]
    exact d3 h1
  show FsxInv (if _ then _ else _) ∧ (s.fsBitCount ≤ 45 → (if _ then _ else _ : DecodeOOK).fsBitCount ≤ 45)
  exact ite_ind
    (P := fun (t : DecodeOOK) => FsxInv t ∧ (s.fsBitCount ≤ 45 → t.fsBitCount ≤ 45))
    (fun _ => ⟨Or.inr (Or.inr ⟨rfl, d4⟩), fun _ => d4⟩)
    (fun _ => ⟨hrst _, fun _ => d4⟩)

theorem run_fsxInv (ops : List Op) : ∀ (s : DecodeOOK), FsxInv s →
    FsxInv (run .fsx s ops) ∧ (s.fsBitCount ≤ 45 → (run .fsx s ops).fsBitCount ≤ 45) := by
  induction ops with
  | nil => exact fun s h => ⟨h, fun x => x⟩
  | cons op ops ih =>
    intro s h
    cases op with
    | pulse w m =>
      obtain ⟨a, b⟩ := nextPulse_fsxInv s w m h
      obtain ⟨c, d⟩ := ih _ a
      exact ⟨c, fun x => d (b x)⟩
    | reset =>
      have a : FsxInv (resetDecoder s) := Or.inl ⟨Or.inl rfl, rfl, rfl⟩
      obtain ⟨c, d⟩ := ih _ a
      exact ⟨c, fun x => d x⟩

/-- C18: whatever calls (`nextPulse` with any width, `resetDecoder`) a newly
constructed switch-actuator decoder has received, whenever it is in state `T0`
or `T1`, the only states in which `decode` calls `FSxDecoder::gotBit`, the flag
`extendedMsg` is false and `bitCount` is at most 44; `gotBit`, called there with
any value, leaves `extendedMsg` false and `bitCount` at most 45, and it returns
true only with `bitCount = 45`, `pos = 5` and `bits = 0` (so never at 54).
`bitCount` is at most 45 in every state other than `UNKNOWN` and `SYNC`; in
those two states it is not read and holds what the previous packet or, before
the first sync, the memory the object was built in left there (the constructor
does not initialise it): at most 45 as well when that memory held at most
45. -/
theorem fsx_extended_branch_unreachable (mem : DecodeOOK) (ops : List Op) (v : Nat) :
    ((run .fsx (construct .fsx mem) ops).state = T0 ∨
        (run .fsx (construct .fsx mem) ops).state = T1 →
      (run .fsx (construct .fsx mem) ops).extendedMsg = false ∧
      (run .fsx (construct .fsx mem) ops).fsBitCount ≤ 44 ∧
      (fsxGotBit (run .fsx (construct .fsx mem) ops) v).2.extendedMsg = false ∧
      (fsxGotBit (run .fsx (construct .fsx mem) ops) v).2.fsBitCount ≤ 45 ∧
      ((fsxGotBit (run .fsx (construct .fsx mem) ops) v).1 = true →
        (fsxGotBit (run .fsx (construct .fsx mem) ops) v).2.fsBitCount = 45 ∧
        (fsxGotBit (run .fsx (construct .fsx mem) ops) v).2.pos = 5 ∧
        (fsxGotBit (run .fsx (construct .fsx mem) ops) v).2.bits = 0)) ∧
    ((run .fsx (construct .fsx mem) ops).state ≠ UNKNOWN →
      (run .fsx (construct .fsx mem) ops).state ≠ SYNC →
      (run .fsx (construct .fsx mem) ops).fsBitCount ≤ 45) ∧
    (mem.fsBitCount ≤ 45 → (run .fsx (construct .fsx mem) ops).fsBitCount ≤ 45) := by
  have h0 : FsxInv (construct .fsx mem) := Or.inl ⟨Or.inl rfl, rfl, rfl⟩
  obtain ⟨hi, hb⟩ := run_fsxInv ops _ h0
  refine ⟨fun hs => ?_, fsxInv_held _ hi, hb⟩
  have hm := fsxInv_mid _ hi (Or.inr hs)
  obtain ⟨p1, p2, p3, -⟩ := fsxGotBit_post _ v hm
  exact ⟨hm.1, hm.2.1, p1, p2, p3⟩

/-- Instance of C18: the last bit of the zero packet is stored in state `T0`
with `bitCount = 44`, and `gotBit` returns true with `bitCount = 45`. -/
theorem fsx_extended_branch_unreachable_witness :
    (run .fsx (construct .fsx zeroMem) (pulsesAt 0 fsxZeroLead)).state = T0 ∧
    (run .fsx (construct .fsx zeroMem) (pulsesAt 0 fsxZeroLead)).fsBitCount = 44 ∧
    (fsxGotBit (run .fsx (construct .fsx zeroMem) (pulsesAt 0 fsxZeroLead)) 0).1 = true ∧
    (fsxGotBit (run .fsx (construct .fsx zeroMem) (pulsesAt 0 fsxZeroLead)) 0).2.fsBitCount
      = 45 :=
  ⟨by decide!, by decide!, by decide!,
   ((fsx_extended_branch_unreachable zeroMem (pulsesAt 0 fsxZeroLead) 0).1
      (Or.inl (by decide!))).2.2.2.2 (by decide!) |>.1⟩

/-! ## C11: an energy-meter packet -/

/-- C11 as stated fails: with one pulse per bit the energy-meter decoder does
not complete.  For nine zero bytes, nine bytes `0xFF` and nine bytes `0x55`
(72 bits each, and likewise for 63 zero bits), sent after 21 short pulses and
one more short pulse and closed by a gap of 1500 us, `nextPulse` returns
`false` on the last pulse and no byte is reported. -/
theorem emx_single_pulse_bits_not_decoded :
    (lastResult .emx (construct .emx zeroMem) 0 (emxSingle (List.replicate 72 0))).1 = false ∧
    (lastResult .emx (construct .emx zeroMem) 0 (emxSingle (List.replicate 72 1))).1 = false ∧
    (lastResult .emx (construct .emx zeroMem) 0 (emxSingle alternating72)).1 = false ∧
    (lastResult .emx (construct .emx zeroMem) 0 (emxSingle (List.replicate 63 0))).1 = false ∧
    (getData (lastResult .emx (construct .emx zeroMem) 0 (emxSingle alternating72)).2).1 = 0 := by
  decide!

theorem gotBit_go_raw (s : DecodeOOK) (st p j : Nat) (d : List Nat) (o : Bool) (v : Nat)
    (hj : ¬ 7 ≤ (j + 1) % 256) :
    gotBit (emAt s st p j d o) v =
      emAt s OK p ((j + 1) % 256) (d.set p ((d.getD p 0 ||| (v <<< j)) % 256))
        (o || decide (sizeofData ≤ p)) := by
  unfold gotBit
  exact if_neg hj

theorem gotBit_roll_raw (s : DecodeOOK) (st p j : Nat) (d : List Nat) (o : Bool) (v : Nat)
    (hj : 7 ≤ (j + 1) % 256) (hp : (p + 1) % 256 < sizeofData) :
    gotBit (emAt s st p j d o) v =
      emAt s OK ((p + 1) % 256) 0
        ((d.set p ((d.getD p 0 ||| (v <<< j)) % 256)).set (p + 1) (0 % 256))
        (o || decide (sizeofData ≤ p) || decide (sizeofData ≤ p + 1)) := by
  unfold gotBit
  exact (if_pos hj).trans (if_pos hp)

theorem gotBit_go (s : DecodeOOK) (st p j : Nat) (d : List Nat) (x : Nat) (o : Bool) (v : Bool)
    (hp : p < d.length) (hp25 : p < 25) (hj : j + 1 < 7) :
    gotBit (emAt s st p j (d.set p x) o) (b2n v) =
      emAt s OK p (j + 1) (d.set p (orIn x j v)) o := by
  have e1 : (j + 1) % 256 = j + 1 := Nat.mod_eq_of_lt (by omega)
  rw [gotBit_go_raw s st p j (d.set p x) o (b2n v) (by omega), e1, getD_set_self d p x hp,
    List.set_set, or_oob o p hp25]
  rfl

theorem gotBit_roll (s : DecodeOOK) (st p : Nat) (d : List Nat) (x : Nat) (o : Bool) (v : Bool)
    (hp : p < d.length) (hp25 : p + 1 < 25) :
    gotBit (emAt s st p 6 (d.set p x) o) (b2n v) =
      emAt s OK (p + 1) 0 ((d.set p (orIn x 6 v)).set (p + 1) 0) o := by
  have e1 : (p + 1) % 256 = p + 1 := Nat.mod_eq_of_lt (by omega)
  rw [gotBit_roll_raw s st p 6 (d.set p x) o (b2n v) (by decide)
      (by rw [e1]; unfold sizeofData; omega),
    e1, getD_set_self d p x hp, List.set_set, or_oob o p (by omega), or_oob o (p + 1) (by omega)]
  rfl

theorem orIn7 : ∀ v0 v1 v2 v3 v4 v5 v6 : Bool,
    orIn (orIn (orIn (orIn (orIn (orIn (orIn 0 0 v0) 1 v1) 2 v2) 3 v3) 4 v4) 5 v5) 6 v6 =
    b2n v0 + 2 * b2n v1 + 4 * b2n v2 + 8 * b2n v3 + 16 * b2n v4 + 32 * b2n v5 + 64 * b2n v6 := by
  decide!

theorem emx_first (s : DecodeOOK) (p j : Nat) (d : List Nat) (o : Bool) :
    decode .emx (emAt s OK p j d o) 400 = (0, emAt s T0 p j d o) := by
  have h0 : ¬ (6 : Nat) = 0 := by decide
  have hr : 200 ≤ 400 ∧ 400 < 1000 := by decide
  unfold decode emxDecode
  exact (if_pos hr).trans ((if_neg h0).trans ((if_pos rfl).trans (if_pos rfl)))

theorem emx_second (s : DecodeOOK) (p j : Nat) (d : List Nat) (o : Bool) (v : Bool) :
    decode .emx (emAt s T0 p j d o) (if v then 700 else 400) =
      (0, gotBit (emAt s T0 p j d o) (b2n v)) := by
  have h0 : ¬ (2 : Nat) = 0 := by decide
  have h6 : ¬ (2 : Nat) = 6 := by decide
  cases v
  · have hr : 200 ≤ 400 ∧ 400 < 1000 := by decide
    show decode .emx (emAt s T0 p j d o) 400 = _
    unfold decode emxDecode
    exact (if_pos hr).trans ((if_neg h0).trans ((if_neg h6).trans (if_pos rfl)))
  · have hr : 200 ≤ 700 ∧ 700 < 1000 := by decide
    show decode .emx (emAt s T0 p j d o) 700 = _
    unfold decode emxDecode
    exact (if_pos hr).trans ((if_neg h0).trans ((if_neg h6).trans (if_pos rfl)))

theorem emx_pair (s : DecodeOOK) (p j : Nat) (d : List Nat) (o : Bool) (v : Bool)
    (u : DecodeOOK) (rest : List Nat) (rs : List Int) (fin : DecodeOOK)
    (hu : gotBit (emAt s T0 p j d o) (b2n v) = u)
    (hrest : decodeAll .emx u rest = (rs, fin)) :
    decodeAll .emx (emAt s OK p j d o) (emxPair v ++ rest) = (0 :: 0 :: rs, fin) := by
  show decodeAll .emx (emAt s OK p j d o) (400 :: (if v then 700 else 400) :: rest) = _
  rw [decodeAll_cons, emx_first]
  dsimp only
  rw [decodeAll_cons, emx_second, hu]
  dsimp only
  rw [hrest]

theorem emx_group (s : DecodeOOK) (p : Nat) (d : List Nat) (o : Bool)
    (v0 v1 v2 v3 v4 v5 v6 : Bool) (rest : List Nat) (rs : List Int) (fin : DecodeOOK)
    (hp : p + 1 < 25) (hd : p + 1 < d.length)
    (hrest : decodeAll .emx
      (emAt s OK (p + 1) 0
        ((d.set p (b2n v0 + 2 * b2n v1 + 4 * b2n v2 + 8 * b2n v3 + 16 * b2n v4 + 32 * b2n v5 +
          64 * b2n v6)).set (p + 1) 0) o) rest = (rs, fin)) :
    decodeAll .emx (emAt s OK p 0 (d.set p 0) o)
      (emxPair v0 ++ (emxPair v1 ++ (emxPair v2 ++ (emxPair v3 ++ (emxPair v4 ++
        (emxPair v5 ++ (emxPair v6 ++ rest))))))) = (List.replicate 14 0 ++ rs, fin) := by
  have hpd : p < d.length := by omega
  have hp25 : p < 25 := by omega
  rw [← orIn7 v0 v1 v2 v3 v4 v5 v6] at hrest
  refine emx_pair _ _ _ _ _ _ _ _ _ _ (gotBit_go s _ p 0 d 0 o v0 hpd hp25 (by decide)) ?_
  refine emx_pair _ _ _ _ _ _ _ _ _ _ (gotBit_go s _ p 1 d _ o v1 hpd hp25 (by decide)) ?_
  refine emx_pair _ _ _ _ _ _ _ _ _ _ (gotBit_go s _ p 2 d _ o v2 hpd hp25 (by decide)) ?_
  refine emx_pair _ _ _ _ _ _ _ _ _ _ (gotBit_go s _ p 3 d _ o v3 hpd hp25 (by decide)) ?_
  refine emx_pair _ _ _ _ _ _ _ _ _ _ (gotBit_go s _ p 4 d _ o v4 hpd hp25 (by decide)) ?_
  refine emx_pair _ _ _ _ _ _ _ _ _ _ (gotBit_go s _ p 5 d _ o v5 hpd hp25 (by decide)) ?_
  refine emx_pair _ _ _ _ _ _ _ _ _ _ (gotBit_roll s _ p d _ o v6 hpd hp) ?_
  exact hrest

theorem emx_gap (s : DecodeOOK) (st p j : Nat) (d : List Nat) (o : Bool) (hp : 9 ≤ p) :
    decodeAll .emx (emAt s st p j d o) [1500] = ([1], emAt s st p j d o) := by
  have hr : ¬ (200 ≤ 1500 ∧ 1500 < 1000) := by decide
  have hg : 1500 ≤ 1500 ∧ 9 ≤ p := ⟨le_refl _, hp⟩
  have e : decode .emx (emAt s st p j d o) 1500 = (1, emAt s st p j d o) := by
    unfold decode emxDecode
    exact (if_neg hr).trans (if_pos hg)
  rw [decodeAll_cons, e]
  rfl

theorem emx_shorts (s : DecodeOOK) (hs : s.state = UNKNOWN) (n : Nat) : ∀ (f : Nat)
    (rest : List Nat) (rs : List Int) (fin : DecodeOOK),
    decodeAll .emx { s with flip := (f + n) % 256 } rest = (rs, fin) →
    decodeAll .emx { s with flip := f % 256 } (List.replicate n 400 ++ rest)
      = (List.replicate n 0 ++ rs, fin) := by
  induction n with
  | zero =>
    intro f rest rs fin h
    exact h
  | succ n ih =>
    intro f rest rs fin h
    have hr : 200 ≤ 400 ∧ 400 < 1000 := by decide
    have e : decode .emx { s with flip := f % 256 } 400
        = (0, { s with flip := (f % 256 + 1) % 256 }) := by
      unfold decode emxDecode
      exact (if_pos hr).trans ((if_pos hs).trans (if_pos rfl))
    have e2 : (f % 256 + 1) % 256 = (f + 1) % 256 := by omega
    show decodeAll .emx { s with flip := f % 256 } (400 :: (List.replicate n 400 ++ rest)) = _
    rw [decodeAll_cons, e, e2]
    dsimp only
    rw [ih (f + 1) rest rs fin (by rw [show f + 1 + n = f + (n + 1) by omega]; exact h)]
    rfl

theorem emx_sync (s : DecodeOOK) (f : Nat) (hf : 20 < f) :
    decode .emx { resetDecoder s with flip := f } 700 =
      (0, emAt { resetDecoder s with flip := f } OK 0 0 s.data s.oob) := by
  have hr : 200 ≤ 700 ∧ 700 < 1000 := by decide
  have hw : ¬ (decide (600 ≤ 700) = false) := by decide
  unfold decode emxDecode
  exact (if_pos hr).trans ((if_pos rfl).trans ((if_neg hw).trans (if_pos hf)))

theorem emxBits_63 (b : Nat → Bool) (rest : List Nat) :
    emxBits b rest 0 63 =
      (emxPair (b 0) ++ (emxPair (b 1) ++ (emxPair (b 2) ++ (emxPair (b 3) ++ (emxPair (b 4) ++
      (emxPair (b 5) ++ (emxPair (b 6) ++ (emxPair (b 7) ++ (emxPair (b 8) ++ (emxPair (b 9) ++
      (emxPair (b 10) ++ (emxPair (b 11) ++ (emxPair (b 12) ++ (emxPair (b 13) ++
      (emxPair (b 14) ++ (emxPair (b 15) ++ (emxPair (b 16) ++ (emxPair (b 17) ++
      (emxPair (b 18) ++ (emxPair (b 19) ++ (emxPair (b 20) ++ (emxPair (b 21) ++
      (emxPair (b 22) ++ (emxPair (b 23) ++ (emxPair (b 24) ++ (emxPair (b 25) ++
      (emxPair (b 26) ++ (emxPair (b 27) ++ (emxPair (b 28) ++ (emxPair (b 29) ++
      (emxPair (b 30) ++ (emxPair (b 31) ++ (emxPair (b 32) ++ (emxPair (b 33) ++
      (emxPair (b 34) ++ (emxPair (b 35) ++ (emxPair (b 36) ++ (emxPair (b 37) ++
      (emxPair (b 38) ++ (emxPair (b 39) ++ (emxPair (b 40) ++ (emxPair (b 41) ++
      (emxPair (b 42) ++ (emxPair (b 43) ++ (emxPair (b 44) ++ (emxPair (b 45) ++
      (emxPair (b 46) ++ (emxPair (b 47) ++ (emxPair (b 48) ++ (emxPair (b 49) ++
      (emxPair (b 50) ++ (emxPair (b 51) ++ (emxPair (b 52) ++ (emxPair (b 53) ++
      (emxPair (b 54) ++ (emxPair (b 55) ++ (emxPair (b 56) ++ (emxPair (b 57) ++
      (emxPair (b 58) ++ (emxPair (b 59) ++ (emxPair (b 60) ++ (emxPair (b 61) ++
      (emxPair (b 62) ++ rest)))))))))))))))))))))))))))))))))))))))))))))))))))))))))))))))
      := rfl

theorem emx_frame_run (s : DecodeOOK) (n : Nat) (b : Nat → Bool)
    (hd : s.data = List.replicate 25 0) (hn : 20 < n % 256) :
    decodeAll .emx (resetDecoder s) (emxFrame n b) =
      (List.replicate n 0 ++ (0 :: (List.replicate 14 0 ++ (List.replicate 14 0 ++
        (List.replicate 14 0 ++ (List.replicate 14 0 ++ (List.replicate 14 0 ++
        (List.replicate 14 0 ++ (List.replicate 14 0 ++ (List.replicate 14 0 ++
        (List.replicate 14 0 ++ [1])))))))))),
       emAt { resetDecoder s with flip := n % 256 } OK 9 0 (emxData b) s.oob) := by
  unfold emxFrame
  refine emx_shorts (resetDecoder s) rfl n 0 _ _ _ ?_
  rw [Nat.zero_add, decodeAll_cons, emx_sync s _ hn]
  dsimp only
  rw [hd, emxBits_63]
  have len : ∀ (l : List Nat) (i x : Nat), (l.set i x).length = l.length :=
    fun l i x => List.length_set l i x
  have l25 : (List.replicate 25 0).length = 25 := List.length_replicate _ _
  have step : ∀ (rs : List Int) (fin : DecodeOOK) (x : List Int × DecodeOOK),
      x = (rs, fin) → (0 :: x.1, x.2) = (0 :: rs, fin) := fun rs fin x h => by rw [h]
  apply step
  refine emx_group _ 0 (List.replicate 25 0) _ _ _ _ _ _ _ _ _ _ _ (by decide)
    (by rw [l25]; decide) ?_
  refine emx_group _ 1 _ _ _ _ _ _ _ _ _ _ _ _ (by decide)
    (by rw [len, l25]; decide) ?_
  refine emx_group _ 2 _ _ _ _ _ _ _ _ _ _ _ _ (by decide)
    (by rw [len, len, l25]; decide) ?_
  refine emx_group _ 3 _ _ _ _ _ _ _ _ _ _ _ _ (by decide)
    (by rw [len, len, len, l25]; decide) ?_
  refine emx_group _ 4 _ _ _ _ _ _ _ _ _ _ _ _ (by decide)
    (by rw [len, len, len, len, l25]; decide) ?_
  refine emx_group _ 5 _ _ _ _ _ _ _ _ _ _ _ _ (by decide)
    (by rw [len, len, len, len, len, l25]; decide) ?_
  refine emx_group _ 6 _ _ _ _ _ _ _ _ _ _ _ _ (by decide)
    (by rw [len, len, len, len, len, len, l25]; decide) ?_
  refine emx_group _ 7 _ _ _ _ _ _ _ _ _ _ _ _ (by decide)
    (by rw [len, len, len, len, len, len, len, l25]; decide) ?_
  refine emx_group _ 8 _ _ _ _ _ _ _ _ _ _ _ _ (by decide)
    (by rw [len, len, len, len, len, len, len, len, l25]; decide) ?_
  exact emx_gap _ _ _ _ _ _ (by decide)

theorem decodeAll_length (k : Kind) : ∀ (ws : List Nat) (s : DecodeOOK),
    (decodeAll k s ws).1.length = ws.length := by
  intro ws
  induction ws with
  | nil => intro s; rfl
  | cons w ws ih =>
    intro s
    rw [decodeAll_cons]
    show ((decodeAll k (decode k s w).2 ws).1.length + 1) = ws.length + 1
    rw [ih]

theorem results_of_decodeAll (k : Kind) (m : Nat) : ∀ (ws : List Nat) (s : DecodeOOK) (n : Nat),
    s.state ≠ DONE → (decodeAll k s ws).1 = List.replicate n 0 ++ [1] →
    results k s m ws = List.replicate n false ++
      [decide ((checkRepeats (padLoop 7 (decodeAll k s ws).2) m).1 = false)] ∧
    feed k s m ws =
      (if (checkRepeats (padLoop 7 (decodeAll k s ws).2) m).1 = false
       then { (checkRepeats (padLoop 7 (decodeAll k s ws).2) m).2 with state := DONE }
       else resetDecoder (checkRepeats (padLoop 7 (decodeAll k s ws).2) m).2) ∧
    Keeps s (decodeAll k s ws).2 := by
  intro ws
  induction ws with
  | nil =>
    intro s n _ h
    have h0 : (decodeAll k s []).1 = [] := rfl
    rw [h0] at h
    have h1 := congrArg List.length h
    simp at h1
  | cons w ws ih =>
    intro s n hs h
    rw [decodeAll_cons] at h
    have hk := decode_keeps k s w
    cases n with
    | zero =>
      have h1 : (decode k s w).1 = 1 := (List.cons.inj h).1
      have h2 : (decodeAll k (decode k s w).2 ws).1 = [] := (List.cons.inj h).2
      have h3 : ws = [] := by
        have := decodeAll_length k ws (decode k s w).2
        rw [h2] at this
        exact List.length_eq_zero.mp this.symm
      subst h3
      have e := nextPulse_complete k s w m hs h1
      have e2 : (decodeAll k s [w]).2 = (decode k s w).2 := rfl
      have e3 : completed k s w = padLoop 7 (decode k s w).2 := rfl
      rw [e3] at e
      rw [e2]
      refine ⟨?_, ?_, hk⟩
      · show [(nextPulse k s w m).1] = _
        rw [e]
        cases (checkRepeats (padLoop 7 (decode k s w).2) m).1 <;> rfl
      · show (nextPulse k s w m).2 = _
        rw [e]
        cases (checkRepeats (padLoop 7 (decode k s w).2) m).1 <;> rfl
    | succ n =>
      have h1 : (decode k s w).1 = 0 := (List.cons.inj h).1
      have h2 : (decodeAll k (decode k s w).2 ws).1 = List.replicate n 0 ++ [1] :=
        (List.cons.inj h).2
      have ht : (decode k s w).2.state ≠ DONE := hk.2.2.2.2.2 hs
      have e := nextPulse_go k s w m hs (by rw [h1]; decide)
      rw [if_neg (by rw [h1]; decide), decide_eq_false ht] at e
      obtain ⟨i1, i2, i3⟩ := ih (decode k s w).2 n ht h2
      have e2 : (decodeAll k s (w :: ws)).2 = (decodeAll k (decode k s w).2 ws).2 := rfl
      rw [e2]
      refine ⟨?_, ?_, keeps_trans hk i3⟩
      · show (nextPulse k s w m).1 :: results k (nextPulse k s w m).2 m ws = _
        rw [e]
        dsimp only
        rw [i1]
        rfl
      · show feed k (nextPulse k s w m).2 m ws = _
        rw [e]
        exact i2

theorem emx_sameClass (s : DecodeOOK) (w c : Nat) (h : emxClass w c) :
    decode .emx s w = decode .emx s c := by
  rcases h with h | h
  · have hd : decide (600 ≤ w) = decide (600 ≤ c) := decide_eq_decide.mpr h.2.2
    unfold decode emxDecode
    rw [if_pos h.1, if_pos h.2.1]
    dsimp only
    rw [hd]
  · have h1 : ¬ (200 ≤ w ∧ w < 1000) := by omega
    have h2 : ¬ (200 ≤ c ∧ c < 1000) := by omega
    unfold decode emxDecode
    rw [if_neg h1, if_neg h2]
    by_cases hp : 9 ≤ s.pos
    · rw [if_pos ⟨h.1, hp⟩, if_pos ⟨h.2, hp⟩]
    · rw [if_neg (fun x => hp x.2), if_neg (fun x => hp x.2)]

theorem decodeAll_emxClass (ws cs : List Nat) (h : List.Forall₂ emxClass ws cs) :
    ∀ s : DecodeOOK, decodeAll .emx s ws = decodeAll .emx s cs := by
  induction h with
  | nil => intro s; rfl
  | cons hwc _ ih =>
    intro s
    rw [decodeAll_cons, decodeAll_cons, emx_sameClass s _ _ hwc, ih]

theorem repeatsTested_zero (p : DecodeOOK) (m : Nat) (h : p.repeats = 0) :
    repeatsTested p m = 0 := by
  unfold repeatsTested
  exact ite_ind (P := fun (x : Nat) => x = 0) (fun _ => rfl) (fun _ => h)

theorem padLoop_idle (n : Nat) (s : DecodeOOK) (h : s.bits = 0) : padLoop n s = s := by
  cases n with
  | zero => rfl
  | succ n =>
    unfold padLoop
    exact if_neg (not_not.mpr h)

/-- C11 (amended): a newly constructed energy-meter decoder with a zeroed
buffer is fed `n` short pulses, where the byte counter `n mod 256` exceeds 20
(for example 21 to 255 pulses), one long pulse, then 63 bits `b 0 .. b 62`,
each sent as a short pulse followed by the pulse that carries the bit (short =
0, long = 1), and one pulse of at least 1500 us; each width is anywhere in its
class, short = 200..599 us, long = 600..999 us.  Then `nextPulse` returns
`false` on every pulse before the last and `true` on the last, the decoder is
in `DONE`, and `getData` reports exactly 9 bytes, byte `k` holding bits
`7k .. 7k+6` with the earliest in bit 0 and bit 7 clear. -/
theorem emx_paired_bits_packet (mem : DecodeOOK) (n : Nat) (b : Nat → Bool) (ws : List Nat)
    (m : Nat) (hmem : mem.data = List.replicate 25 0) (hn : 20 < n % 256)
    (hw : List.Forall₂ emxClass ws (emxFrame n b)) :
    results .emx (construct .emx mem) m ws = List.replicate (n + 127) false ++ [true] ∧
    (feed .emx (construct .emx mem) m ws).state = DONE ∧
    getData (feed .emx (construct .emx mem) m ws) =
      (9, [emxByte b 0, emxByte b 1, emxByte b 2, emxByte b 3, emxByte b 4, emxByte b 5,
        emxByte b 6, emxByte b 7, emxByte b 8]) := by
  have key := emx_frame_run
    { mem with lastCrc := 0, lastTime := 0, repeats := 0, minGap := defaultGap .emx,
               minCount := 0, oob := false } n b hmem hn
  have hc : construct .emx mem = resetDecoder
    { mem with lastCrc := 0, lastTime := 0, repeats := 0, minGap := defaultGap .emx,
               minCount := 0, oob := false } := rfl
  rw [← hc, ← decodeAll_emxClass ws _ hw] at key
  have e : (0 : Int) :: (List.replicate 14 0 ++ (List.replicate 14 0 ++
      (List.replicate 14 0 ++ (List.replicate 14 0 ++ (List.replicate 14 0 ++
      (List.replicate 14 0 ++ (List.replicate 14 0 ++ (List.replicate 14 0 ++
      (List.replicate 14 0 ++ [1]))))))))) = List.replicate 127 0 ++ [1] := rfl
  rw [e, ← List.append_assoc, ← List.replicate_add] at key
  obtain ⟨fin, hfin, f1, f2, f3, f4, f5⟩ : ∃ fin : DecodeOOK,
      decodeAll .emx (construct .emx mem) ws = (List.replicate (n + 127) 0 ++ [1], fin) ∧
      fin.bits = 0 ∧ fin.repeats = 0 ∧ fin.minCount = 0 ∧ fin.pos = 9 ∧ fin.data = emxData b :=
    ⟨_, key, rfl, rfl, rfl, rfl, rfl⟩
  have hs : (construct .emx mem).state ≠ DONE :=
    fun h => absurd (show (0 : Nat) = 8 from h) (by decide)
  obtain ⟨r1, r2, -⟩ := results_of_decodeAll .emx m ws (construct .emx mem) (n + 127) hs
    (by rw [hfin])
  rw [hfin] at r1 r2
  dsimp only at r1 r2
  rw [padLoop_idle 7 fin f1] at r1 r2
  obtain ⟨c1, -, -, -, -, -, c7, -, -, -, c11⟩ := checkRepeats_spec fin m
  rw [repeatsTested_zero fin m f2, f3] at c1
  have c1a : (checkRepeats fin m).1 = false := c1
  rw [c1a] at r1
  rw [if_pos c1a] at r2
  refine ⟨r1, ?_, ?_⟩
  · rw [r2]
  · rw [r2]
    show (DecodeOOK.pos _, List.take (DecodeOOK.pos _) (DecodeOOK.data _)) = _
    rw [c7, c11, f4, f5]
    rfl

/-- Instance of C11 (amended): 21 short pulses and a sample bit pattern at
nominal widths. -/
theorem emx_paired_bits_packet_witness :
    results .emx (construct .emx zeroMem) 0 (emxFrame 21 emxSampleBits) =
      List.replicate (21 + 127) false ++ [true] ∧
    getData (feed .emx (construct .emx zeroMem) 0 (emxFrame 21 emxSampleBits)) =
      (9, [emxByte emxSampleBits 0, emxByte emxSampleBits 1, emxByte emxSampleBits 2,
        emxByte emxSampleBits 3, emxByte emxSampleBits 4, emxByte emxSampleBits 5,
        emxByte emxSampleBits 6, emxByte emxSampleBits 7, emxByte emxSampleBits 8]) ∧
    emxByte emxSampleBits 0 = 0x49 :=
  ⟨(emx_paired_bits_packet zeroMem 21 emxSampleBits _ 0 rfl (by decide)
      (forall₂_self emxClass _ (by decide!))).1,
   (emx_paired_bits_packet zeroMem 21 emxSampleBits _ 0 rfl (by decide)
      (forall₂_self emxClass _ (by decide!))).2.2,
   by decide⟩

/-! ## C17: the marker gate of the weather-sensor decoder -/

theorem getD_set (d : List Nat) (i j x : Nat) :
    (d.set i x).getD j 0 = if i = j ∧ i < d.length then x else d.getD j 0 := by
  by_cases h : i = j ∧ i < d.length
  · rw [if_pos h]
    obtain ⟨rfl, h2⟩ := h
    simp [List.getD_eq_getElem?_getD, h2]
  · rw [if_neg h]
    by_cases h1 : i = j
    · subst h1
      have h2 : d.length ≤ i := by
        by_contra hc
        exact h ⟨rfl, by omega⟩
      have e1 : (d.set i x)[i]? = none := List.getElem?_eq_none (by rw [List.length_set]; exact h2)
      have e2 : d[i]? = none := List.getElem?_eq_none h2
      rw [List.getD_eq_getElem?_getD, List.getD_eq_getElem?_getD, e1, e2]
    · simp [List.getD_eq_getElem?_getD, List.getElem?_set, h1]

theorem bytesOk_set (d1 d2 : List Nat) (i x1 x2 : Nat) (h : BytesOk d1 d2)
    (h1 : x1 < 256) (h2 : x2 < 256) : BytesOk (d1.set i x1) (d2.set i x2) := by
  obtain ⟨hl, a, b⟩ := h
  refine ⟨by rw [List.length_set, List.length_set, hl], ?_, ?_⟩
  · rw [getD_set]
    exact ite_ind (P := fun (n : Nat) => n < 256) (fun _ => h1) (fun _ => a)
  · rw [getD_set]
    exact ite_ind (P := fun (n : Nat) => n < 256) (fun _ => h2) (fun _ => b)

theorem upto_set (p i x1 x2 : Nat) (d1 d2 : List Nat) (hl : d1.length = d2.length)
    (h : Upto p d1 d2) (hx : i < p → x1 = x2) : Upto p (d1.set i x1) (d2.set i x2) := by
  intro k hk
  rw [getD_set, getD_set, ← hl]
  by_cases hc : i = k ∧ i < d1.length
  · rw [if_pos hc, if_pos hc]
    exact hx (by omega)
  · rw [if_neg hc, if_neg hc]
    exact h k hk

theorem eq_set (p i x1 x2 : Nat) (d1 d2 : List Nat) (hl : d1.length = d2.length)
    (h : d1.getD p 0 = d2.getD p 0) (hx : i = p → x1 = x2) :
    (d1.set i x1).getD p 0 = (d2.set i x2).getD p 0 := by
  rw [getD_set, getD_set, ← hl]
  by_cases hc : i = p ∧ i < d1.length
  · rw [if_pos hc, if_pos hc]
    exact hx hc.1
  · rw [if_neg hc, if_neg hc]
    exact h

theorem shiftIn_lt (x : Nat) (v : Bool) : shiftIn x v < 256 := Nat.mod_lt _ (by decide)

theorem shiftIn_top (x1 x2 j : Nat) (v : Bool) (h1 : x1 < 256) (h2 : x2 < 256) (hj : j ≤ 6)
    (h : x1 / 2 ^ (8 - j) = x2 / 2 ^ (8 - j)) :
    shiftIn x1 v / 2 ^ (8 - (j + 1)) = shiftIn x2 v / 2 ^ (8 - (j + 1)) := by
  rw [shiftIn_eq x1 h1 v, shiftIn_eq x2 h2 v]
  have hv := b2n_le v
  interval_cases j <;> simp only [Nat.reduceSub, Nat.reduceAdd, Nat.reducePow] at h ⊢ <;> omega

theorem shiftIn_full (x1 x2 : Nat) (v : Bool) (h1 : x1 < 256) (h2 : x2 < 256)
    (h : x1 / 2 ^ (8 - 7) = x2 / 2 ^ (8 - 7)) : shiftIn x1 v = shiftIn x2 v := by
  rw [shiftIn_eq x1 h1 v, shiftIn_eq x2 h2 v]
  simp only [Nat.reduceSub, Nat.reducePow, pow_one] at h
  omega

theorem getD_beyond (d : List Nat) (i : Nat) (h : d.length ≤ i) : d.getD i 0 = 0 := by
  rw [List.getD_eq_getElem?_getD, List.getElem?_eq_none h]
  rfl

theorem upto_succ (p : Nat) (d1 d2 : List Nat) (h : Upto p d1 d2)
    (hp : d1.getD p 0 = d2.getD p 0) : Upto (p + 1) d1 d2 := by
  intro i hi
  by_cases hc : i < p
  · exact h i hc
  · have e : i = p := by omega
    rw [e]
    exact hp

theorem set_same (d1 d2 : List Nat) (i x : Nat) (hl : d1.length = d2.length) :
    (d1.set i x).getD i 0 = (d2.set i x).getD i 0 := by
  rw [getD_set d1, getD_set d2, ← hl]
  by_cases hc : i = i ∧ i < d1.length
  · rw [if_pos hc, if_pos hc]
  · rw [if_neg hc, if_neg hc]
    have z1 : d1.length ≤ i := by
      by_contra hx
      exact hc ⟨rfl, by omega⟩
    rw [getD_beyond d1 i z1, getD_beyond d2 i (by rw [← hl]; exact z1)]

theorem ksMid_data (p j mt : Nat) (d1 d2 : List Nat) (v : Bool) (hb : BytesOk d1 d2)
    (h : KsMid p j mt d1 d2) (hj : ¬ 8 ≤ (j + 1) % 256) :
    KsMid p ((j + 1) % 256) mt (d1.set p (shiftIn (d1.getD p 0) v))
      (d2.set p (shiftIn (d2.getD p 0) v)) ∧
    BytesOk (d1.set p (shiftIn (d1.getD p 0) v)) (d2.set p (shiftIn (d2.getD p 0) v)) := by
  obtain ⟨hp, hu, he, h0⟩ := h
  have hl := hb.1
  refine ⟨⟨hp, ?_, ?_, ?_⟩, bytesOk_set _ _ _ _ _ hb (shiftIn_lt _ _) (shiftIn_lt _ _)⟩
  · exact upto_set p p _ _ d1 d2 hl hu (fun hlt => absurd hlt (lt_irrefl p))
  · intro hp0
    exact eq_set p p _ _ d1 d2 hl (he hp0) (fun _ => by rw [he hp0])
  · intro hz
    subst hz
    obtain ⟨hm, hj7, hq⟩ := h0 rfl
    have hj6 : j ≤ 6 := by omega
    have e : (j + 1) % 256 = j + 1 := by omega
    refine ⟨hm, by omega, ?_⟩
    rw [getD_set, getD_set, ← hl, e]
    by_cases hc : 0 = 0 ∧ 0 < d1.length
    · rw [if_pos hc, if_pos hc]
      exact shiftIn_top _ _ j v hb.2.1 hb.2.2 hj6 hq
    · rw [if_neg hc, if_neg hc]
      have z1 : d1.length ≤ 0 := by
        by_contra hx
        exact hc ⟨rfl, by omega⟩
      rw [getD_beyond d1 0 z1, getD_beyond d2 0 (by rw [← hl]; exact z1)]

theorem ksMid_roll (p j mt : Nat) (d1 d2 : List Nat) (v : Bool) (hb : BytesOk d1 d2)
    (h : KsMid p j mt d1 d2) (hj : 8 ≤ (j + 1) % 256) (hq : (p + 1) % 256 < 25) :
    shiftIn (d1.getD p 0) v = shiftIn (d2.getD p 0) v ∧
    (∀ m : Nat, KsMid ((p + 1) % 256) 0 m
      ((d1.set p (shiftIn (d1.getD p 0) v)).set (p + 1) 0)
      ((d2.set p (shiftIn (d2.getD p 0) v)).set (p + 1) 0)) ∧
    BytesOk ((d1.set p (shiftIn (d1.getD p 0) v)).set (p + 1) 0)
      ((d2.set p (shiftIn (d2.getD p 0) v)).set (p + 1) 0) := by
  obtain ⟨hp, hu, he, h0⟩ := h
  have hl := hb.1
  have e : (p + 1) % 256 = p + 1 := by omega
  have hy : shiftIn (d1.getD p 0) v = shiftIn (d2.getD p 0) v := by
    by_cases hz : p = 0
    · subst hz
      obtain ⟨-, hj7, hx⟩ := h0 rfl
      have e7 : j = 7 := by omega
      subst e7
      exact shiftIn_full _ _ v hb.2.1 hb.2.2 hx
    · rw [he (by omega)]
  have hl1 : (d1.set p (shiftIn (d1.getD p 0) v)).length
      = (d2.set p (shiftIn (d2.getD p 0) v)).length := by
    rw [List.length_set, List.length_set, hl]
  have hu1 : Upto (p + 1) (d1.set p (shiftIn (d1.getD p 0) v))
      (d2.set p (shiftIn (d2.getD p 0) v)) := by
    refine upto_succ p _ _
      (upto_set p p _ _ d1 d2 hl hu (fun hlt => absurd hlt (lt_irrefl p))) ?_
    rw [getD_set, getD_set, ← hl]
    by_cases hc : p = p ∧ p < d1.length
    · rw [if_pos hc, if_pos hc]
      exact hy
    · rw [if_neg hc, if_neg hc]
      have z1 : d1.length ≤ p := by
        by_contra hx
        exact hc ⟨rfl, by omega⟩
      rw [getD_beyond d1 p z1, getD_beyond d2 p (by rw [← hl]; exact z1)]
  refine ⟨hy, fun m => ⟨by omega, ?_, ?_, ?_⟩,
    bytesOk_set _ _ _ _ _ (bytesOk_set _ _ _ _ _ hb (shiftIn_lt _ _) (shiftIn_lt _ _))
      (by decide) (by decide)⟩
  · rw [e]
    exact upto_set (p + 1) (p + 1) 0 0 _ _ hl1 hu1 (fun _ => rfl)
  · intro _
    rw [e]
    exact set_same _ _ (p + 1) 0 hl1
  · intro hz
    omega

theorem ksReady_of_mid (p j mt : Nat) (d1 d2 : List Nat) (h : KsMid p j mt d1 d2)
    (hm : mt ≠ 0) : KsReady p j d1 d2 := by
  obtain ⟨-, hu, he, h0⟩ := h
  refine ⟨hu, fun _ => ?_⟩
  by_cases hz : p = 0
  · exact absurd (h0 hz).1 hm
  · exact he (by omega)

theorem ksxCount_done79 (t : DecodeOOK) (h49 : ¬ ((t.bitCount + 1) % 256 = 49 ∧ t.msgType = 1))
    (h79 : (t.bitCount + 1) % 256 = 79 ∧ t.msgType = 7) :
    ksxCount t = (true, { t with bitCount := (t.bitCount + 1) % 256 }) := by
  unfold ksxCount
  exact (if_neg h49).trans (if_pos h79)

theorem ksxCount_rel (t : DecodeOOK) (d2 : List Nat) (hb : BytesOk t.data d2)
    (hm : KsMid t.pos t.bits t.msgType t.data d2) :
    KsPost (ksxCount t) (ksxCount { t with data := d2 }) := by
  by_cases h49 : (t.bitCount + 1) % 256 = 49 ∧ t.msgType = 1
  · rw [ksxCount_done t h49, ksxCount_done { t with data := d2 } h49]
    exact ⟨rfl, rfl, hb, fun h => Bool.noConfusion h,
      fun _ => ksReady_of_mid _ _ _ _ _ hm (by rw [h49.2]; decide)⟩
  · by_cases h79 : (t.bitCount + 1) % 256 = 79 ∧ t.msgType = 7
    · rw [ksxCount_done79 t h49 h79, ksxCount_done79 { t with data := d2 } h49 h79]
      exact ⟨rfl, rfl, hb, fun h => Bool.noConfusion h,
        fun _ => ksReady_of_mid _ _ _ _ _ hm (by rw [h79.2]; decide)⟩
    · rw [ksxCount_go t h49 h79, ksxCount_go { t with data := d2 } h49 h79]
      exact ⟨rfl, rfl, hb, fun _ => Or.inr ⟨rfl, hm⟩, fun h => Bool.noConfusion h⟩

theorem ksxGotBit_b1 (s : DecodeOOK) (v : Nat) (hc : s.bitCount % 5 ≠ 4)
    (hj : ¬ 8 ≤ (s.bits + 1) % 256) :
    ksxGotBit s v = ksxCount
      { wr s s.pos ((rd s s.pos >>> 1) ||| (v <<< 7)) with bits := (s.bits + 1) % 256 } := by
  unfold ksxGotBit
  exact (if_pos hc).trans (if_neg hj)

theorem ksxGotBit_b2 (s : DecodeOOK) (v : Nat) (hc : s.bitCount % 5 ≠ 4)
    (hj : 8 ≤ (s.bits + 1) % 256) (hp : (s.pos + 1) % 256 < sizeofData) :
    ksxGotBit s v = ksxCount
      { s with bits := 0, pos := (s.pos + 1) % 256,
               msgType := if s.pos = 0 then
                   (s.data.set s.pos (((rd s s.pos >>> 1) ||| (v <<< 7)) % 256)).getD s.pos 0
                     &&& 0x0F
                 else s.msgType,
               data := (s.data.set s.pos (((rd s s.pos >>> 1) ||| (v <<< 7)) % 256)).set
                 (s.pos + 1) (0 % 256),
               oob := s.oob || decide (sizeofData ≤ s.pos) || decide (sizeofData ≤ s.pos + 1) }
    := by
  unfold ksxGotBit
  exact (if_pos hc).trans ((if_pos hj).trans (if_pos hp))

theorem ksxGotBit_b3 (s : DecodeOOK) (v : Nat) (hc : s.bitCount % 5 ≠ 4)
    (hj : 8 ≤ (s.bits + 1) % 256) (hp : ¬ (s.pos + 1) % 256 < sizeofData) :
    ksxGotBit s v = (false, resetDecoder
      { s with bits := 0, pos := (s.pos + 1) % 256,
               msgType := if s.pos = 0 then
                   (s.data.set s.pos (((rd s s.pos >>> 1) ||| (v <<< 7)) % 256)).getD s.pos 0
                     &&& 0x0F
                 else s.msgType,
               data := s.data.set s.pos (((rd s s.pos >>> 1) ||| (v <<< 7)) % 256),
               oob := s.oob || decide (sizeofData ≤ s.pos) }) := by
  unfold ksxGotBit
  exact (if_pos hc).trans ((if_pos hj).trans (if_neg hp))

theorem ksxGotBit_b4 (s : DecodeOOK) (hc : ¬ s.bitCount % 5 ≠ 4) :
    ksxGotBit s 0 = (false, resetDecoder s) := by
  unfold ksxGotBit
  exact (if_neg hc).trans (if_pos rfl)

theorem ksxGotBit_b5 (s : DecodeOOK) (hc : ¬ s.bitCount % 5 ≠ 4) :
    ksxGotBit s 1 = ksxCount s := by
  have h1 : ¬ (1 : Nat) = 0 := by decide
  unfold ksxGotBit
  exact (if_neg hc).trans (if_neg h1)

theorem ksxGotBit_rel (a : DecodeOOK) (d2 : List Nat) (v : Bool) (hb : BytesOk a.data d2)
    (hm : KsMid a.pos a.bits a.msgType a.data d2) :
    KsPost (ksxGotBit a (b2n v)) (ksxGotBit { a with data := d2 } (b2n v)) := by
  by_cases hc : a.bitCount % 5 ≠ 4
  · by_cases hj : 8 ≤ (a.bits + 1) % 256
    · by_cases hp : (a.pos + 1) % 256 < sizeofData
      · obtain ⟨hy, hmid, hbo⟩ := ksMid_roll a.pos a.bits a.msgType a.data d2 v hb hm hj hp
        have hM : (if a.pos = 0 then
              (d2.set a.pos (shiftIn (d2.getD a.pos 0) v)).getD a.pos 0 &&& 0x0F
            else a.msgType) =
            (if a.pos = 0 then
              (a.data.set a.pos (shiftIn (a.data.getD a.pos 0) v)).getD a.pos 0 &&& 0x0F
            else a.msgType) := by
          rw [hy, set_same a.data d2 a.pos _ hb.1]
        rw [ksxGotBit_b2 a _ hc hj hp, ksxGotBit_b2 { a with data := d2 } _ hc hj hp]
        show KsPost
          (ksxCount (ksAt a a.state ((a.pos + 1) % 256) 0 a.bitCount
            (if a.pos = 0 then
              (a.data.set a.pos (shiftIn (a.data.getD a.pos 0) v)).getD a.pos 0 &&& 0x0F
            else a.msgType)
            ((a.data.set a.pos (shiftIn (a.data.getD a.pos 0) v)).set (a.pos + 1) 0)
            (a.oob || decide (sizeofData ≤ a.pos) || decide (sizeofData ≤ a.pos + 1))))
          (ksxCount (ksAt a a.state ((a.pos + 1) % 256) 0 a.bitCount
            (if a.pos = 0 then
              (d2.set a.pos (shiftIn (d2.getD a.pos 0) v)).getD a.pos 0 &&& 0x0F
            else a.msgType)
            ((d2.set a.pos (shiftIn (d2.getD a.pos 0) v)).set (a.pos + 1) 0)
            (a.oob || decide (sizeofData ≤ a.pos) || decide (sizeofData ≤ a.pos + 1))))
        rw [hM]
        exact ksxCount_rel _ _ hbo (hmid _)
      · have hp0 : ¬ a.pos = 0 := by
          intro h0
          apply hp
          rw [h0]
          decide
        rw [ksxGotBit_b3 a _ hc hj hp, ksxGotBit_b3 { a with data := d2 } _ hc hj hp]
        show KsPost
          (false, resetDecoder (ksAt a a.state ((a.pos + 1) % 256) 0 a.bitCount
            (if a.pos = 0 then
              (a.data.set a.pos (shiftIn (a.data.getD a.pos 0) v)).getD a.pos 0 &&& 0x0F
            else a.msgType)
            (a.data.set a.pos (shiftIn (a.data.getD a.pos 0) v))
            (a.oob || decide (sizeofData ≤ a.pos))))
          (false, resetDecoder (ksAt a a.state ((a.pos + 1) % 256) 0 a.bitCount
            (if a.pos = 0 then
              (d2.set a.pos (shiftIn (d2.getD a.pos 0) v)).getD a.pos 0 &&& 0x0F
            else a.msgType)
            (d2.set a.pos (shiftIn (d2.getD a.pos 0) v))
            (a.oob || decide (sizeofData ≤ a.pos))))
        rw [if_neg hp0, if_neg hp0]
        exact ⟨rfl, rfl, bytesOk_set _ _ _ _ _ hb (shiftIn_lt _ _) (shiftIn_lt _ _),
          fun _ => Or.inl ⟨rfl, rfl⟩, fun h => Bool.noConfusion h⟩
    · obtain ⟨hmid, hbo⟩ := ksMid_data a.pos a.bits a.msgType a.data d2 v hb hm hj
      rw [ksxGotBit_b1 a _ hc hj, ksxGotBit_b1 { a with data := d2 } _ hc hj]
      exact ksxCount_rel
        { wr a a.pos ((rd a a.pos >>> 1) ||| (b2n v <<< 7)) with bits := (a.bits + 1) % 256 }
        _ hbo hmid
  · cases v
    · show KsPost (ksxGotBit a 0) (ksxGotBit { a with data := d2 } 0)
      rw [ksxGotBit_b4 a hc, ksxGotBit_b4 { a with data := d2 } hc]
      exact ⟨rfl, rfl, hb, fun _ => Or.inl ⟨rfl, rfl⟩, fun h => Bool.noConfusion h⟩
    · show KsPost (ksxGotBit a 1) (ksxGotBit { a with data := d2 } 1)
      rw [ksxGotBit_b5 a hc, ksxGotBit_b5 { a with data := d2 } hc]
      exact ksxCount_rel a d2 hb hm

theorem ite_rel {α β : Type} {R : α → β → Prop} {c : Prop} [Decidable c] {a1 a2 : α}
    {b1 b2 : β} (h1 : c → R a1 b1) (h2 : ¬c → R a2 b2) :
    R (if c then a1 else a2) (if c then b1 else b2) := by
  by_cases h : c
  · rw [if_pos h, if_pos h]; exact h1 h
  · rw [if_neg h, if_neg h]; exact h2 h

theorem ksCond_scan (a : DecodeOOK) (d2 : List Nat) (h : KsCond a d2)
    (hs : a.state = UNKNOWN ∨ a.state = SYNC) : a.pos = 0 := by
  have hs1 : a.state = 0 ∨ a.state = 1 := hs
  rcases h with ⟨-, h⟩ | ⟨h1, -⟩ | ⟨h1, -⟩
  · exact h
  · have h2 : a.state = 6 ∨ a.state = 2 ∨ a.state = 3 := h1
    omega
  · have h2 : a.state = 8 := h1
    omega

theorem ksCond_mid (a : DecodeOOK) (d2 : List Nat) (h : KsCond a d2)
    (hs : a.state = OK ∨ a.state = T0 ∨ a.state = T1) :
    KsMid a.pos a.bits a.msgType a.data d2 := by
  have hs1 : a.state = 6 ∨ a.state = 2 ∨ a.state = 3 := hs
  rcases h with ⟨h1, -⟩ | ⟨-, h⟩ | ⟨h1, -⟩
  · have h2 : a.state = 0 ∨ a.state = 1 := h1
    omega
  · exact h
  · have h2 : a.state = 8 := h1
    omega

theorem ksCond_states (a : DecodeOOK) (d2 : List Nat) (h : KsCond a d2) :
    a.state = UNKNOWN ∨ a.state = SYNC ∨ a.state = OK ∨ a.state = T0 ∨ a.state = T1 ∨
      a.state = DONE := by
  rcases h with ⟨h1 | h1, -⟩ | ⟨h1 | h1 | h1, -⟩ | ⟨h1, -⟩
  · exact Or.inl h1
  · exact Or.inr (Or.inl h1)
  · exact Or.inr (Or.inr (Or.inl h1))
  · exact Or.inr (Or.inr (Or.inr (Or.inl h1)))
  · exact Or.inr (Or.inr (Or.inr (Or.inr (Or.inl h1))))
  · exact Or.inr (Or.inr (Or.inr (Or.inr (Or.inr h1))))

theorem ksxPreamble_data (a : DecodeOOK) (d2 : List Nat) (w : Bool) :
    ksxPreamble (withData a d2) w = withData (ksxPreamble a w) d2 := by
  unfold ksxPreamble
  refine ite_push (fun (x : DecodeOOK) => withData x d2) (c := a.flip = 0) ?_ ?_
  · exact ite_push (fun (x : DecodeOOK) => withData x d2) (c := w = true) rfl rfl
  · refine ite_push (fun (x : DecodeOOK) => withData x d2) (c := a.pulse = 0) ?_ ?_
    · exact ite_push (fun (x : DecodeOOK) => withData x d2) (c := (!w) = true) rfl rfl
    · refine ite_push (fun (x : DecodeOOK) => withData x d2) (c := w = true) rfl ?_
      exact ite_push (fun (x : DecodeOOK) => withData x d2) (c := 14 ≤ a.flip ∧ a.flip ≤ 20)
        rfl rfl

theorem ksxPreamble_frame (a : DecodeOOK) (w : Bool) (hs : a.state = UNKNOWN) :
    (ksxPreamble a w).data = a.data ∧ (ksxPreamble a w).pos = a.pos ∧
    ((ksxPreamble a w).state = UNKNOWN ∨ (ksxPreamble a w).state = SYNC) := by
  unfold ksxPreamble
  refine ite_ind
    (P := fun (x : DecodeOOK) => x.data = a.data ∧ x.pos = a.pos ∧
      (x.state = UNKNOWN ∨ x.state = SYNC)) (fun _ => ?_) (fun _ => ?_)
  · exact ite_ind
      (P := fun (x : DecodeOOK) => x.data = a.data ∧ x.pos = a.pos ∧
        (x.state = UNKNOWN ∨ x.state = SYNC))
      (fun _ => ⟨rfl, rfl, Or.inl hs⟩) (fun _ => ⟨rfl, rfl, Or.inl hs⟩)
  · refine ite_ind
      (P := fun (x : DecodeOOK) => x.data = a.data ∧ x.pos = a.pos ∧
        (x.state = UNKNOWN ∨ x.state = SYNC)) (fun _ => ?_) (fun _ => ?_)
    · exact ite_ind
        (P := fun (x : DecodeOOK) => x.data = a.data ∧ x.pos = a.pos ∧
          (x.state = UNKNOWN ∨ x.state = SYNC))
        (fun _ => ⟨rfl, rfl, Or.inl hs⟩) (fun _ => ⟨rfl, rfl, Or.inl hs⟩)
    · refine ite_ind
        (P := fun (x : DecodeOOK) => x.data = a.data ∧ x.pos = a.pos ∧
          (x.state = UNKNOWN ∨ x.state = SYNC)) (fun _ => ⟨rfl, rfl, Or.inl hs⟩) (fun _ => ?_)
      exact ite_ind
        (P := fun (x : DecodeOOK) => x.data = a.data ∧ x.pos = a.pos ∧
          (x.state = UNKNOWN ∨ x.state = SYNC))
        (fun _ => ⟨rfl, rfl, Or.inr rfl⟩) (fun _ => ⟨rfl, rfl, Or.inl hs⟩)

theorem ksPost_dec (r1 r2 : Bool × DecodeOOK) (c : Bool) (h : KsPost r1 r2) :
    KsDec (if r1.1 = true then ((1 : Int), r1.2) else if c = true then (-1, r1.2) else (0, r1.2))
      (if r2.1 = true then ((1 : Int), r2.2) else if c = true then (-1, r2.2) else (0, r2.2))
    := by
  obtain ⟨e1, e2, hb, hf, ht⟩ := h
  have nf : ¬ (false = true) := by decide
  rw [e1]
  cases hr : r1.1
  · rw [if_neg nf, if_neg nf]
    cases c
    · rw [if_neg nf, if_neg nf]
      refine ⟨rfl, e2, hb, fun _ => ?_, fun h => absurd h int_0_ne_1⟩
      rcases hf hr with ⟨s1, s2⟩ | ⟨s1, s2⟩
      · exact ⟨Or.inl ⟨Or.inl s1, s2⟩, by rw [s1]; decide⟩
      · exact ⟨Or.inr (Or.inl ⟨Or.inl s1, s2⟩), by rw [s1]; decide⟩
    · rw [if_pos rfl, if_pos rfl]
      exact ⟨rfl, e2, hb, fun h => absurd h int_m1_ne_0, fun h => absurd h int_m1_ne_1⟩
  · rw [if_pos rfl, if_pos rfl]
    exact ⟨rfl, e2, hb, fun h => absurd h int_1_ne_0, fun _ => ht hr⟩

theorem ksMid_start (d1 d2 : List Nat) (hb : BytesOk d1 d2) : KsMid 0 0 0 d1 d2 := by
  refine ⟨by decide, fun i hi => absurd hi (Nat.not_lt_zero i),
    fun h => absurd h (lt_irrefl 0), fun _ => ⟨rfl, by decide, ?_⟩⟩
  have e : 2 ^ (8 - 0) = 256 := by decide
  rw [e, Nat.div_eq_of_lt hb.2.1, Nat.div_eq_of_lt hb.2.2]

theorem ksReady_gap (a : DecodeOOK) (d2 : List Nat) (hc : KsCond a d2) (hd : a.state ≠ DONE)
    (hp : 6 ≤ a.pos) : KsReady a.pos a.bits a.data d2 := by
  rcases hc with ⟨-, h0⟩ | ⟨-, hm⟩ | ⟨h1, -⟩
  · omega
  · exact ⟨hm.2.1, fun _ => hm.2.2.1 (by omega)⟩
  · exact absurd h1 hd

theorem ksxDecode_rel (a : DecodeOOK) (d2 : List Nat) (w : Nat) (hb : BytesOk a.data d2)
    (hc : KsCond a d2) (hd : a.state ≠ DONE) :
    KsDec (ksxDecode a w) (ksxDecode (withData a d2) w) := by
  have fail : KsDec (-1, a) (-1, withData a d2) :=
    ⟨rfl, rfl, hb, fun h => absurd h int_m1_ne_0, fun h => absurd h int_m1_ne_1⟩
  unfold ksxDecode
  refine ite_rel (R := KsDec) (fun _ => ?_) (fun _ => ?_)
  · refine ite_rel (R := KsDec) (fun hu => ?_) (fun hnu => ?_)
    · obtain ⟨p1, p2, p3⟩ := ksxPreamble_frame a (decide (600 ≤ w)) hu
      have hz := ksCond_scan a d2 hc (Or.inl hu)
      rw [ksxPreamble_data]
      refine ⟨rfl, rfl, ?_, fun _ => ⟨Or.inl ⟨p3, by rw [p2]; exact hz⟩, ?_⟩,
        fun h => absurd h int_0_ne_1⟩
      · show BytesOk (ksxPreamble a (decide (600 ≤ w))).data d2
        rw [p1]
        exact hb
      · show (ksxPreamble a (decide (600 ≤ w))).state ≠ DONE
        rcases p3 with p3 | p3 <;> rw [p3] <;> decide
    · refine ite_rel (R := KsDec) (fun hy => ?_) (fun hny => ?_)
      · refine ite_rel (R := KsDec) (fun _ => ?_) (fun _ => fail)
        exact ⟨rfl, rfl, hb,
          fun _ => ⟨Or.inr (Or.inl ⟨Or.inl rfl, ksMid_start a.data d2 hb⟩),
            fun h => absurd (show (6 : Nat) = 8 from h) (by decide)⟩,
          fun h => absurd h int_0_ne_1⟩
      · refine ite_rel (R := KsDec) (fun ho => ?_) (fun hno => ?_)
        · have hm := ksCond_mid a d2 hc (Or.inl ho)
          refine ⟨rfl, rfl, hb, fun _ => ⟨Or.inr (Or.inl ⟨?_, hm⟩), ?_⟩,
            fun h => absurd h int_0_ne_1⟩
          · exact ite_ind (P := fun (n : Nat) => n = OK ∨ n = T0 ∨ n = T1)
              (fun _ => Or.inr (Or.inl rfl)) (fun _ => Or.inr (Or.inr rfl))
          · exact ite_ind (P := fun (n : Nat) => n ≠ DONE)
              (fun _ h => absurd (show (2 : Nat) = 8 from h) (by decide))
              (fun _ h => absurd (show (3 : Nat) = 8 from h) (by decide))
        · refine ite_rel (R := KsDec) (fun h0 => ?_) (fun hn0 => ?_)
          · have hm := ksCond_mid a d2 hc (Or.inr (Or.inl h0))
            exact ksPost_dec _ _ _ (ksxGotBit_rel a d2 true hb hm)
          · refine ite_rel (R := KsDec) (fun h1 => ?_) (fun hn1 => ?_)
            · have hm := ksCond_mid a d2 hc (Or.inr (Or.inr h1))
              exact ksPost_dec _ _ _ (ksxGotBit_rel a d2 false hb hm)
            · exfalso
              rcases ksCond_states a d2 hc with h | h | h | h | h | h
              · exact hnu h
              · exact hny h
              · exact hno h
              · exact hn0 h
              · exact hn1 h
              · exact hd h
  · refine ite_rel (R := KsDec) (fun hg => ?_) (fun _ => fail)
    exact ⟨rfl, rfl, hb, fun h => absurd h int_1_ne_0, fun _ => ksReady_gap a d2 hc hd hg.2⟩

theorem upto_mono (p q : Nat) (d1 d2 : List Nat) (h : Upto q d1 d2) (hpq : p ≤ q) :
    Upto p d1 d2 := fun i hi => h i (by omega)

theorem gotBit_padRel (x : DecodeOOK) (d2 : List Nat) (hb : BytesOk x.data d2)
    (hr : KsReady x.pos x.bits x.data d2) (hne : x.bits ≠ 0) :
    PadRel (gotBit x 0) (gotBit (withData x d2) 0) := by
  obtain ⟨hu, hq⟩ := hr
  have hl := hb.1
  have hv : (rd x x.pos ||| (0 <<< x.bits)) % 256
      = (rd (withData x d2) x.pos ||| (0 <<< x.bits)) % 256 := by
    show (x.data.getD x.pos 0 ||| (0 <<< x.bits)) % 256 = (d2.getD x.pos 0 ||| (0 <<< x.bits)) % 256
    rw [hq hne]
  have hb1 : BytesOk (x.data.set x.pos ((rd x x.pos ||| (0 <<< x.bits)) % 256))
      (d2.set x.pos ((rd (withData x d2) x.pos ||| (0 <<< x.bits)) % 256)) :=
    bytesOk_set _ _ _ _ _ hb (Nat.mod_lt _ (by decide)) (Nat.mod_lt _ (by decide))
  have hu1 : Upto x.pos (x.data.set x.pos ((rd x x.pos ||| (0 <<< x.bits)) % 256))
      (d2.set x.pos ((rd (withData x d2) x.pos ||| (0 <<< x.bits)) % 256)) :=
    upto_set _ _ _ _ _ _ hl hu (fun hlt => absurd hlt (lt_irrefl _))
  have he1 : (x.data.set x.pos ((rd x x.pos ||| (0 <<< x.bits)) % 256)).getD x.pos 0
      = (d2.set x.pos ((rd (withData x d2) x.pos ||| (0 <<< x.bits)) % 256)).getD x.pos 0 := by
    rw [← hv]
    exact set_same _ _ _ _ hl
  unfold gotBit
  refine ite_rel (R := PadRel) (fun _ => ?_) (fun _ => ?_)
  · refine ite_rel (R := PadRel) (fun _ => ?_) (fun _ => ?_)
    · refine ⟨rfl, bytesOk_set _ _ _ _ _ hb1 (by decide) (by decide), ?_,
        fun h => absurd rfl h⟩
      refine upto_mono _ (x.pos + 1) _ _ ?_ (Nat.mod_le _ _)
      exact upto_set _ _ _ _ _ _ hb1.1 (upto_succ _ _ _ hu1 he1) (fun _ => rfl)
    · exact ⟨rfl, hb1, fun i hi => absurd hi (Nat.not_lt_zero i), fun h => absurd rfl h⟩
  · exact ⟨rfl, hb1, hu1, fun _ => he1⟩

theorem padLoop_padRel (n : Nat) : ∀ (x : DecodeOOK) (d2 : List Nat), BytesOk x.data d2 →
    KsReady x.pos x.bits x.data d2 → PadRel (padLoop n x) (padLoop n (withData x d2)) := by
  induction n with
  | zero => exact fun x d2 hb hr => ⟨rfl, hb, hr⟩
  | succ n ih =>
    intro x d2 hb hr
    unfold padLoop
    refine ite_rel (R := PadRel) (fun hne => ?_) (fun _ => ⟨rfl, hb, hr⟩)
    obtain ⟨e, hb1, hr1⟩ := gotBit_padRel x d2 hb hr hne
    rw [e]
    exact ih _ _ hb1 hr1

theorem packetCrc_data (x : DecodeOOK) (d2 : List Nat) (hu : Upto x.pos x.data d2) :
    packetCrc (withData x d2) = packetCrc x := by
  unfold packetCrc
  show (List.range x.pos).foldl _ _ = _
  apply foldl_congr_mem
  intro c i hi
  have hi1 : i < x.pos := List.mem_range.mp hi
  show crc16_update c (d2.getD i 0) = crc16_update c (x.data.getD i 0)
  rw [hu i hi1]

theorem take_of_upto (p : Nat) (d1 d2 : List Nat) (hl : d1.length = d2.length)
    (hu : Upto p d1 d2) : d1.take p = d2.take p := by
  apply List.ext_getElem?
  intro i
  rw [List.getElem?_take, List.getElem?_take]
  by_cases hi : i < p
  · rw [if_pos hi, if_pos hi]
    have h := hu i hi
    rw [List.getD_eq_getElem?_getD, List.getD_eq_getElem?_getD] at h
    by_cases hlen : i < d1.length
    · have h2 : i < d2.length := by omega
      rw [List.getElem?_eq_getElem hlen, List.getElem?_eq_getElem h2] at h ⊢
      exact congrArg some h
    · rw [List.getElem?_eq_none (by omega), List.getElem?_eq_none (by omega)]
  · rw [if_neg hi, if_neg hi]

theorem checkRepeats_data (x : DecodeOOK) (d2 : List Nat) (m : Nat)
    (hu : Upto x.pos x.data d2) :
    checkRepeats (withData x d2) m = ((checkRepeats x m).1, withData (checkRepeats x m).2 d2) := by
  have ht : (List.range x.pos).foldl touch (withData x d2) =
      withData ((List.range x.pos).foldl touch x) d2 :=
    foldl_comm touch (fun y => withData y d2) (fun _ _ => rfl) _ x
  have hcrc := packetCrc_data x d2 hu
  unfold checkRepeats
  show (_, _) = _
  dsimp only
  rw [show (withData x d2).pos = x.pos from rfl, ht, hcrc]
  by_cases hc : packetCrc x ≠ ((List.range x.pos).foldl touch x).lastCrc ∨
      ((List.range x.pos).foldl touch x).minGap <
        (tenths m + 65536 - ((List.range x.pos).foldl touch x).lastTime) % 65536
  · have hc1 : packetCrc x ≠ (withData ((List.range x.pos).foldl touch x) d2).lastCrc ∨
        (withData ((List.range x.pos).foldl touch x) d2).minGap <
          (tenths m + 65536 - (withData ((List.range x.pos).foldl touch x) d2).lastTime)
            % 65536 := hc
    rw [if_pos hc, if_pos hc1]
    rfl
  · have hc1 : ¬ (packetCrc x ≠ (withData ((List.range x.pos).foldl touch x) d2).lastCrc ∨
        (withData ((List.range x.pos).foldl touch x) d2).minGap <
          (tenths m + 65536 - (withData ((List.range x.pos).foldl touch x) d2).lastTime)
            % 65536) := hc
    rw [if_neg hc, if_neg hc1]
    rfl

theorem ksxDecode_range (a : DecodeOOK) (w : Nat) :
    (ksxDecode a w).1 = -1 ∨ (ksxDecode a w).1 = 0 ∨ (ksxDecode a w).1 = 1 := by
  have m1 : ∀ t : DecodeOOK, ((-1 : Int), t).1 = -1 ∨ ((-1 : Int), t).1 = 0 ∨
      ((-1 : Int), t).1 = 1 := fun _ => Or.inl rfl
  have z : ∀ t : DecodeOOK, ((0 : Int), t).1 = -1 ∨ ((0 : Int), t).1 = 0 ∨
      ((0 : Int), t).1 = 1 := fun _ => Or.inr (Or.inl rfl)
  have o : ∀ t : DecodeOOK, ((1 : Int), t).1 = -1 ∨ ((1 : Int), t).1 = 0 ∨
      ((1 : Int), t).1 = 1 := fun _ => Or.inr (Or.inr rfl)
  unfold ksxDecode
  refine ite_ind (P := fun (r : Int × DecodeOOK) => r.1 = -1 ∨ r.1 = 0 ∨ r.1 = 1)
    (fun _ => ?_) (fun _ => ?_)
  · refine ite_ind (P := fun (r : Int × DecodeOOK) => r.1 = -1 ∨ r.1 = 0 ∨ r.1 = 1)
      (fun _ => z _) (fun _ => ?_)
    refine ite_ind (P := fun (r : Int × DecodeOOK) => r.1 = -1 ∨ r.1 = 0 ∨ r.1 = 1)
      (fun _ => ?_) (fun _ => ?_)
    · exact ite_ind (P := fun (r : Int × DecodeOOK) => r.1 = -1 ∨ r.1 = 0 ∨ r.1 = 1)
        (fun _ => z _) (fun _ => m1 _)
    · refine ite_ind (P := fun (r : Int × DecodeOOK) => r.1 = -1 ∨ r.1 = 0 ∨ r.1 = 1)
        (fun _ => z _) (fun _ => ?_)
      refine ite_ind (P := fun (r : Int × DecodeOOK) => r.1 = -1 ∨ r.1 = 0 ∨ r.1 = 1)
        (fun _ => ?_) (fun _ => ?_)
      · refine ite_ind (P := fun (r : Int × DecodeOOK) => r.1 = -1 ∨ r.1 = 0 ∨ r.1 = 1)
          (fun _ => o _) (fun _ => ?_)
        exact ite_ind (P := fun (r : Int × DecodeOOK) => r.1 = -1 ∨ r.1 = 0 ∨ r.1 = 1)
          (fun _ => m1 _) (fun _ => z _)
      · refine ite_ind (P := fun (r : Int × DecodeOOK) => r.1 = -1 ∨ r.1 = 0 ∨ r.1 = 1)
          (fun _ => ?_) (fun _ => z _)
        refine ite_ind (P := fun (r : Int × DecodeOOK) => r.1 = -1 ∨ r.1 = 0 ∨ r.1 = 1)
          (fun _ => o _) (fun _ => ?_)
        exact ite_ind (P := fun (r : Int × DecodeOOK) => r.1 = -1 ∨ r.1 = 0 ∨ r.1 = 1)
          (fun _ => m1 _) (fun _ => z _)
  · exact ite_ind (P := fun (r : Int × DecodeOOK) => r.1 = -1 ∨ r.1 = 0 ∨ r.1 = 1)
      (fun _ => o _) (fun _ => m1 _)

theorem nextPulse_minus (k : Kind) (s : DecodeOOK) (w m : Nat) (hs : s.state ≠ DONE)
    (h : (decode k s w).1 = -1) :
    nextPulse k s w m = (false, resetDecoder (decode k s w).2) := by
  rw [nextPulse_go k s w m hs (by rw [h]; decide), if_pos h]

theorem nextPulse_zero (k : Kind) (s : DecodeOOK) (w m : Nat) (hs : s.state ≠ DONE)
    (h : (decode k s w).1 = 0) (ht : (decode k s w).2.state ≠ DONE) :
    nextPulse k s w m = (false, (decode k s w).2) := by
  rw [nextPulse_go k s w m hs (by rw [h]; decide), if_neg (by rw [h]; decide),
    decide_eq_false ht]

theorem report_done (x : DecodeOOK) (d2 : List Nat) (hl : x.data.length = d2.length)
    (hu : Upto x.pos x.data d2) :
    report (true, withData x d2) = report (true, x) := by
  show (if true = true then (true, getData (withData x d2)) else (false, 0, []))
    = (if true = true then (true, getData x) else (false, 0, []))
  rw [if_pos rfl, if_pos rfl]
  show (true, x.pos, d2.take x.pos) = (true, x.pos, x.data.take x.pos)
  rw [take_of_upto _ _ _ hl hu]

theorem nextPulse_rel (a : DecodeOOK) (d2 : List Nat) (w m : Nat) (hb : BytesOk a.data d2)
    (hc : KsCond a d2) :
    report (nextPulse .ksx (withData a d2) w m) = report (nextPulse .ksx a w m) ∧
    KsSim (nextPulse .ksx a w m).2 (nextPulse .ksx (withData a d2) w m).2 := by
  by_cases hd : a.state = DONE
  · have hu : Upto a.pos a.data d2 := by
      rcases hc with ⟨h1, -⟩ | ⟨h1, -⟩ | ⟨-, h⟩
      · have h2 : a.state = 0 ∨ a.state = 1 := h1
        have h3 : a.state = 8 := hd
        omega
      · have h2 : a.state = 6 ∨ a.state = 2 ∨ a.state = 3 := h1
        have h3 : a.state = 8 := hd
        omega
      · exact h
    rw [nextPulse_done .ksx a w m hd, nextPulse_done .ksx (withData a d2) w m hd]
    exact ⟨report_done a d2 hb.1 hu, rfl, hb, hc⟩
  · have hdec : KsDec (decode .ksx a w) (decode .ksx (withData a d2) w) :=
      ksxDecode_rel a d2 w hb hc hd
    obtain ⟨e1, e2, hb1, h0, h1⟩ := hdec
    have hdb : (withData a d2).state ≠ DONE := hd
    rcases ksxDecode_range a w with hr | hr | hr
    · have hra : (decode .ksx a w).1 = -1 := hr
      have hrb : (decode .ksx (withData a d2) w).1 = -1 := e1.trans hra
      rw [nextPulse_minus .ksx a w m hd hra, nextPulse_minus .ksx (withData a d2) w m hdb hrb]
      exact ⟨rfl, congrArg resetDecoder e2, hb1, Or.inl ⟨Or.inl rfl, rfl⟩⟩
    · have hra : (decode .ksx a w).1 = 0 := hr
      have hrb : (decode .ksx (withData a d2) w).1 = 0 := e1.trans hra
      obtain ⟨hcond, hnd⟩ := h0 hra
      have hndb : (decode .ksx (withData a d2) w).2.state ≠ DONE := by
        have e3 := congrArg DecodeOOK.state e2
        have e4 : (decode .ksx (withData a d2) w).2.state = (decode .ksx a w).2.state := e3
        rw [e4]
        exact hnd
      rw [nextPulse_zero .ksx a w m hd hra hnd,
        nextPulse_zero .ksx (withData a d2) w m hdb hrb hndb]
      exact ⟨rfl, e2, hb1, hcond⟩
    · have hra : (decode .ksx a w).1 = 1 := hr
      have hrb : (decode .ksx (withData a d2) w).1 = 1 := e1.trans hra
      obtain ⟨pe, pb, pu, -⟩ := padLoop_padRel 7 (decode .ksx a w).2
        (decode .ksx (withData a d2) w).2.data hb1 (h1 hra)
      have hcb : completed .ksx (withData a d2) w =
          withData (completed .ksx a w)
            (padLoop 7 (withData (decode .ksx a w).2 (decode .ksx (withData a d2) w).2.data)).data :=
        (congrArg (padLoop 7) e2).trans pe
      obtain ⟨-, -, -, -, -, -, c7, -, -, -, c11⟩ := checkRepeats_spec (completed .ksx a w) m
      have pu1 : Upto (completed .ksx a w).pos (completed .ksx a w).data
          (padLoop 7 (withData (decode .ksx a w).2 (decode .ksx (withData a d2) w).2.data)).data :=
        pu
      have pb1 : BytesOk (completed .ksx a w).data
          (padLoop 7 (withData (decode .ksx a w).2 (decode .ksx (withData a d2) w).2.data)).data :=
        pb
      rw [nextPulse_complete .ksx a w m hd hra,
        nextPulse_complete .ksx (withData a d2) w m hdb hrb, hcb,
        checkRepeats_data _ _ m pu1]
      rw [← c7, ← c11] at pu1
      rw [← c11] at pb1
      cases hcr : (checkRepeats (completed .ksx a w) m).1
      · rw [if_pos rfl, if_pos rfl]
        exact ⟨report_done _ _ pb1.1 pu1, rfl, pb1, Or.inr (Or.inr ⟨rfl, pu1⟩)⟩
      · rw [if_neg (by decide), if_neg (by decide)]
        exact ⟨rfl, rfl, pb1, Or.inl ⟨Or.inl rfl, rfl⟩⟩

theorem reports_rel (ops : List Op) : ∀ (a : DecodeOOK) (d2 : List Nat), BytesOk a.data d2 →
    KsCond a d2 → reports .ksx (withData a d2) ops = reports .ksx a ops := by
  induction ops with
  | nil => exact fun _ _ _ _ => rfl
  | cons op ops ih =>
    intro a d2 hb hc
    cases op with
    | pulse w m =>
      obtain ⟨hr, e, hb1, hc1⟩ := nextPulse_rel a d2 w m hb hc
      show report (nextPulse .ksx (withData a d2) w m) ::
          reports .ksx (nextPulse .ksx (withData a d2) w m).2 ops =
        report (nextPulse .ksx a w m) :: reports .ksx (nextPulse .ksx a w m).2 ops
      have e5 : (nextPulse .ksx (withData a d2) w m).2 =
          withData (nextPulse .ksx a w m).2 (nextPulse .ksx (withData a d2) w m).2.data := e
      rw [hr, e5, ih _ _ hb1 hc1]
    | reset =>
      show reports .ksx (withData (resetDecoder a) d2) ops = reports .ksx (resetDecoder a) ops
      exact ih _ _ hb (Or.inl ⟨Or.inl rfl, rfl⟩)

theorem ksx_t1_decode (s : DecodeOOK) (w : Nat) (hs : s.state = T1)
    (hw : 200 ≤ w ∧ w < 1000) :
    decode .ksx s w =
      if (ksxGotBit s 0).1 = true then (1, (ksxGotBit s 0).2)
      else if decide (600 ≤ w) = true then (-1, (ksxGotBit s 0).2)
      else (0, (ksxGotBit s 0).2) := by
  have h0 : ¬ s.state = UNKNOWN := by rw [hs]; decide
  have h1 : ¬ s.state = SYNC := by rw [hs]; decide
  have h2 : ¬ s.state = OK := by rw [hs]; decide
  have h3 : ¬ s.state = T0 := by rw [hs]; decide
  unfold decode ksxDecode
  exact (if_pos hw).trans ((if_neg h0).trans ((if_neg h1).trans ((if_neg h2).trans
    ((if_neg h3).trans (if_pos hs)))))

/-- C17: a weather-sensor decoder is in state `T1` (the first pulse of a bit
was long, so the bit is 0) at a marker position (`bitCount % 5 = 4`) and
receives the second pulse of the bit, any width in 200..999 us.  Then
`KSxDecoder::gotBit` rejects the bit, `nextPulse` returns `false` and leaves the
decoder reset (`state = UNKNOWN`, `pos = bits = flip = 0`).  And nothing the
buffer holds at that moment is ever reported: for every later sequence of
`nextPulse` and `resetDecoder` calls, the results of `nextPulse` and the count
and bytes of every completed packet are the same as if the buffer held any
other bytes `d` (buffers of the same size whose first entry is a byte). -/
theorem ksx_marker_zero_aborts (s : DecodeOOK) (w m : Nat) (hs : s.state = T1)
    (hc : s.bitCount % 5 = 4) (hw : 200 ≤ w ∧ w < 1000) :
    (ksxGotBit s 0).1 = false ∧
    nextPulse .ksx s w m = (false, resetDecoder s) ∧
    IsReset (nextPulse .ksx s w m).2 ∧
    ∀ (d : List Nat) (ops : List Op), d.length = s.data.length → rd s 0 < 256 →
      d.getD 0 0 < 256 →
      reports .ksx (withData (nextPulse .ksx s w m).2 d) ops =
        reports .ksx (nextPulse .ksx s w m).2 ops := by
  have hg : ksxGotBit s 0 = (false, resetDecoder s) := ksxGotBit_b4 s (not_not.mpr hc)
  have hd : s.state ≠ DONE := by rw [hs]; decide
  have hdec := ksx_t1_decode s w hs hw
  rw [hg, if_neg (show ¬ (false = true) by decide)] at hdec
  have hn : nextPulse .ksx s w m = (false, resetDecoder s) := by
    by_cases hl : decide (600 ≤ w) = true
    · rw [if_pos hl] at hdec
      rw [nextPulse_minus .ksx s w m hd (by rw [hdec]), hdec]
      rfl
    · rw [if_neg hl] at hdec
      rw [nextPulse_zero .ksx s w m hd (by rw [hdec])
        (by rw [hdec]; exact fun h => absurd (show (0 : Nat) = 8 from h) (by decide)), hdec]
  refine ⟨by rw [hg], hn, by rw [hn]; exact isReset_resetDecoder s, ?_⟩
  intro d ops hlen hb1 hb2
  rw [hn]
  exact reports_rel ops (resetDecoder s) d ⟨hlen.symm, hb1, hb2⟩ (Or.inl ⟨Or.inl rfl, rfl⟩)

/-- Instance of C17: the fifth bit of a packet arrives as 0; the packet is
dropped, and the next frame is reported with the same bytes whether the
buffer still holds the four bits of the dropped packet (`data[0] = 208`) or
zeros. -/
theorem ksx_marker_zero_aborts_witness :
    ksxBadMarker.state = T1 ∧ ksxBadMarker.bitCount = 4 ∧ rd ksxBadMarker 0 = 208 ∧
    nextPulse .ksx ksxBadMarker 200 0 = (false, resetDecoder ksxBadMarker) ∧
    reports .ksx (withData (nextPulse .ksx ksxBadMarker 200 0).2 (List.replicate 25 0))
        ksxNextFrame =
      reports .ksx (nextPulse .ksx ksxBadMarker 200 0).2 ksxNextFrame ∧
    (reports .ksx (resetDecoder ksxBadMarker) ksxNextFrame).getLast? =
      some (true, 5, [209, 185, 42, 70, 213]) :=
  ⟨by decide!, by decide!, by decide!,
   (ksx_marker_zero_aborts ksxBadMarker 200 0 (by decide!) (by decide!) (by decide)).2.1,
   (ksx_marker_zero_aborts ksxBadMarker 200 0 (by decide!) (by decide!) (by decide)).2.2.2
      (List.replicate 25 0) ksxNextFrame (by decide!) (by decide!) (by decide!),
   by decide!⟩

end OOK
